import Mathlib

/-!
# Evolution subsystem: transitions, users and provider registration

A shallow embedding of

* `src/evo/transition.h`      (`CTransition`, `SerializationOp`),
* `src/evo/tsvalidation.cpp`  (check / process / undo of transitions),
* `src/evo/providertx.cpp`    (`CheckProviderTxRegister`),

followed by theorems about these definitions.

Conventions of the embedding.

* A C++ function `bool f(..., CValidationState& state)` becomes a function returning a
  `Verdict`: `state.DoS(level, false, code, reason)` is `Verdict.DoS level code reason`,
  `state.Error(msg)` is `Verdict.Error msg` and `return true` is `Verdict.ok`.
* An argument taken by non-const reference (`CEvoUser& user`, the `users` map) is returned
  next to the verdict, also when the verdict is a failure, because the C++ code leaves its
  partial modifications in place.
* A C++ exception is the `error` side of `Except Exn`.
* `CAmount` (`int64_t`) and the other signed integers are embedded as `Int`.  Signed
  overflow is undefined behaviour in C++; all statements below are about executions
  without it.
* `uint256` and `CKeyID` (a `uint160`) are embedded as the `Nat` their octets denote in
  little-endian order; the null value is `0`.
-/

set_option autoImplicit false

namespace Evo

/-! ## Primitive types -/

/-- One octet of a serialized stream (`unsigned char`). -/
abbrev Byte := Fin 256

/-- Exceptions that cross function boundaries in the embedded code. -/
inductive Exn where
  | ios_base_failure (what : String)
deriving DecidableEq, Repr

/-- Reject codes used by the embedded validators. -/
inductive RejectCode where
  | REJECT_INVALID
  | REJECT_DUPLICATE
deriving DecidableEq, Repr

/-- What a validator leaves in `CValidationState`, together with its boolean result. -/
inductive Verdict where
  | ok
  | DoS (level : Nat) (code : RejectCode) (reason : String)
  | Error (msg : String)
deriving DecidableEq, Repr

/-- The boolean a validator returns. -/
def Verdict.toBool : Verdict → Bool
  | .ok => true
  | _ => false

/-! ## Stream primitives

`serialize.h` and `streams.h` lie outside the files embedded here.  The definitions of this section
follow the base protocol they implement: fixed-width integers in little-endian order and
vectors prefixed by a compact size. -/

/-- Low octet of a number. -/
def byteOf (n : Nat) : Byte := ⟨n % 256, Nat.mod_lt _ (by decide)⟩

/-- Modelled from the spec: `n` octets of `x` in little-endian order (`ser_writedata*`). -/
def writeLE : Nat → Nat → List Byte
  | 0, _ => []
  | n + 1, x => byteOf x :: writeLE n (x / 256)

/-- Modelled from the spec: the number denoted by octets in little-endian order. -/
def fromLE : List Byte → Nat
  | [] => 0
  | b :: bs => b.val + 256 * fromLE bs

/-- Modelled from the spec: `CDataStream::read`, which throws at the end of the data. -/
def readBytes (n : Nat) (s : List Byte) : Except Exn (List Byte × List Byte) :=
  if s.length < n then .error (.ios_base_failure "CDataStream::read(): end of data")
  else .ok (s.take n, s.drop n)

/-- Two's complement reading of an unsigned value of the given width. -/
def toSigned (bits : Nat) (u : Nat) : Int :=
  if u < 2 ^ (bits - 1) then (u : Int) else (u : Int) - 2 ^ bits

/-- Two's complement representative of a signed value at the given width. -/
def toUnsigned (bits : Nat) (x : Int) : Nat := (x % 2 ^ bits).toNat

/-- The conversion to `int8_t`. -/
def toInt8 (x : Int) : Int := toSigned 8 (toUnsigned 8 x)

/-- Modelled from the spec: a signed integer of `n` octets (`int8_t`, `int32_t`, `int64_t`). -/
def writeInt (n : Nat) (x : Int) : List Byte := writeLE n (toUnsigned (8 * n) x)

/-- Modelled from the spec: reading a signed integer of `n` octets. -/
def readInt (n : Nat) (s : List Byte) : Except Exn (Int × List Byte) :=
  match readBytes n s with
  | .error e => .error e
  | .ok (bs, rest) => .ok (toSigned (8 * n) (fromLE bs), rest)

/-- Modelled from the spec: a fixed-width blob (`uint256` is 32 octets, `CKeyID` is 20). -/
def writeBlob (n : Nat) (x : Nat) : List Byte := writeLE n x

/-- Modelled from the spec: reading a fixed-width blob. -/
def readBlob (n : Nat) (s : List Byte) : Except Exn (Nat × List Byte) :=
  match readBytes n s with
  | .error e => .error e
  | .ok (bs, rest) => .ok (fromLE bs, rest)

/-- Modelled from the spec: the largest size `ReadCompactSize` accepts. -/
def MAX_SIZE : Nat := 0x02000000

/-- Modelled from the spec: `WriteCompactSize`. -/
def WriteCompactSize (n : Nat) : List Byte :=
  if n < 253 then [byteOf n]
  else if n ≤ 0xFFFF then byteOf 253 :: writeLE 2 n
  else if n ≤ 0xFFFFFFFF then byteOf 254 :: writeLE 4 n
  else byteOf 255 :: writeLE 8 n

/-- Modelled from the spec: `ReadCompactSize`, with its canonical-encoding and size checks. -/
def ReadCompactSize (s : List Byte) : Except Exn (Nat × List Byte) :=
  match readBytes 1 s with
  | .error e => .error e
  | .ok (hd, rest) =>
    let chSize := fromLE hd
    let body : Except Exn (Nat × List Byte) :=
      if chSize < 253 then .ok (chSize, rest)
      else
        let width := if chSize = 253 then 2 else if chSize = 254 then 4 else 8
        let least := if chSize = 253 then 253 else if chSize = 254 then 0x10000 else 0x100000000
        match readBytes width rest with
        | .error e => .error e
        | .ok (bs, rest2) =>
          if fromLE bs < least then .error (.ios_base_failure "non-canonical ReadCompactSize()")
          else .ok (fromLE bs, rest2)
    match body with
    | .error e => .error e
    | .ok (nSize, rest3) =>
      if nSize > MAX_SIZE then .error (.ios_base_failure "ReadCompactSize(): size too large")
      else .ok (nSize, rest3)

/-- Modelled from the spec: `std::vector<unsigned char>` on the wire. -/
def writeVarBytes (v : List Byte) : List Byte := WriteCompactSize v.length ++ v

/-- Modelled from the spec: reading a `std::vector<unsigned char>`. -/
def readVarBytes (s : List Byte) : Except Exn (List Byte × List Byte) :=
  match ReadCompactSize s with
  | .error e => .error e
  | .ok (n, rest) => readBytes n rest

/-- The elements of a vector of byte vectors, one after the other. -/
def writeVarBytesList : List (List Byte) → List Byte
  | [] => []
  | v :: vs => writeVarBytes v ++ writeVarBytesList vs

/-- Reading a given number of byte vectors. -/
def readVarBytesList : Nat → List Byte → Except Exn (List (List Byte) × List Byte)
  | 0, s => .ok ([], s)
  | n + 1, s =>
    match readVarBytes s with
    | .error e => .error e
    | .ok (v, rest) =>
      match readVarBytesList n rest with
      | .error e => .error e
      | .ok (vs, rest2) => .ok (v :: vs, rest2)

/-- Modelled from the spec: `std::vector<std::vector<unsigned char>>` on the wire. -/
def writeVarVec (vv : List (List Byte)) : List Byte :=
  WriteCompactSize vv.length ++ writeVarBytesList vv

/-- Modelled from the spec: reading a `std::vector<std::vector<unsigned char>>`. -/
def readVarVec (s : List Byte) : Except Exn (List (List Byte) × List Byte) :=
  match ReadCompactSize s with
  | .error e => .error e
  | .ok (n, rest) => readVarBytesList n rest

/-! ## `transition.h` -/

/-! The enumeration `TransitionAction` is embedded by its integer value, so that values
outside the enumerators can be represented. -/

def Transition_Invalid : Int := 0
def Transition_UpdateData : Int := 1
def Transition_ResetKey : Int := 2
def Transition_CloseAccount : Int := 3

/-- The class `CTransition` (data members of `transition.h`). -/
structure CTransition where
  nVersion : Int
  action : Int
  nFee : Int
  hashRegTx : Nat
  hashPrevTransition : Nat
  hashSTPacket : Nat
  newPubKeyID : Nat
  vchUserSig : List Byte
  vvchQuorumSigs : List (List Byte)
deriving DecidableEq, Repr

/-- A default-constructed `CTransition` (`CTransition() {}` with the member initialisers). -/
def CTransition.fresh : CTransition :=
  { nVersion := 0, action := Transition_Invalid, nFee := 0, hashRegTx := 0,
    hashPrevTransition := 0, hashSTPacket := 0, newPubKeyID := 0, vchUserSig := [],
    vvchQuorumSigs := [] }

/-- `CTransition::SerializationOp` with a writing stream: the octets written, or the
exception of the `default` branch. -/
def CTransition.Serialize (ts : CTransition) : Except Exn (List Byte) :=
  let _action := toInt8 ts.action
  let action : Int := _action
  let head := writeInt 4 ts.nVersion ++ writeInt 1 _action ++ writeInt 8 ts.nFee
    ++ writeBlob 32 ts.hashRegTx ++ writeBlob 32 ts.hashPrevTransition
  let tail := writeVarBytes ts.vchUserSig ++ writeVarVec ts.vvchQuorumSigs
  if action = Transition_UpdateData then .ok (head ++ writeBlob 32 ts.hashSTPacket ++ tail)
  else if action = Transition_ResetKey then .ok (head ++ writeBlob 20 ts.newPubKeyID ++ tail)
  else if action = Transition_CloseAccount then .ok (head ++ tail)
  else .error (.ios_base_failure "invalid transition action")

/-- `CTransition::SerializationOp` with a reading stream, run on the object `obj`: the
object after the read and the unread rest of the stream, or the exception thrown. -/
def CTransition.Unserialize (obj : CTransition) (s : List Byte) :
    Except Exn (CTransition × List Byte) :=
  match readInt 4 s with
  | .error e => .error e
  | .ok (nVersion, s1) =>
  match readInt 1 s1 with
  | .error e => .error e
  | .ok (_action, s2) =>
  let action : Int := _action
  match readInt 8 s2 with
  | .error e => .error e
  | .ok (nFee, s3) =>
  match readBlob 32 s3 with
  | .error e => .error e
  | .ok (hashRegTx, s4) =>
  match readBlob 32 s4 with
  | .error e => .error e
  | .ok (hashPrevTransition, s5) =>
  let obj1 : CTransition :=
    { obj with nVersion := nVersion, action := action, nFee := nFee, hashRegTx := hashRegTx,
               hashPrevTransition := hashPrevTransition }
  let payload : Except Exn (CTransition × List Byte) :=
    if action = Transition_UpdateData then
      match readBlob 32 s5 with
      | .error e => .error e
      | .ok (h, s6) => .ok ({ obj1 with hashSTPacket := h }, s6)
    else if action = Transition_ResetKey then
      match readBlob 20 s5 with
      | .error e => .error e
      | .ok (k, s6) => .ok ({ obj1 with newPubKeyID := k }, s6)
    else if action = Transition_CloseAccount then .ok (obj1, s5)
    else .error (.ios_base_failure "invalid transition action")
  match payload with
  | .error e => .error e
  | .ok (obj2, s6) =>
  match readVarBytes s6 with
  | .error e => .error e
  | .ok (vchUserSig, s7) =>
  match readVarVec s7 with
  | .error e => .error e
  | .ok (vvchQuorumSigs, s8) =>
    .ok ({ obj2 with vchUserSig := vchUserSig, vvchQuorumSigs := vvchQuorumSigs }, s8)

/-- The function `::GetSerializeSize(ts, ...)`: the number of octets `SerializationOp` writes. -/
def GetSerializeSize (ts : CTransition) : Except Exn Nat :=
  match ts.Serialize with
  | .error e => .error e
  | .ok bytes => .ok bytes.length

/-! ## `CEvoUser`

The class `CEvoUser` is declared in a header outside the files embedded here; only its uses in
`tsvalidation.cpp` and `rpcevo.cpp` are.  Its state and the methods used by the validators
are modelled from the data model of the specification (section 3, "UserAccount"). -/

/-- Modelled from the spec: the class `CEvoUser`, which is missing from the embedded files.
`pubKeys` is the key history, a stack whose top (the current key) is the last element. -/
structure CEvoUser where
  regTxId : Nat
  userName : String
  pubKeys : List Nat
  creditBalance : Int
  spentCredits : Int
  lastTransition : Nat
  closed : Bool
deriving DecidableEq, Repr

/-- Modelled from the spec: a default-constructed `CEvoUser()`, which is missing from the
embedded files: no name, no key, no credits, no transition, open. -/
def CEvoUser.fresh : CEvoUser :=
  { regTxId := 0, userName := "", pubKeys := [], creditBalance := 0, spentCredits := 0,
    lastTransition := 0, closed := false }

/-- Modelled from the spec: `CEvoUser::GetCreditBalance`. -/
def CEvoUser.GetCreditBalance (u : CEvoUser) : Int := u.creditBalance

/-- Modelled from the spec: `CEvoUser::GetSpentCredits`. -/
def CEvoUser.GetSpentCredits (u : CEvoUser) : Int := u.spentCredits

/-- Modelled from the spec: `CEvoUser::GetLastTransition`. -/
def CEvoUser.GetLastTransition (u : CEvoUser) : Nat := u.lastTransition

/-- Modelled from the spec: `CEvoUser::SetLastTransition`. -/
def CEvoUser.SetLastTransition (u : CEvoUser) (h : Nat) : CEvoUser :=
  { u with lastTransition := h }

/-- Modelled from the spec: `CEvoUser::IsClosed`. -/
def CEvoUser.IsClosed (u : CEvoUser) : Bool := u.closed

/-- Modelled from the spec: `CEvoUser::SetClosed`. -/
def CEvoUser.SetClosed (u : CEvoUser) (c : Bool) : CEvoUser := { u with closed := c }

/-- Modelled from the spec: `CEvoUser::GetCurPubKeyID`, the top of the key stack, if any. -/
def CEvoUser.GetCurPubKeyID (u : CEvoUser) : Option Nat := u.pubKeys.getLast?

/-- Modelled from the spec: `CEvoUser::PushPubKey` ("Reset-key pushes"). -/
def CEvoUser.PushPubKey (u : CEvoUser) (k : Nat) : CEvoUser :=
  { u with pubKeys := u.pubKeys ++ [k] }

/-- Modelled from the spec: `CEvoUser::PopPubKey` ("undo pops"): the key removed from the top
of the stack, or nothing when the stack is empty, and the user afterwards. -/
def CEvoUser.PopPubKey (u : CEvoUser) : Option Nat × CEvoUser :=
  (u.pubKeys.getLast?, { u with pubKeys := u.pubKeys.dropLast })

/-- Modelled from the spec: `CEvoUser::AddSpend` ("decreases creditBalance, increases
spentCredits"). -/
def CEvoUser.AddSpend (u : CEvoUser) (amount : Int) : CEvoUser :=
  { u with creditBalance := u.creditBalance - amount, spentCredits := u.spentCredits + amount }

/-- The collaborators of the transition validators whose bodies lie outside the embedded files:
the hash of a transition, the message a user signs and the message signature check. -/
structure TsEnv where
  GetHash : CTransition → Nat
  MakeSignMessage : CTransition → String
  VerifyMessage : Nat → String → List Byte → Bool

/-- Modelled from the spec: `CEvoUser::VerifySig`, the signature check "under the user's
current key"; a user without a key verifies nothing. -/
def CEvoUser.VerifySig (env : TsEnv) (u : CEvoUser) (msg : String) (sig : List Byte) : Bool :=
  match u.GetCurPubKeyID with
  | none => false
  | some k => env.VerifyMessage k msg sig

/-! ## `tsvalidation.h` and `tsvalidation.cpp` -/

def EVO_TS_MIN_FEE : Int := 1000
def EVO_TS_MAX_FEE : Int := EVO_TS_MIN_FEE * 10
def EVO_TS_MAX_SIZE : Nat := 1500

/-- The function `CheckTransitionSignatures`. -/
def CheckTransitionSignatures (env : TsEnv) (ts : CTransition) (user : CEvoUser) : Verdict :=
  if !user.VerifySig env (env.MakeSignMessage ts) ts.vchUserSig then
    .DoS 100 .REJECT_INVALID "bad-ts-usersig"
  else .ok

/-- The function `Process_UpdateData`. -/
def Process_UpdateData (env : TsEnv) (ts : CTransition) (user : CEvoUser) : CEvoUser × Verdict :=
  (user.SetLastTransition (env.GetHash ts), .ok)

/-- The function `Process_ResetKey`.  (`tsvalidation.cpp` names the member `newPubKey`;
`transition.h` declares it as `newPubKeyID`.) -/
def Process_ResetKey (ts : CTransition) (user : CEvoUser) : CEvoUser × Verdict :=
  (user.PushPubKey ts.newPubKeyID, .ok)

/-- The function `Process_CloseAccount`. -/
def Process_CloseAccount (_ts : CTransition) (user : CEvoUser) : CEvoUser × Verdict :=
  (user.SetClosed true, .ok)

/-- The function `Undo_UpdateData`. -/
def Undo_UpdateData (env : TsEnv) (ts : CTransition) (user : CEvoUser) : CEvoUser × Verdict :=
  if user.GetLastTransition ≠ env.GetHash ts then
    (user, .Error "unexpected last subtx for user")
  else (user.SetLastTransition ts.hashPrevTransition, .ok)

/-- The function `Undo_ResetKey`. -/
def Undo_ResetKey (ts : CTransition) (user : CEvoUser) : CEvoUser × Verdict :=
  let popped := user.PopPubKey
  if popped.1 ≠ some ts.newPubKeyID then (popped.2, .Error "unexpected key popped from user")
  else (popped.2, .ok)

/-- The function `Undo_CloseAccount`. -/
def Undo_CloseAccount (_ts : CTransition) (user : CEvoUser) : CEvoUser × Verdict :=
  if !user.IsClosed then (user, .Error "expected user to be closed")
  else (user.SetClosed false, .ok)

/-- The function `CheckTransitionForUser`.  The exception side is the one `GetSerializeSize`
lets through. -/
def CheckTransitionForUser (env : TsEnv) (ts : CTransition) (user : CEvoUser)
    (checkSigs : Bool) : Except Exn Verdict :=
  match GetSerializeSize ts with
  | .error e => .error e
  | .ok tsSize =>
    if tsSize > EVO_TS_MAX_SIZE then .ok (.DoS 100 .REJECT_INVALID "bad-ts-size")
    else if user.IsClosed then .ok (.DoS 100 .REJECT_INVALID "bad-ts-accountclosed")
    else if ts.nFee < EVO_TS_MIN_FEE ∨ ts.nFee > EVO_TS_MAX_FEE then
      .ok (.DoS 100 .REJECT_INVALID "bad-ts-fee")
    else if user.GetCreditBalance < ts.nFee then
      .ok (.DoS 100 .REJECT_INVALID "bad-ts-nocredits")
    else if ts.hashPrevTransition ≠ user.GetLastTransition then
      .ok (.DoS 100 .REJECT_INVALID "bad-ts-ancestor")
    else if checkSigs && !(CheckTransitionSignatures env ts user).toBool then
      .ok (CheckTransitionSignatures env ts user)
    else .ok .ok

/-- The function `ProcessTransitionForUser`. -/
def ProcessTransitionForUser (env : TsEnv) (ts : CTransition) (user : CEvoUser) :
    CEvoUser × Verdict :=
  let branch : Option (CEvoUser × Verdict) :=
    if ts.action = Transition_UpdateData then some (Process_UpdateData env ts user)
    else if ts.action = Transition_ResetKey then some (Process_ResetKey ts user)
    else if ts.action = Transition_CloseAccount then some (Process_CloseAccount ts user)
    else none
  match branch with
  | none => (user, .DoS 100 .REJECT_INVALID "bad-ts-action")
  | some (user1, v) =>
    if !v.toBool then (user1, v)
    else (user1.AddSpend ts.nFee, .ok)

/-- The function `UndoTransitionForUser`. -/
def UndoTransitionForUser (env : TsEnv) (ts : CTransition) (user : CEvoUser) :
    CEvoUser × Verdict :=
  let branch : Option (CEvoUser × Verdict) :=
    if ts.action = Transition_UpdateData then some (Undo_UpdateData env ts user)
    else if ts.action = Transition_ResetKey then some (Undo_ResetKey ts user)
    else if ts.action = Transition_CloseAccount then some (Undo_CloseAccount ts user)
    else none
  match branch with
  | none => (user, .Error "UndoTransition() -- unexpected transition action")
  | some (user1, v) =>
    if !v.toBool then (user1, v)
    else
      let user2 := user1.AddSpend (-ts.nFee)
      if user2.GetSpentCredits < 0 then
        (user2, .Error "UndoTransition() -- Unexpected negative spent credits")
      else (user2, .ok)

/-- The part of `CBlock` the validators read. -/
structure CBlock where
  hash : Nat
  vts : List CTransition
deriving DecidableEq, Repr

/-- The local `std::map<uint256, CEvoUser>` of the block functions. -/
abbrev UserMap := Nat → Option CEvoUser

/-- Assignment through a reference obtained from the map. -/
def UserMap.set (users : UserMap) (k : Nat) (u : CEvoUser) : UserMap :=
  fun x => if x = k then some u else users x

/-- The expression `users[k]`: the stored user, or a default-constructed one that
`operator[]` inserts. -/
def UserMap.index (users : UserMap) (k : Nat) : CEvoUser × UserMap :=
  match users k with
  | some u => (u, users)
  | none => (CEvoUser.fresh, users.set k CEvoUser.fresh)

/-- First loop of `ProcessTransitionsInBlockForUsers`: whether a hash is met that is already
in `tsHashes`. -/
def duplicateScan (env : TsEnv) : List CTransition → List Nat → Bool
  | [], _ => false
  | ts :: rest, tsHashes =>
    if env.GetHash ts ∈ tsHashes then true
    else duplicateScan env rest (env.GetHash ts :: tsHashes)

/-- Second loop of `ProcessTransitionsInBlockForUsers`. -/
def processLoop (env : TsEnv) : List CTransition → UserMap → Except Exn (UserMap × Verdict)
  | [], users => .ok (users, .ok)
  | ts :: rest, users =>
    let ref := users.index ts.hashRegTx
    match CheckTransitionForUser env ts ref.1 true with
    | .error e => .error e
    | .ok v =>
      if !v.toBool then .ok (ref.2, v)
      else
        let res := ProcessTransitionForUser env ts ref.1
        if !res.2.toBool then .ok (ref.2.set ts.hashRegTx res.1, res.2)
        else processLoop env rest (ref.2.set ts.hashRegTx res.1)

/-- The function `ProcessTransitionsInBlockForUsers`. -/
def ProcessTransitionsInBlockForUsers (env : TsEnv) (block : CBlock) (users : UserMap) :
    Except Exn (UserMap × Verdict) :=
  if duplicateScan env block.vts [] then .ok (users, .DoS 100 .REJECT_INVALID "bad-ts-dup")
  else processLoop env block.vts users

/-- The loop of `UndoTransitionsInBlock` as far as it touches the users, run over the
transitions in the order given. -/
def undoLoop (env : TsEnv) : List CTransition → UserMap → UserMap × Verdict
  | [], users => (users, .ok)
  | ts :: rest, users =>
    let ref := users.index ts.hashRegTx
    let res := UndoTransitionForUser env ts ref.1
    if !res.2.toBool then (ref.2.set ts.hashRegTx res.1, res.2)
    else undoLoop env rest (ref.2.set ts.hashRegTx res.1)

/-- The loop of `UndoTransitionsInBlock` ("undo in reversed order") on the users map: the
store deletions and the mempool re-add of the loop body do not touch the users. -/
def UndoTransitionsInBlockForUsers (env : TsEnv) (block : CBlock) (users : UserMap) :
    UserMap × Verdict :=
  undoLoop env block.vts.reverse users

/-! ### The user store and `ProcessTransitionsInBlock`

The class behind `evoUserDB` lies outside the files embedded here.  The store is modelled
from the registry contract of the specification (section 4.B): lookups by identifier and
write calls that return success or failure. -/

/-- A write call on the user store. -/
inductive StoreCall where
  | WriteTransition (ts : CTransition)
  | WriteTransitionBlockHash (tsHash blockHash : Nat)
  | WriteUser (user : CEvoUser)
deriving DecidableEq, Repr

/-- Modelled from the spec: the user store `evoUserDB`, which is missing from the embedded
files: users by identifier, transitions by hash, block hashes by transition hash, and the
write calls received so far, oldest first. -/
structure CEvoUserDb where
  users : Nat → Option CEvoUser
  transitions : Nat → Option CTransition
  transitionBlockHashes : Nat → Option Nat
  calls : List StoreCall

/-- The storage layer under the store: which write calls it completes. -/
structure StoreEnv where
  completes : StoreCall → Bool

/-- Modelled from the spec: `evoUserDB->GetUser(regTxId, user)`. -/
def CEvoUserDb.GetUser (db : CEvoUserDb) (regTxId : Nat) : Option CEvoUser := db.users regTxId

/-- Modelled from the spec: `evoUserDB->WriteTransition(ts)`: the store afterwards and the
boolean returned. -/
def CEvoUserDb.WriteTransition (store : StoreEnv) (env : TsEnv) (db : CEvoUserDb)
    (ts : CTransition) : CEvoUserDb × Bool :=
  if store.completes (.WriteTransition ts) then
    ({ db with
        transitions := fun h => if h = env.GetHash ts then some ts else db.transitions h
        calls := db.calls ++ [.WriteTransition ts] }, true)
  else ({ db with calls := db.calls ++ [.WriteTransition ts] }, false)

/-- Modelled from the spec: `evoUserDB->WriteTransitionBlockHash(tsHash, blockHash)`. -/
def CEvoUserDb.WriteTransitionBlockHash (store : StoreEnv) (db : CEvoUserDb)
    (tsHash blockHash : Nat) : CEvoUserDb × Bool :=
  if store.completes (.WriteTransitionBlockHash tsHash blockHash) then
    ({ db with
        transitionBlockHashes :=
          fun h => if h = tsHash then some blockHash else db.transitionBlockHashes h
        calls := db.calls ++ [.WriteTransitionBlockHash tsHash blockHash] }, true)
  else ({ db with calls := db.calls ++ [.WriteTransitionBlockHash tsHash blockHash] }, false)

/-- Modelled from the spec: `evoUserDB->WriteUser(user)`. -/
def CEvoUserDb.WriteUser (store : StoreEnv) (db : CEvoUserDb) (user : CEvoUser) :
    CEvoUserDb × Bool :=
  if store.completes (.WriteUser user) then
    ({ db with
        users := fun k => if k = user.regTxId then some user else db.users k
        calls := db.calls ++ [.WriteUser user] }, true)
  else ({ db with calls := db.calls ++ [.WriteUser user] }, false)

/-- The empty `std::map<uint256, CEvoUser>`. -/
def UserMap.empty : UserMap := fun _ => none

/-- The function template `GetUsers`, run over the identifiers in the order given: the map
afterwards and the flag `anyError`.  An identifier that is not found is emplaced and erased
again, which leaves the map as it was. -/
def GetUsers (db : CEvoUserDb) : List Nat → UserMap → Bool → UserMap × Bool
  | [], users, anyError => (users, anyError)
  | regTxId :: rest, users, anyError =>
    if (users regTxId).isSome then GetUsers db rest users anyError
    else
      match db.GetUser regTxId with
      | some user => GetUsers db rest (users.set regTxId user) anyError
      | none => GetUsers db rest users true

/-- The comparison `memcmp(a, b) <= 0` of two octet strings of the same length. -/
def memcmpLe : List Byte → List Byte → Bool
  | [], _ => true
  | _ :: _, [] => false
  | a :: as, b :: bs => if a < b then true else if b < a then false else memcmpLe as bs

/-- The order of `uint256` keys in `std::set` and `std::map`: `operator<` of `uint256`
compares the 32 octets in memory order (least significant first) with `memcmp`. -/
def uint256_le (a b : Nat) : Bool := memcmpLe (writeLE 32 a) (writeLE 32 b)

/-- The `std::set<uint256> regTxIds` of `GetUsersFromBlock`, in iteration order: the user
identifiers of the transitions of the block, without repetition, ascending in the order of
`uint256`. -/
def regTxIdsOf (block : CBlock) : List Nat :=
  ((block.vts.map fun ts => ts.hashRegTx).dedup).insertionSort (fun a b => uint256_le a b = true)

/-- The function `GetUsersFromBlock`: the boolean returned and the map afterwards. -/
def GetUsersFromBlock (db : CEvoUserDb) (block : CBlock) (users : UserMap) : Bool × UserMap :=
  let res := GetUsers db (regTxIdsOf block) users false
  (!res.2, res.1)

/-- The function `WriteUsers`, run over the keys of the map in the order given: the store
afterwards and the verdict. -/
def WriteUsers (store : StoreEnv) (users : UserMap) : List Nat → CEvoUserDb → CEvoUserDb × Verdict
  | [], db => (db, .ok)
  | k :: rest, db =>
    match users k with
    | none => WriteUsers store users rest db
    | some user =>
      let w := db.WriteUser store user
      if !w.2 then (w.1, .Error "WriteUsers() -- failed to write user")
      else WriteUsers store users rest w.1

/-- The loop over `block.vts` of `ProcessTransitionsInBlock` that writes the transitions:
the store afterwards and whether every write succeeded. -/
def writeTransitions (store : StoreEnv) (env : TsEnv) (blockHash : Nat) :
    List CTransition → CEvoUserDb → CEvoUserDb × Bool
  | [], db => (db, true)
  | ts :: rest, db =>
    let w1 := db.WriteTransition store env ts
    if !w1.2 then (w1.1, false)
    else
      let w2 := w1.1.WriteTransitionBlockHash store (env.GetHash ts) blockHash
      if !w2.2 then (w2.1, false)
      else writeTransitions store env blockHash rest w2.1

/-- What `ProcessTransitionsInBlock` leaves behind: the boolean returned, the validation
state (`Verdict.ok` when the state was not touched) and the store. -/
structure BlockOutcome where
  ret : Bool
  state : Verdict
  db : CEvoUserDb

/-- The function `ProcessTransitionsInBlock`.  `return error(...)` returns false and leaves
the validation state untouched.  The keys of the local map handed to `WriteUsers` are the
identifiers loaded by `GetUsersFromBlock`: an accepted run inserts no other key. -/
def ProcessTransitionsInBlock (env : TsEnv) (store : StoreEnv) (db : CEvoUserDb)
    (block : CBlock) (onlyCheck : Bool) : Except Exn BlockOutcome :=
  let loaded := GetUsersFromBlock db block UserMap.empty
  if !loaded.1 then
    .ok { ret := false, state := .DoS 100 .REJECT_INVALID "bad-ts-nouser", db := db }
  else
    match ProcessTransitionsInBlockForUsers env block loaded.2 with
    | .error e => .error e
    | .ok (users, v) =>
      if !v.toBool then .ok { ret := false, state := v, db := db }
      else if !onlyCheck then
        let w := writeTransitions store env block.hash block.vts db
        if !w.2 then .ok { ret := false, state := .ok, db := w.1 }
        else
          let wu := WriteUsers store users (regTxIdsOf block) w.1
          if !wu.2.toBool then .ok { ret := false, state := wu.2, db := wu.1 }
          else .ok { ret := true, state := .ok, db := wu.1 }
      else .ok { ret := true, state := .ok, db := db }

/-! ## `providertx.cpp`

`providertx.h`, `deterministicmns.h`, the chain parameters and the script, network-address
and signature classes lie outside the files embedded here.  The payload is embedded with the members
`CheckProviderTxRegister` reads; constants and collaborators are fields of `ProviderEnv`. -/

/-- A network endpoint (`CService`): address and port. -/
structure CService where
  ip : Nat
  port : Nat
deriving DecidableEq, Repr

/-- A script (`CScript`), as its octets. -/
abbrev CScript := List Byte

/-- A transaction output (`CTxOut`). -/
structure CTxOut where
  nValue : Int
  scriptPubKey : CScript
deriving DecidableEq, Repr

/-- The part of `CTransaction` the provider validator and its collaborators read. -/
structure CTransaction where
  vin : List (Nat × Nat)
  vout : List CTxOut
  extraPayload : List Byte
deriving DecidableEq, Repr

/-- The payload `CProviderTXRegisterMN`.  `nCollateralIndex` is embedded as an integer, which
covers a signed as well as an unsigned declaration of the member. -/
structure CProviderTXRegisterMN where
  nVersion : Int
  nProtocolVersion : Int
  nCollateralIndex : Int
  addr : CService
  keyIDOperator : Nat
  keyIDOwner : Nat
  scriptPayout : CScript
  inputsHash : Nat
  vchSig : List Byte
deriving DecidableEq, Repr

/-- An entry of the deterministic masternode list (`dmn->proTx`). -/
structure CDeterministicMN where
  proTxHash : Nat
  proTx : CProviderTXRegisterMN
deriving DecidableEq, Repr

/-- The part of `CBlockIndex` that is read. -/
structure CBlockIndex where
  nHeight : Int
deriving DecidableEq, Repr

/-- Constants and collaborators of `CheckProviderTxRegister` that lie outside the embedded files.
`isRegtest` is `Params().NetworkIDString() == CBaseChainParams::REGTEST`. -/
structure ProviderEnv where
  CURRENT_VERSION : Int
  MIN_EVO_PROTO_VERSION : Int
  PROTOCOL_VERSION : Int
  COIN : Int
  isRegtest : Bool
  GetTxPayload : CTransaction → Option CProviderTXRegisterMN
  IsValid : CService → Bool
  IsRoutable : CService → Bool
  IsPayToPublicKeyHash : CScript → Bool
  CalcTxInputsHash : CTransaction → Nat
  GetListAtHeight : Int → List CDeterministicMN
  IsDeterministicMNsSporkActive : Int → Bool
  SerializeHash : CProviderTXRegisterMN → Nat
  VerifyHash : Nat → Nat → List Byte → Bool

/-- The test `IsNull()` of a key identifier. -/
def CKeyID_IsNull (k : Nat) : Bool := decide (k = 0)

/-- The element `tx.vout[i]` together with the guard `i < 0 || i >= tx.vout.size()` that
precedes every access: nothing when the guard rejects the index. -/
def voutAt (tx : CTransaction) (i : Int) : Option CTxOut :=
  if i < 0 ∨ i ≥ (tx.vout.length : Int) then none else tx.vout[i.toNat]?

/-- The loop over `mnList.all_range()`: nothing when an entry has the address of `ptx`,
otherwise `keyIDs` with the operator and owner keys of all entries added. -/
def collectKeyIDs (ptx : CProviderTXRegisterMN) :
    List CDeterministicMN → List Nat → Option (List Nat)
  | [], keyIDs => some keyIDs
  | dmn :: rest, keyIDs =>
    if dmn.proTx.addr = ptx.addr then none
    else collectKeyIDs ptx rest (dmn.proTx.keyIDOwner :: dmn.proTx.keyIDOperator :: keyIDs)

/-- The block `if (pindex) ...` of `CheckProviderTxRegister`. -/
def checkAgainstList (env : ProviderEnv) (ptx : CProviderTXRegisterMN) (pindex : CBlockIndex) :
    Verdict :=
  let mnList := env.GetListAtHeight pindex.nHeight
  match collectKeyIDs ptx mnList [] with
  | none => .DoS 10 .REJECT_DUPLICATE "bad-provider-dup-addr"
  | some keyIDs =>
    if ptx.keyIDOperator ∈ keyIDs ∨ ptx.keyIDOwner ∈ keyIDs then
      .DoS 10 .REJECT_DUPLICATE "bad-provider-dup-key"
    else if ptx.keyIDOperator ≠ ptx.keyIDOwner
        ∧ env.IsDeterministicMNsSporkActive pindex.nHeight = false then
      .DoS 10 .REJECT_INVALID "bad-provider-owner-key-not-same"
    else .ok

/-- The end of `CheckProviderTxRegister`: the signature over the payload without signature. -/
def checkProviderSig (env : ProviderEnv) (ptx : CProviderTXRegisterMN) : Verdict :=
  let tmpPtx : CProviderTXRegisterMN := { ptx with vchSig := [] }
  if !env.VerifyHash (env.SerializeHash tmpPtx) ptx.keyIDOwner ptx.vchSig then
    .DoS 100 .REJECT_INVALID "bad-provider-sig"
  else .ok

/-- The part of `CheckProviderTxRegister` after the inputs hash: the block `if (pindex) ...`
and then the signature. -/
def checkListAndSig (env : ProviderEnv) (ptx : CProviderTXRegisterMN)
    (pindex : Option CBlockIndex) : Verdict :=
  let listVerdict : Verdict :=
    match pindex with
    | none => .ok
    | some pidx => checkAgainstList env ptx pidx
  if !listVerdict.toBool then listVerdict
  else checkProviderSig env ptx

/-- The function `CheckProviderTxRegister`. -/
def CheckProviderTxRegister (env : ProviderEnv) (tx : CTransaction)
    (pindex : Option CBlockIndex) : Verdict :=
  match env.GetTxPayload tx with
  | none => .DoS 100 .REJECT_INVALID "bad-tx-payload"
  | some ptx =>
    if ptx.nVersion ≠ env.CURRENT_VERSION then
      .DoS 100 .REJECT_INVALID "bad-provider-version"
    else if ptx.nProtocolVersion < env.MIN_EVO_PROTO_VERSION
        ∨ ptx.nProtocolVersion > env.PROTOCOL_VERSION then
      .DoS 10 .REJECT_INVALID "bad-provider-proto-version"
    else
      match voutAt tx ptx.nCollateralIndex with
      | none => .DoS 10 .REJECT_INVALID "bad-provider-collateral-index"
      | some collateral =>
        if collateral.nValue ≠ 1000 * env.COIN then
          .DoS 10 .REJECT_INVALID "bad-provider-collateral"
        else if !env.IsValid ptx.addr || (!env.isRegtest && !env.IsRoutable ptx.addr) then
          .DoS 10 .REJECT_INVALID "bad-provider-addr"
        else if !env.isRegtest && !env.IsRoutable ptx.addr then
          .DoS 10 .REJECT_INVALID "bad-provider-addr"
        else if CKeyID_IsNull ptx.keyIDOperator then
          .DoS 10 .REJECT_INVALID "bad-provider-key-operator"
        else if CKeyID_IsNull ptx.keyIDOwner then
          .DoS 10 .REJECT_INVALID "bad-provider-key-owner"
        else if !env.IsPayToPublicKeyHash ptx.scriptPayout then
          .DoS 10 .REJECT_INVALID "bad-provider-payee"
        else if collateral.scriptPubKey ≠ ptx.scriptPayout then
          .DoS 10 .REJECT_INVALID "bad-provider-payee-collateral"
        else if env.CalcTxInputsHash tx ≠ ptx.inputsHash then
          .DoS 100 .REJECT_INVALID "bad-provider-inputs-hash"
        else checkListAndSig env ptx pindex

/-- The function `CheckProviderTxRegister` without its second address test (the standalone
routability test after the combined one); everything else as in the source. -/
def CheckProviderTxRegister_singleAddrTest (env : ProviderEnv) (tx : CTransaction)
    (pindex : Option CBlockIndex) : Verdict :=
  match env.GetTxPayload tx with
  | none => .DoS 100 .REJECT_INVALID "bad-tx-payload"
  | some ptx =>
    if ptx.nVersion ≠ env.CURRENT_VERSION then
      .DoS 100 .REJECT_INVALID "bad-provider-version"
    else if ptx.nProtocolVersion < env.MIN_EVO_PROTO_VERSION
        ∨ ptx.nProtocolVersion > env.PROTOCOL_VERSION then
      .DoS 10 .REJECT_INVALID "bad-provider-proto-version"
    else
      match voutAt tx ptx.nCollateralIndex with
      | none => .DoS 10 .REJECT_INVALID "bad-provider-collateral-index"
      | some collateral =>
        if collateral.nValue ≠ 1000 * env.COIN then
          .DoS 10 .REJECT_INVALID "bad-provider-collateral"
        else if !env.IsValid ptx.addr || (!env.isRegtest && !env.IsRoutable ptx.addr) then
          .DoS 10 .REJECT_INVALID "bad-provider-addr"
        else if CKeyID_IsNull ptx.keyIDOperator then
          .DoS 10 .REJECT_INVALID "bad-provider-key-operator"
        else if CKeyID_IsNull ptx.keyIDOwner then
          .DoS 10 .REJECT_INVALID "bad-provider-key-owner"
        else if !env.IsPayToPublicKeyHash ptx.scriptPayout then
          .DoS 10 .REJECT_INVALID "bad-provider-payee"
        else if collateral.scriptPubKey ≠ ptx.scriptPayout then
          .DoS 10 .REJECT_INVALID "bad-provider-payee-collateral"
        else if env.CalcTxInputsHash tx ≠ ptx.inputsHash then
          .DoS 100 .REJECT_INVALID "bad-provider-inputs-hash"
        else checkListAndSig env ptx pindex

/-- Exceptions thrown through the RPC functions. -/
inductive RpcExn where
  | runtime_error (what : String)
  | ios_base_failure (what : String)
deriving DecidableEq, Repr

/-- A JSON value of a request (`UniValue`): a string, a boolean, or the null value that
indexing past the end of the parameters gives. -/
inductive UniValue where
  | null
  | str (s : String)
  | bool (b : Bool)
deriving DecidableEq, Repr

/-- The accessor `get_str()`, which throws on a value that is not a string. -/
def UniValue.get_str : UniValue → Except RpcExn String
  | .str s => .ok s
  | _ => .error (.runtime_error "JSON value is not a string as expected")

/-- The accessor `get_bool()`, which throws on a value that is not a boolean. -/
def UniValue.get_bool : UniValue → Except RpcExn Bool
  | .bool b => .ok b
  | _ => .error (.runtime_error "JSON value is not a boolean as expected")

/-- The part of `JSONRPCRequest` the functions read. -/
structure JSONRPCRequest where
  fHelp : Bool
  params : List UniValue
deriving DecidableEq, Repr

/-- The expression `request.params[i]`. -/
def JSONRPCRequest.param (request : JSONRPCRequest) (i : Nat) : UniValue :=
  request.params.getD i .null

/-- Modelled from the spec: the transition mempool `tsMempool` (section 4.E), whose member
functions are missing from the embedded files: the transitions by hash and the set
`waitForRelay`. -/
structure CTsMempool where
  transitions : Nat → Option CTransition
  waitForRelay : List Nat

/-- Modelled from the spec: `AddTransition(ts)`, which "inserts if absent". -/
def CTsMempool.AddTransition (env : TsEnv) (m : CTsMempool) (ts : CTransition) : CTsMempool :=
  if (m.transitions (env.GetHash ts)).isSome then m
  else { m with transitions := fun h => if h = env.GetHash ts then some ts else m.transitions h }

/-- Modelled from the spec: `AddWaitForRelay(hash)`, insertion into the set. -/
def CTsMempool.AddWaitForRelay (m : CTsMempool) (tsHash : Nat) : CTsMempool :=
  if tsHash ∈ m.waitForRelay then m
  else { m with waitForRelay := m.waitForRelay ++ [tsHash] }

/-- Modelled from the spec: `CEvoUser::GetHashLastTransition`, the name under which
`rpcevo.cpp` reads the last transition of a user. -/
def CEvoUser.GetHashLastTransition (u : CEvoUser) : Nat := u.lastTransition

/-- Constants and collaborators of the RPC functions that lie outside the embedded files.
`CheckTransition` gives the boolean returned and the reject code left in the validation
state; `ParsePrivKeyID` is `ParsePrivKey(...).GetPubKey().GetID()`. -/
structure RpcEnv where
  ts : TsEnv
  REJECT_TS_ANCESTOR : Nat
  REJECT_TS_NOUSER : Nat
  REJECT_INSUFFICIENTFEE : Nat
  ParseHex : String → List Byte
  CheckTransition : CTsMempool → CTransition → Bool → Bool → Bool × Nat
  IsHex : String → Bool
  ParseHashStr : String → String → Except RpcExn Nat
  GetUserIdByName : String → Option Nat
  getRegTxIdFromUserName : String → Option Nat
  ParseMoney : String → Option Int
  ParsePrivKeyID : String → Except RpcExn Nat
  GetUser : Nat → Option CEvoUser
  BuildUserFromMempool : Nat → Option CEvoUser
  ApplyUserTransitionsFromMempool : CEvoUser → CEvoUser

/-- The function `GetRegTxId`. -/
def GetRegTxId (env : RpcEnv) (regTxIdOrUserName : String) : Except RpcExn Nat :=
  if env.IsHex regTxIdOrUserName = true ∧ regTxIdOrUserName.length = 64 then
    match env.ParseHashStr regTxIdOrUserName "regTxId" with
    | .error e => .error e
    | .ok regTxId =>
      if (env.GetUserIdByName regTxIdOrUserName).isSome then
        .error (.runtime_error "is ambiguous and could be a regTxId or a user name")
      else .ok regTxId
  else
    match env.GetUserIdByName regTxIdOrUserName with
    | some regTxId => .ok regTxId
    | none =>
      match env.getRegTxIdFromUserName regTxIdOrUserName with
      | some regTxId => .ok regTxId
      | none => .error (.runtime_error "user not found")

/-- The function `GetLastTransitionFromParams`. -/
def GetLastTransitionFromParams (env : RpcEnv) (request : JSONRPCRequest) (paramPos : Nat)
    (regTxId : Nat) : Except RpcExn Nat :=
  if request.params.length > paramPos then
    match (request.param paramPos).get_str with
    | .error e => .error e
    | .ok s => env.ParseHashStr s "hashLastTransition"
  else
    let found : Option CEvoUser :=
      match env.GetUser regTxId with
      | some user => some user
      | none => env.BuildUserFromMempool regTxId
    match found with
    | none => .error (.runtime_error "user not found")
    | some user => .ok (env.ApplyUserTransitionsFromMempool user).GetHashLastTransition

/-- The help text thrown by `createrawtransition`, with the invocation forms it documents. -/
def createrawtransition_help : String :=
  "createrawtransition type args...\n"
  ++ "  createrawtransition update   \"regTxId|username\" fee \"merkleRoot\" ( \"prevTransition\" )\n"
  ++ "  createrawtransition resetkey \"regTxId|username\" fee \"newKey\"     ( \"prevTransition\" )\n"
  ++ "  createrawtransition close    \"regTxId|username\" fee              ( \"prevTransition\" )\n"
  ++ "  createrawtransition close \"bob\" 0.00001"

/-- The function `createrawtransition` up to the transition it has built when it reaches
the serialization.  (`rpcevo.cpp` names the data hash `hashDataMerkleRoot`; `transition.h`
declares it as `hashSTPacket`.) -/
def createrawtransition_ts (env : RpcEnv) (request : JSONRPCRequest) :
    Except RpcExn CTransition :=
  if request.fHelp = true ∨ (request.params.length ≠ 4 ∧ request.params.length ≠ 5) then
    .error (.runtime_error createrawtransition_help)
  else do
    let action ← (request.param 0).get_str
    let ts0 : CTransition := { CTransition.fresh with nVersion := 0x00010000 }
    let regTxId ← GetRegTxId env (← (request.param 1).get_str)
    let ts1 : CTransition := { ts0 with hashRegTx := regTxId }
    let feeStr ← (request.param 2).get_str
    match env.ParseMoney feeStr with
    | none => .error (.runtime_error "invalid fee")
    | some nFee =>
      let ts2 : CTransition := { ts1 with nFee := nFee }
      if action = "update" then do
        let merkleRoot ← env.ParseHashStr (← (request.param 3).get_str) "merkleRoot"
        let prev ← GetLastTransitionFromParams env request 4 ts2.hashRegTx
        pure { ts2 with action := Transition_UpdateData, hashSTPacket := merkleRoot,
                        hashPrevTransition := prev }
      else if action = "resetkey" then do
        let keyID ← env.ParsePrivKeyID (← (request.param 3).get_str)
        let prev ← GetLastTransitionFromParams env request 4 ts2.hashRegTx
        pure { ts2 with action := Transition_ResetKey, newPubKeyID := keyID,
                        hashPrevTransition := prev }
      else if action = "close" then
        pure { ts2 with action := Transition_CloseAccount }
      else .error (.runtime_error "invalid command")

/-- The function `createrawtransition`: the octets whose hex form is returned. -/
def createrawtransition (env : RpcEnv) (request : JSONRPCRequest) :
    Except RpcExn (List Byte) :=
  match createrawtransition_ts env request with
  | .error e => .error e
  | .ok ts =>
    match ts.Serialize with
    | .error (.ios_base_failure what) => .error (.ios_base_failure what)
    | .ok bytes => .ok bytes

/-- What `sendrawtransition` leaves behind: the mempool, the transition hashes announced
to the peers, and the hash returned or the exception thrown. -/
structure SendOutcome where
  mempool : CTsMempool
  relayed : List Nat
  result : Except RpcExn Nat

/-- The function `sendrawtransition`. -/
def sendrawtransition (env : RpcEnv) (request : JSONRPCRequest) (mempool : CTsMempool) :
    SendOutcome :=
  if request.fHelp = true ∨ (request.params.length ≠ 1 ∧ request.params.length ≠ 2) then
    { mempool := mempool, relayed := [],
      result := .error (.runtime_error "sendrawtransition \"hexTs\" ( relay )") }
  else
    match (request.param 0).get_str with
    | .error e => { mempool := mempool, relayed := [], result := .error e }
    | .ok hexTs =>
      let relayArg : Except RpcExn Bool :=
        if request.params.length = 2 then (request.param 1).get_bool else .ok true
      match relayArg with
      | .error e => { mempool := mempool, relayed := [], result := .error e }
      | .ok relay =>
        match CTransition.Unserialize CTransition.fresh (env.ParseHex hexTs) with
        | .error (.ios_base_failure what) =>
          { mempool := mempool, relayed := [], result := .error (.ios_base_failure what) }
        | .ok (ts, _) =>
          let mempool1 := mempool.AddTransition env.ts ts
          let checked := env.CheckTransition mempool1 ts true true
          if checked.1 then
            { mempool := mempool1,
              relayed := if relay then [env.ts.GetHash ts] else [],
              result := .ok (env.ts.GetHash ts) }
          else
            let mempool2 :=
              if relay = true ∧ (checked.2 = env.REJECT_TS_ANCESTOR
                  ∨ checked.2 = env.REJECT_TS_NOUSER
                  ∨ checked.2 = env.REJECT_INSUFFICIENTFEE) then
                mempool1.AddWaitForRelay (env.ts.GetHash ts)
              else mempool1
            { mempool := mempool2, relayed := [],
              result := .error (.runtime_error "transition not valid") }

/-! ## `activemasternode.cpp`

The deterministic manager of the active masternode.  The functions write to the manager
itself, to the global `activeMasternode` and, through `SetMiscWarning`, to the warning of
the node; the three are passed and returned together.  Log output is left out. -/

/-- The states named in `activemasternode.cpp`. -/
inductive masternode_state_t where
  | MASTERNODE_WAITING_FOR_PROTX
  | MASTERNODE_READY
  | MASTERNODE_REMOVED
  | MASTERNODE_ERROR
deriving DecidableEq, Repr

/-- A transaction outpoint (`COutPoint`): a transaction hash and an index of 32 bits. -/
structure COutPoint where
  hash : Nat
  n : Nat
deriving DecidableEq, Repr

/-- The members of `CActiveMasternodeInfo` the manager uses. -/
structure CActiveMasternodeInfo where
  pubKeyIDMasternode : Nat
  proTxHash : Nat
  outpoint : COutPoint
  service : CService
deriving DecidableEq, Repr

/-- The members of `CActiveDeterministicMasternodeManager`. -/
structure CActiveDeterministicMasternodeManager where
  state : masternode_state_t
  strError : String
  proTx : CProviderTXRegisterMN
deriving DecidableEq, Repr

/-- The manager together with the globals its functions write to. -/
structure MasternodeGlobals where
  manager : CActiveDeterministicMasternodeManager
  activeMasternode : CActiveMasternodeInfo
  miscWarning : String
deriving DecidableEq, Repr

/-- Constants and collaborators of the manager that lie outside the embedded files.  A
function of the code that writes through a reference gives the boolean it returns next
to the value it leaves in the referenced object.  `sporkActiveAtTip` is
`IsDeterministicMNsSporkActive()` without a height, `keyIDMasternode` reads the member of
that name of a ProTx, and `SetNull` is `COutPoint::SetNull`. -/
structure MnEnv where
  fMasternodeMode : Bool
  PROTOCOL_VERSION : Int
  isRegtest : Bool
  sporkActiveAtTip : Bool
  IsDeterministicMNsSporkActive : Int → Bool
  GetRegisterMN : Nat → CProviderTXRegisterMN → Bool × CProviderTXRegisterMN
  HasMNAtChainTip : Nat → Bool
  HasMNAtHeight : Int → Nat → Bool
  GetLocal : CService → Bool × CService
  IsValidNetAddr : CService → Bool
  Lookup : String → CService → Nat → Bool → Bool × CService
  GetListenPort : Nat
  keyIDMasternode : CProviderTXRegisterMN → Nat
  SetNull : COutPoint → COutPoint

/-- The function `CActiveDeterministicMasternodeManager::GetLocalAddress`: the boolean
returned, the address left in `addrRet`, and the manager. -/
def CActiveDeterministicMasternodeManager.GetLocalAddress (env : MnEnv)
    (self : CActiveDeterministicMasternodeManager) (addrRet : CService) :
    Bool × CService × CActiveDeterministicMasternodeManager :=
  let got := env.GetLocal addrRet
  let fFoundLocal := got.1 && env.IsValidNetAddr got.2
  let looked : Bool × CService :=
    if (!fFoundLocal) && env.isRegtest then
      let r := env.Lookup "127.0.0.1" got.2 env.GetListenPort false
      (if r.1 then true else fFoundLocal, r.2)
    else (fFoundLocal, got.2)
  if !looked.1 then
    (false, looked.2,
      { self with strError := "Can't detect valid external address. Please consider using the externalip configuration option if problem persists. Make sure to use IPv4 address only." })
  else (true, looked.2, self)

/-- The function `CActiveDeterministicMasternodeManager::Init`. -/
def CActiveDeterministicMasternodeManager.Init (env : MnEnv) (w : MasternodeGlobals) :
    MasternodeGlobals :=
  if !env.fMasternodeMode then w
  else if !env.sporkActiveAtTip then w
  else
    let found := CActiveDeterministicMasternodeManager.GetLocalAddress env w.manager
      w.activeMasternode.service
    let am1 : CActiveMasternodeInfo := { w.activeMasternode with service := found.2.1 }
    if !found.1 then
      { w with manager := { found.2.2 with state := .MASTERNODE_ERROR }, activeMasternode := am1 }
    else
      let reg := env.GetRegisterMN am1.proTxHash found.2.2.proTx
      let m2 : CActiveDeterministicMasternodeManager := { found.2.2 with proTx := reg.2 }
      if !reg.1 then
        { w with manager := m2, activeMasternode := am1 }
      else if !env.HasMNAtChainTip am1.proTxHash then
        { w with manager := { m2 with state := .MASTERNODE_REMOVED }, activeMasternode := am1 }
      else if am1.pubKeyIDMasternode ≠ env.keyIDMasternode m2.proTx then
        { w with
          manager := { m2 with
            state := .MASTERNODE_ERROR
            strError := "Masternode private key does not match public key from ProTx" }
          activeMasternode := am1 }
      else if am1.service ≠ m2.proTx.addr then
        { w with
          manager := { m2 with
            state := .MASTERNODE_ERROR
            strError := "Local address does not match the address from ProTx" }
          activeMasternode := am1 }
      else if m2.proTx.nProtocolVersion ≠ env.PROTOCOL_VERSION then
        { w with
          manager := { m2 with
            state := .MASTERNODE_ERROR
            strError := "Local protocol version does not match version from ProTx. You may need to update the ProTx" }
          activeMasternode := am1 }
      else
        { w with
          manager := { m2 with state := .MASTERNODE_READY }
          activeMasternode := { am1 with
            outpoint := { hash := am1.proTxHash, n := toUnsigned 32 m2.proTx.nCollateralIndex } } }

/-- The function `CActiveDeterministicMasternodeManager::UpdatedBlockTip`. -/
def CActiveDeterministicMasternodeManager.UpdatedBlockTip (env : MnEnv) (w : MasternodeGlobals)
    (pindexNew : CBlockIndex) (_pindexFork : Option CBlockIndex) (_fInitialDownload : Bool) :
    MasternodeGlobals :=
  if !env.fMasternodeMode then w
  else if !env.IsDeterministicMNsSporkActive pindexNew.nHeight then w
  else if w.activeMasternode.proTxHash = 0 then
    { w with miscWarning := "Deterministic masternodes activated but you did not specifiy -masternodeprotx. Your masternode will never be enabled." }
  else if w.manager.state = .MASTERNODE_WAITING_FOR_PROTX then
    CActiveDeterministicMasternodeManager.Init env w
  else if w.manager.state = .MASTERNODE_READY then
    if !env.HasMNAtHeight pindexNew.nHeight w.activeMasternode.proTxHash then
      { w with
        manager := { w.manager with state := .MASTERNODE_REMOVED }
        activeMasternode := { w.activeMasternode with
          outpoint := env.SetNull w.activeMasternode.outpoint } }
    else w
  else w

/-! ## The admission rules in the words of the specification -/

/-- Rules 1 to 7 of the admission rules of a ProRegTx (specification, section 4.C), for the
decoded payload `ptx` of `tx` and the collateral output `c`. -/
def AdmissionRules1to7 (env : ProviderEnv) (tx : CTransaction) (ptx : CProviderTXRegisterMN)
    (c : CTxOut) : Prop :=
  ptx.nVersion = env.CURRENT_VERSION
  ∧ (env.MIN_EVO_PROTO_VERSION ≤ ptx.nProtocolVersion
      ∧ ptx.nProtocolVersion ≤ env.PROTOCOL_VERSION)
  ∧ (0 ≤ ptx.nCollateralIndex ∧ ptx.nCollateralIndex < (tx.vout.length : Int)
      ∧ tx.vout[ptx.nCollateralIndex.toNat]? = some c ∧ c.nValue = 1000 * env.COIN)
  ∧ (env.IsValid ptx.addr = true ∧ (env.isRegtest = false → env.IsRoutable ptx.addr = true))
  ∧ (ptx.keyIDOperator ≠ 0 ∧ ptx.keyIDOwner ≠ 0)
  ∧ (env.IsPayToPublicKeyHash ptx.scriptPayout = true ∧ ptx.scriptPayout = c.scriptPubKey)
  ∧ env.CalcTxInputsHash tx = ptx.inputsHash

/-- Rule 8: no entry of the list has the address of `ptx` or holds one of its keys. -/
def AdmissionRule8 (mnList : List CDeterministicMN) (ptx : CProviderTXRegisterMN) : Prop :=
  ∀ dmn ∈ mnList, dmn.proTx.addr ≠ ptx.addr
    ∧ dmn.proTx.keyIDOperator ≠ ptx.keyIDOperator ∧ dmn.proTx.keyIDOwner ≠ ptx.keyIDOperator
    ∧ dmn.proTx.keyIDOperator ≠ ptx.keyIDOwner ∧ dmn.proTx.keyIDOwner ≠ ptx.keyIDOwner

/-- The uniqueness invariant of the deterministic list: two different entries have different
addresses and neither holds the operator or owner key of the other. -/
def ListUnique (mnList : List CDeterministicMN) : Prop :=
  mnList.Pairwise fun a b =>
    a.proTx.addr ≠ b.proTx.addr
    ∧ a.proTx.keyIDOperator ≠ b.proTx.keyIDOperator ∧ a.proTx.keyIDOperator ≠ b.proTx.keyIDOwner
    ∧ a.proTx.keyIDOwner ≠ b.proTx.keyIDOperator ∧ a.proTx.keyIDOwner ≠ b.proTx.keyIDOwner

/-- Rules 1 to 6 of the admission rules of a ProRegTx, for the decoded payload `ptx` of `tx`
and the collateral output `c`: rules 1 to 7 without the inputs hash. -/
def AdmissionRules1to6 (env : ProviderEnv) (tx : CTransaction) (ptx : CProviderTXRegisterMN)
    (c : CTxOut) : Prop :=
  ptx.nVersion = env.CURRENT_VERSION
  ∧ (env.MIN_EVO_PROTO_VERSION ≤ ptx.nProtocolVersion
      ∧ ptx.nProtocolVersion ≤ env.PROTOCOL_VERSION)
  ∧ (0 ≤ ptx.nCollateralIndex ∧ ptx.nCollateralIndex < (tx.vout.length : Int)
      ∧ tx.vout[ptx.nCollateralIndex.toNat]? = some c ∧ c.nValue = 1000 * env.COIN)
  ∧ (env.IsValid ptx.addr = true ∧ (env.isRegtest = false → env.IsRoutable ptx.addr = true))
  ∧ (ptx.keyIDOperator ≠ 0 ∧ ptx.keyIDOwner ≠ 0)
  ∧ (env.IsPayToPublicKeyHash ptx.scriptPayout = true ∧ ptx.scriptPayout = c.scriptPubKey)

/-- The reasons of the rejections that carry score 100. -/
def seriousReasons : List String :=
  ["bad-tx-payload", "bad-provider-version", "bad-provider-inputs-hash", "bad-provider-sig"]

/-- The reasons of the rejections that carry score 10. -/
def minorReasons : List String :=
  ["bad-provider-proto-version", "bad-provider-collateral-index", "bad-provider-collateral",
   "bad-provider-addr", "bad-provider-key-operator", "bad-provider-key-owner",
   "bad-provider-payee", "bad-provider-payee-collateral", "bad-provider-dup-addr",
   "bad-provider-dup-key", "bad-provider-owner-key-not-same"]

/-- The score classes of the specification (section 4.C): a verdict is an acceptance, a
rejection with score 100 and a serious reason, or a rejection with score 10 and a minor
reason. -/
def ScoreClassified (v : Verdict) : Prop :=
  v = .ok
  ∨ (∃ code reason, v = .DoS 100 code reason ∧ reason ∈ seriousReasons)
  ∨ (∃ code reason, v = .DoS 10 code reason ∧ reason ∈ minorReasons)

/-- Applying a sequence of transitions to a user, in order: each step is
`ProcessTransitionForUser`, whose user is passed on. -/
def applyTransitions (env : TsEnv) (l : List CTransition) (u : CEvoUser) : CEvoUser :=
  l.foldl (fun user ts => (ProcessTransitionForUser env ts user).1) u

/-- Check with signatures, then process: the user afterwards, or nothing when the check or
the processing does not return true. -/
def checkThenProcess (env : TsEnv) (ts : CTransition) (u : CEvoUser) : Option CEvoUser :=
  match CheckTransitionForUser env ts u true with
  | .ok .ok =>
    if (ProcessTransitionForUser env ts u).2 = .ok then
      some (ProcessTransitionForUser env ts u).1
    else none
  | _ => none

/-- The conditions under which `Init` reports the masternode as ready. -/
def InitConditions (env : MnEnv) (w : MasternodeGlobals) : Prop :=
  env.fMasternodeMode = true
  ∧ env.sporkActiveAtTip = true
  ∧ (CActiveDeterministicMasternodeManager.GetLocalAddress env w.manager
      w.activeMasternode.service).1 = true
  ∧ (env.GetRegisterMN w.activeMasternode.proTxHash w.manager.proTx).1 = true
  ∧ env.HasMNAtChainTip w.activeMasternode.proTxHash = true
  ∧ w.activeMasternode.pubKeyIDMasternode
      = env.keyIDMasternode (env.GetRegisterMN w.activeMasternode.proTxHash w.manager.proTx).2
  ∧ (CActiveDeterministicMasternodeManager.GetLocalAddress env w.manager
      w.activeMasternode.service).2.1
      = (env.GetRegisterMN w.activeMasternode.proTxHash w.manager.proTx).2.addr
  ∧ (env.GetRegisterMN w.activeMasternode.proTxHash w.manager.proTx).2.nProtocolVersion
      = env.PROTOCOL_VERSION

instance (env : MnEnv) (w : MasternodeGlobals) : Decidable (InitConditions env w) := by
  unfold InitConditions
  infer_instance

/-- The tests behind the admission rules of a ProRegTx, in the order in which the
specification lists the rules (section 4.C); rules 3, 5, 6 and 8 have two tests each. -/
inductive AdmissionTest where
  | version
  | protoVersion
  | collateralIndex
  | collateralValue
  | addr
  | keyOperator
  | keyOwner
  | payee
  | payeeCollateral
  | inputsHash
  | dupAddr
  | dupKey
  | ownerOperator
  | signature
deriving DecidableEq, Repr

/-- The place of a test in the order of the rules. -/
def AdmissionTest.position : AdmissionTest → Nat
  | .version => 0
  | .protoVersion => 1
  | .collateralIndex => 2
  | .collateralValue => 3
  | .addr => 4
  | .keyOperator => 5
  | .keyOwner => 6
  | .payee => 7
  | .payeeCollateral => 8
  | .inputsHash => 9
  | .dupAddr => 10
  | .dupKey => 11
  | .ownerOperator => 12
  | .signature => 13

/-- The number of the admission rule a test belongs to. -/
def AdmissionTest.rule : AdmissionTest → Nat
  | .version => 1
  | .protoVersion => 2
  | .collateralIndex => 3
  | .collateralValue => 3
  | .addr => 4
  | .keyOperator => 5
  | .keyOwner => 5
  | .payee => 6
  | .payeeCollateral => 6
  | .inputsHash => 7
  | .dupAddr => 8
  | .dupKey => 8
  | .ownerOperator => 9
  | .signature => 10

/-- The score of a violated rule in the words of the specification: "any violation of
(1,7,10) scores 100 (serious), others score 10 (minor)". -/
def specScore (rule : Nat) : Nat :=
  if rule = 1 ∨ rule = 7 ∨ rule = 10 then 100 else 10

/-- The reject reason that names a test. -/
def AdmissionTest.reason : AdmissionTest → String
  | .version => "bad-provider-version"
  | .protoVersion => "bad-provider-proto-version"
  | .collateralIndex => "bad-provider-collateral-index"
  | .collateralValue => "bad-provider-collateral"
  | .addr => "bad-provider-addr"
  | .keyOperator => "bad-provider-key-operator"
  | .keyOwner => "bad-provider-key-owner"
  | .payee => "bad-provider-payee"
  | .payeeCollateral => "bad-provider-payee-collateral"
  | .inputsHash => "bad-provider-inputs-hash"
  | .dupAddr => "bad-provider-dup-addr"
  | .dupKey => "bad-provider-dup-key"
  | .ownerOperator => "bad-provider-owner-key-not-same"
  | .signature => "bad-provider-sig"

/-- The reject code of a test: a duplicate for the two tests of rule 8, invalid otherwise. -/
def AdmissionTest.code : AdmissionTest → RejectCode
  | .dupAddr => .REJECT_DUPLICATE
  | .dupKey => .REJECT_DUPLICATE
  | _ => .REJECT_INVALID

/-- What a test requires of the decoded payload `ptx` of `tx`, checked against the block
index `pindex` when there is one. -/
def AdmissionTest.Holds (env : ProviderEnv) (tx : CTransaction) (ptx : CProviderTXRegisterMN)
    (pindex : Option CBlockIndex) : AdmissionTest → Prop
  | .version => ptx.nVersion = env.CURRENT_VERSION
  | .protoVersion =>
    env.MIN_EVO_PROTO_VERSION ≤ ptx.nProtocolVersion
      ∧ ptx.nProtocolVersion ≤ env.PROTOCOL_VERSION
  | .collateralIndex => 0 ≤ ptx.nCollateralIndex ∧ ptx.nCollateralIndex < (tx.vout.length : Int)
  | .collateralValue =>
    ∃ c, tx.vout[ptx.nCollateralIndex.toNat]? = some c ∧ c.nValue = 1000 * env.COIN
  | .addr => env.IsValid ptx.addr = true ∧ (env.isRegtest = false → env.IsRoutable ptx.addr = true)
  | .keyOperator => ptx.keyIDOperator ≠ 0
  | .keyOwner => ptx.keyIDOwner ≠ 0
  | .payee => env.IsPayToPublicKeyHash ptx.scriptPayout = true
  | .payeeCollateral =>
    ∃ c, tx.vout[ptx.nCollateralIndex.toNat]? = some c ∧ ptx.scriptPayout = c.scriptPubKey
  | .inputsHash => env.CalcTxInputsHash tx = ptx.inputsHash
  | .dupAddr =>
    ∀ pidx, pindex = some pidx →
      ∀ dmn ∈ env.GetListAtHeight pidx.nHeight, dmn.proTx.addr ≠ ptx.addr
  | .dupKey =>
    ∀ pidx, pindex = some pidx →
      ∀ dmn ∈ env.GetListAtHeight pidx.nHeight,
        dmn.proTx.keyIDOperator ≠ ptx.keyIDOperator ∧ dmn.proTx.keyIDOwner ≠ ptx.keyIDOperator
        ∧ dmn.proTx.keyIDOperator ≠ ptx.keyIDOwner ∧ dmn.proTx.keyIDOwner ≠ ptx.keyIDOwner
  | .ownerOperator =>
    ∀ pidx, pindex = some pidx →
      env.IsDeterministicMNsSporkActive pidx.nHeight = false →
      ptx.keyIDOperator = ptx.keyIDOwner
  | .signature =>
    env.VerifyHash (env.SerializeHash { ptx with vchSig := [] }) ptx.keyIDOwner ptx.vchSig = true

/-! ## Concrete data for the examples -/

/-- A stand-in for the transition hash: the number denoted by the serialized
octets reduced modulo `2 ^ 256 - 189`, plus one; `0` for a transition that cannot be
serialized. -/
def exampleHash (ts : CTransition) : Nat :=
  match ts.Serialize with
  | .ok bytes => fromLE bytes % (2 ^ 256 - 189) + 1
  | .error _ => 0

/-- A stand-in environment: a signature is valid under a key when it is the 20 octets of the
key. -/
def exampleEnv : TsEnv :=
  { GetHash := exampleHash
    MakeSignMessage := fun _ => ""
    VerifyMessage := fun k _ sig => decide (sig = writeLE 20 k) }

/-- A user with one key (`5`), 150000 credits and no transition yet. -/
def exampleUser : CEvoUser :=
  { regTxId := 7, userName := "bob", pubKeys := [5], creditBalance := 150000,
    spentCredits := 0, lastTransition := 0, closed := false }

/-- An update of user `7`, signed with key `5`. -/
def exampleUpdate : CTransition :=
  { nVersion := 0x00010000, action := Transition_UpdateData, nFee := 1000, hashRegTx := 7,
    hashPrevTransition := 0, hashSTPacket := 99, newPubKeyID := 0,
    vchUserSig := writeLE 20 5, vvchQuorumSigs := [] }

/-- A key reset of user `7` to key `6`, following `exampleUpdate` and signed with key `5`. -/
def exampleReset : CTransition :=
  { nVersion := 0x00010000, action := Transition_ResetKey, nFee := 1000, hashRegTx := 7,
    hashPrevTransition := exampleHash exampleUpdate, hashSTPacket := 0, newPubKeyID := 6,
    vchUserSig := writeLE 20 5, vvchQuorumSigs := [] }

/-- A block with the update and the key reset. -/
def exampleBlock : CBlock := { hash := 1, vts := [exampleUpdate, exampleReset] }

/-- The users map holding `exampleUser` only. -/
def exampleUsers : UserMap := fun k => if k = 7 then some exampleUser else none

/-- The user `exampleUser` after `exampleUpdate`. -/
def exampleUserMid : CEvoUser :=
  { regTxId := 7, userName := "bob", pubKeys := [5], creditBalance := 149000,
    spentCredits := 1000, lastTransition := exampleHash exampleUpdate, closed := false }

/-- The user `exampleUser` after `exampleUpdate` and `exampleReset`. -/
def exampleUserAfter : CEvoUser :=
  { regTxId := 7, userName := "bob", pubKeys := [5, 6], creditBalance := 148000,
    spentCredits := 2000, lastTransition := exampleHash exampleUpdate, closed := false }

/-- The users map after `exampleBlock`: two assignments to the entry of user `7`. -/
def exampleUsersAfter : UserMap :=
  (exampleUsers.set 7 exampleUserMid).set 7 exampleUserAfter

/-- A user like `exampleUser` with only 500 credits. -/
def examplePoorUser : CEvoUser := { exampleUser with creditBalance := 500 }

/-- A stand-in payload decoder: three octets give the address and the two keys, everything
else is fixed; any other payload does not decode. -/
def exampleGetTxPayload (tx : CTransaction) : Option CProviderTXRegisterMN :=
  match tx.extraPayload with
  | [ip, op, owner] =>
    some { nVersion := 1, nProtocolVersion := 70208, nCollateralIndex := 0,
           addr := { ip := ip.val, port := 9999 }, keyIDOperator := op.val,
           keyIDOwner := owner.val, scriptPayout := [byteOf 118], inputsHash := tx.vin.length,
           vchSig := writeLE 4 (ip.val + owner.val) }
  | _ => none

/-- The entry registered by a payload with address `10` and keys `20`, `21`. -/
def exampleEntry : CDeterministicMN :=
  { proTxHash := 1000,
    proTx := { nVersion := 1, nProtocolVersion := 70208, nCollateralIndex := 0,
               addr := { ip := 10, port := 9999 }, keyIDOperator := 20, keyIDOwner := 21,
               scriptPayout := [byteOf 118], inputsHash := 1, vchSig := writeLE 4 31 } }

/-- A stand-in environment for the provider check: the list holds `exampleEntry` from height
10 on, the spork is active from height 20 on, a signature is the 4 octets of the sum of the
hash and the key. -/
def exampleProviderEnv : ProviderEnv :=
  { CURRENT_VERSION := 1
    MIN_EVO_PROTO_VERSION := 70208
    PROTOCOL_VERSION := 70208
    COIN := 100000000
    isRegtest := false
    GetTxPayload := exampleGetTxPayload
    IsValid := fun a => decide (a.ip ≠ 0)
    IsRoutable := fun a => decide (a.ip ≠ 127)
    IsPayToPublicKeyHash := fun s => decide (s = [byteOf 118])
    CalcTxInputsHash := fun tx => tx.vin.length
    GetListAtHeight := fun h => if 10 ≤ h then [exampleEntry] else []
    IsDeterministicMNsSporkActive := fun h => decide (20 ≤ h)
    SerializeHash := fun p => p.addr.ip
    VerifyHash := fun h k sig => decide (sig = writeLE 4 (h + k)) }

/-- A transaction with one input, a collateral output of 1000 coins and the payload octets
given. -/
def exampleProTx (payload : List Byte) : CTransaction :=
  { vin := [(77, 0)], vout := [{ nValue := 100000000000, scriptPubKey := [byteOf 118] }],
    extraPayload := payload }

/-- The transitions whose members are within the ranges of their C++ types (`int32_t`
version, `int64_t` fee, 256-bit hashes, 160-bit key identifier) and whose vectors are not
longer than `MAX_SIZE`, the largest size the reader accepts. -/
def CTransition.WithinLimits (ts : CTransition) : Prop :=
  (-(2 : Int) ^ 31 ≤ ts.nVersion ∧ ts.nVersion < (2 : Int) ^ 31)
  ∧ (-(2 : Int) ^ 63 ≤ ts.nFee ∧ ts.nFee < (2 : Int) ^ 63)
  ∧ ts.hashRegTx < 256 ^ 32 ∧ ts.hashPrevTransition < 256 ^ 32
  ∧ ts.hashSTPacket < 256 ^ 32 ∧ ts.newPubKeyID < 256 ^ 20
  ∧ ts.vchUserSig.length ≤ MAX_SIZE
  ∧ ts.vvchQuorumSigs.length ≤ MAX_SIZE
  ∧ ∀ v ∈ ts.vvchQuorumSigs, v.length ≤ MAX_SIZE

/-- A close-account transition that also carries a data hash. -/
def exampleClose : CTransition :=
  { nVersion := 0x00010000, action := Transition_CloseAccount, nFee := 1000, hashRegTx := 7,
    hashPrevTransition := 0, hashSTPacket := 99, newPubKeyID := 0,
    vchUserSig := [], vvchQuorumSigs := [] }

/-- The transition `exampleUpdate` with the action of a default-constructed transition. -/
def exampleInvalid : CTransition := { exampleUpdate with action := Transition_Invalid }

/-- A close-account transition of user `7` whose user signature has the given number of
octets. -/
def exampleSized (n : Nat) : CTransition :=
  { nVersion := 0x00010000, action := Transition_CloseAccount, nFee := 1000, hashRegTx := 7,
    hashPrevTransition := 0, hashSTPacket := 0, newPubKeyID := 0,
    vchUserSig := List.replicate n (byteOf 0), vvchQuorumSigs := [] }

/-- A store that holds `exampleUser` only and has received no write call. -/
def exampleDb : CEvoUserDb :=
  { users := exampleUsers, transitions := fun _ => none,
    transitionBlockHashes := fun _ => none, calls := [] }

/-- A storage layer that completes every write call. -/
def exampleStore : StoreEnv := { completes := fun _ => true }

/-- A block with the same transition twice. -/
def exampleDupBlock : CBlock := { hash := 2, vts := [exampleUpdate, exampleUpdate] }

/-- A second update of user `7`, following `exampleUpdate` and signed with key `5`. -/
def exampleUpdate2 : CTransition :=
  { nVersion := 0x00010000, action := Transition_UpdateData, nFee := 1000, hashRegTx := 7,
    hashPrevTransition := exampleHash exampleUpdate, hashSTPacket := 100, newPubKeyID := 0,
    vchUserSig := writeLE 20 5, vvchQuorumSigs := [] }

/-- The close-account transition of user `7`, following `exampleUpdate2` and signed with key
`5`. -/
def exampleCloseChained : CTransition :=
  { nVersion := 0x00010000, action := Transition_CloseAccount, nFee := 1000, hashRegTx := 7,
    hashPrevTransition := exampleHash exampleUpdate2, hashSTPacket := 0, newPubKeyID := 0,
    vchUserSig := writeLE 20 5, vvchQuorumSigs := [] }

/-- The octets of a transition, empty when it cannot be serialized. -/
def exampleBytes (ts : CTransition) : List Byte :=
  match ts.Serialize with
  | .ok bytes => bytes
  | .error _ => []

/-- A mempool without transitions. -/
def exampleMempool : CTsMempool :=
  { transitions := fun _ => none, waitForRelay := [] }

/-- A stand-in environment for the RPC functions.  The hex codec is replaced by three named
strings; the reject codes are three distinct numbers; `CheckTransition` knows the user `7`
in the state `exampleUser` and validates with `CheckTransitionForUser`; the user store
holds "bob" as user `7` in the state `exampleUserMid`; a hash string is read as its
length. -/
def exampleRpcEnv : RpcEnv :=
  { ts := exampleEnv
    REJECT_TS_ANCESTOR := 0x50
    REJECT_TS_NOUSER := 0x51
    REJECT_INSUFFICIENTFEE := 0x42
    ParseHex := fun s =>
      if s = "update" then exampleBytes exampleUpdate
      else if s = "update2" then exampleBytes exampleUpdate2
      else if s = "sized" then exampleBytes (exampleSized 1500)
      else []
    CheckTransition := fun _ ts checkSigs _ =>
      if ts.hashRegTx ≠ 7 then (false, 0x51)
      else
        match CheckTransitionForUser exampleEnv ts exampleUser checkSigs with
        | .ok .ok => (true, 0)
        | .ok (.DoS _ _ reason) =>
          if reason = "bad-ts-ancestor" then (false, 0x50)
          else if reason = "bad-ts-nocredits" then (false, 0x42)
          else (false, 0x10)
        | _ => (false, 0x10)
    IsHex := fun _ => false
    ParseHashStr := fun s _ => .ok s.length
    GetUserIdByName := fun s => if s = "bob" then some 7 else none
    getRegTxIdFromUserName := fun _ => none
    ParseMoney := fun s => if s = "0.00001" then some 1000 else none
    ParsePrivKeyID := fun s => .ok s.length
    GetUser := fun k => if k = 7 then some exampleUserMid else none
    BuildUserFromMempool := fun _ => none
    ApplyUserTransitionsFromMempool := fun u => u }

/-- A stand-in environment for the masternode manager: the local address is `10:9999`, the
registration `1000` is `exampleEntry`, in the list from height 10 to height 99, and the
masternode key of a ProTx is its operator key. -/
def exampleMnEnv : MnEnv :=
  { fMasternodeMode := true
    PROTOCOL_VERSION := 70208
    isRegtest := false
    sporkActiveAtTip := true
    IsDeterministicMNsSporkActive := fun h => decide (20 ≤ h)
    GetRegisterMN := fun h old => if h = 1000 then (true, exampleEntry.proTx) else (false, old)
    HasMNAtChainTip := fun h => decide (h = 1000)
    HasMNAtHeight := fun height h => decide (h = 1000 ∧ 10 ≤ height ∧ height < 100)
    GetLocal := fun _ => (true, { ip := 10, port := 9999 })
    IsValidNetAddr := fun a => decide (a.ip ≠ 0)
    Lookup := fun _ old _ _ => (false, old)
    GetListenPort := 9999
    keyIDMasternode := fun p => p.keyIDOperator
    SetNull := fun _ => { hash := 0, n := 4294967295 } }

/-- A manager waiting for the registration `1000`, configured with the key `20`. -/
def exampleGlobals : MasternodeGlobals :=
  { manager :=
      { state := .MASTERNODE_WAITING_FOR_PROTX, strError := "",
        proTx := { nVersion := 0, nProtocolVersion := 0, nCollateralIndex := 0,
                   addr := { ip := 0, port := 0 }, keyIDOperator := 0, keyIDOwner := 0,
                   scriptPayout := [], inputsHash := 0, vchSig := [] } }
    activeMasternode :=
      { pubKeyIDMasternode := 20, proTxHash := 1000,
        outpoint := { hash := 0, n := 4294967295 }, service := { ip := 0, port := 0 } }
    miscWarning := "" }

/-- The environment `exampleRpcEnv` with another stand-in for `CheckTransition`: it checks
the transition against the user `exampleUser` with `CheckTransitionForUser` and leaves the
reject code of that verdict as it is, `REJECT_INVALID` being `0x10` and `REJECT_DUPLICATE`
being `0x12`. -/
def examplePassThroughEnv : RpcEnv :=
  { exampleRpcEnv with
    CheckTransition := fun _ ts checkSigs _ =>
      match CheckTransitionForUser exampleEnv ts exampleUser checkSigs with
      | .ok .ok => (true, 0)
      | .ok (.DoS _ .REJECT_INVALID _) => (false, 0x10)
      | .ok (.DoS _ .REJECT_DUPLICATE _) => (false, 0x12)
      | .ok (.Error _) => (false, 0)
      | .error _ => (false, 0) }

/-! # Theorems -/

set_option maxRecDepth 100000

/-! ## Lemmas on the transition validators -/

theorem CEvoUser.pop_push (u : CEvoUser) (k : Nat) :
    (u.PushPubKey k).PopPubKey = (some k, u) := by
  cases u
  simp [CEvoUser.PushPubKey, CEvoUser.PopPubKey]

theorem process_update (env : TsEnv) (ts : CTransition) (u : CEvoUser) (h : ts.action = 1) :
    ProcessTransitionForUser env ts u
      = ((u.SetLastTransition (env.GetHash ts)).AddSpend ts.nFee, .ok) := by
  simp [ProcessTransitionForUser, Transition_UpdateData, h, Process_UpdateData, Verdict.toBool]

theorem process_reset (env : TsEnv) (ts : CTransition) (u : CEvoUser) (h : ts.action = 2) :
    ProcessTransitionForUser env ts u = ((u.PushPubKey ts.newPubKeyID).AddSpend ts.nFee, .ok) := by
  simp [ProcessTransitionForUser, Transition_UpdateData, Transition_ResetKey, h, Process_ResetKey,
    Verdict.toBool]

theorem process_close (env : TsEnv) (ts : CTransition) (u : CEvoUser) (h : ts.action = 3) :
    ProcessTransitionForUser env ts u = ((u.SetClosed true).AddSpend ts.nFee, .ok) := by
  simp [ProcessTransitionForUser, Transition_UpdateData, Transition_ResetKey,
    Transition_CloseAccount, h, Process_CloseAccount, Verdict.toBool]

theorem process_other (env : TsEnv) (ts : CTransition) (u : CEvoUser)
    (h1 : ts.action ≠ 1) (h2 : ts.action ≠ 2) (h3 : ts.action ≠ 3) :
    ProcessTransitionForUser env ts u = (u, .DoS 100 .REJECT_INVALID "bad-ts-action") := by
  simp [ProcessTransitionForUser, Transition_UpdateData, Transition_ResetKey,
    Transition_CloseAccount, h1, h2, h3]

/-- Every accepted check bounds the fee and the balance. -/
theorem check_ok_facts (env : TsEnv) (ts : CTransition) (user : CEvoUser) (checkSigs : Bool)
    (h : CheckTransitionForUser env ts user checkSigs = .ok .ok) :
    user.closed = false ∧ 1000 ≤ ts.nFee ∧ ts.nFee ≤ 10000 ∧ ts.nFee ≤ user.creditBalance
      ∧ ts.hashPrevTransition = user.lastTransition := by
  unfold CheckTransitionForUser at h
  cases hsz : GetSerializeSize ts with
  | error e => simp [hsz] at h
  | ok sz =>
    simp only [hsz] at h
    by_cases h1 : sz > EVO_TS_MAX_SIZE
    · simp [h1] at h
    by_cases h2 : user.IsClosed = true
    · simp [h1, h2] at h
    by_cases h3 : ts.nFee < EVO_TS_MIN_FEE ∨ ts.nFee > EVO_TS_MAX_FEE
    · simp [h1, h2, h3] at h
    by_cases h4 : user.GetCreditBalance < ts.nFee
    · simp [h1, h2, h3, h4] at h
    by_cases h5 : ts.hashPrevTransition ≠ user.GetLastTransition
    · simp [h1, h2, h3, h4, h5] at h
    simp only [EVO_TS_MIN_FEE, EVO_TS_MAX_FEE, CEvoUser.IsClosed, CEvoUser.GetCreditBalance,
      CEvoUser.GetLastTransition, Bool.not_eq_true, not_or, not_lt, ne_eq, not_not] at h2 h3 h4 h5
    exact ⟨h2, by omega, by omega, h4, h5⟩

theorem process_undo_step (env : TsEnv) (ts : CTransition) (u u' : CEvoUser) (checkSigs : Bool)
    (hc : CheckTransitionForUser env ts u checkSigs = .ok .ok)
    (hp : ProcessTransitionForUser env ts u = (u', .ok))
    (hs : 0 ≤ u.spentCredits) :
    UndoTransitionForUser env ts u' = (u, .ok) := by
  obtain ⟨hcl, hf1, hf2, hbal, hprev⟩ := check_ok_facts env ts u checkSigs hc
  cases u with
  | mk regTxId userName pubKeys creditBalance spentCredits lastTransition closed =>
  simp only at hcl hs hprev
  subst hcl
  by_cases a1 : ts.action = 1
  · rw [process_update env ts _ a1] at hp
    simp only [Prod.mk.injEq, and_true] at hp
    subst hp
    simp [UndoTransitionForUser, Transition_UpdateData, a1, Undo_UpdateData, Verdict.toBool,
      CEvoUser.SetLastTransition, CEvoUser.AddSpend, CEvoUser.GetLastTransition,
      CEvoUser.GetSpentCredits, hprev]
    omega
  by_cases a2 : ts.action = 2
  · rw [process_reset env ts _ a2] at hp
    simp only [Prod.mk.injEq, and_true] at hp
    subst hp
    simp [UndoTransitionForUser, Transition_UpdateData, Transition_ResetKey, a2, Undo_ResetKey,
      Verdict.toBool, CEvoUser.PopPubKey, CEvoUser.PushPubKey, CEvoUser.AddSpend,
      CEvoUser.GetSpentCredits]
    omega
  by_cases a3 : ts.action = 3
  · rw [process_close env ts _ a3] at hp
    simp only [Prod.mk.injEq, and_true] at hp
    subst hp
    simp [UndoTransitionForUser, Transition_UpdateData, Transition_ResetKey,
      Transition_CloseAccount, a3, Undo_CloseAccount, Verdict.toBool, CEvoUser.SetClosed,
      CEvoUser.AddSpend, CEvoUser.GetSpentCredits, CEvoUser.IsClosed]
    omega
  rw [process_other env ts _ a1 a2 a3] at hp
  simp at hp

theorem UserMap.index_some (users : UserMap) (k : Nat) (u : CEvoUser) (h : users k = some u) :
    users.index k = (u, users) := by
  simp [UserMap.index, h]

theorem UserMap.index_none (users : UserMap) (k : Nat) (h : users k = none) :
    users.index k = (CEvoUser.fresh, users.set k CEvoUser.fresh) := by
  simp [UserMap.index, h]

theorem UserMap.set_same (users : UserMap) (k : Nat) (u : CEvoUser) (h : users k = some u) :
    users.set k u = users := by
  funext x
  by_cases hx : x = k
  · simp [UserMap.set, hx, h]
  · simp [UserMap.set, hx]

theorem UserMap.set_set (users : UserMap) (k : Nat) (u v : CEvoUser) :
    (users.set k u).set k v = users.set k v := by
  funext x
  by_cases hx : x = k <;> simp [UserMap.set, hx]

theorem UserMap.set_apply (users : UserMap) (k : Nat) (u : CEvoUser) :
    (users.set k u) k = some u := by
  simp [UserMap.set]

/-- A default-constructed user passes no check: it has no credits. -/
theorem check_fresh_fails (env : TsEnv) (ts : CTransition) (checkSigs : Bool) :
    CheckTransitionForUser env ts CEvoUser.fresh checkSigs ≠ .ok .ok := by
  intro h
  have := check_ok_facts env ts _ checkSigs h
  simp [CEvoUser.fresh] at this
  omega

theorem undoLoop_append (env : TsEnv) (l1 l2 : List CTransition) (users mid : UserMap)
    (h : undoLoop env l1 users = (mid, .ok)) :
    undoLoop env (l1 ++ l2) users = undoLoop env l2 mid := by
  induction l1 generalizing users with
  | nil =>
    simp [undoLoop] at h
    simp [h]
  | cons ts rest ih =>
    simp only [undoLoop, List.cons_append] at h ⊢
    split_ifs at h ⊢ with hv
    · rw [Prod.mk.injEq] at h
      rw [h.2] at hv
      simp [Verdict.toBool] at hv
    · exact ih _ h

theorem processLoop_undoLoop (env : TsEnv) (l : List CTransition) (users users' : UserMap)
    (hs : ∀ k u, users k = some u → 0 ≤ u.spentCredits)
    (h : processLoop env l users = .ok (users', .ok)) :
    undoLoop env l.reverse users' = (users, .ok) := by
  induction l generalizing users with
  | nil =>
    simp [processLoop] at h
    simp [undoLoop, h]
  | cons ts rest ih =>
    simp only [processLoop] at h
    cases hc : CheckTransitionForUser env ts (users.index ts.hashRegTx).1 true with
    | error e => simp [hc] at h
    | ok v =>
      simp only [hc] at h
      cases v with
      | DoS level code reason => simp [Verdict.toBool] at h
      | Error msg => simp [Verdict.toBool] at h
      | ok =>
        cases hu : users ts.hashRegTx with
        | none =>
          rw [UserMap.index_none _ _ hu] at hc
          exact absurd hc (check_fresh_fails env ts true)
        | some u =>
          rw [UserMap.index_some _ _ _ hu] at hc h
          simp only [Verdict.toBool, Bool.not_true, Bool.false_eq_true, if_false] at h
          cases hp : ProcessTransitionForUser env ts u with
          | mk u' pv =>
            simp only [hp] at h
            cases pv with
            | DoS level code reason => simp [Verdict.toBool] at h
            | Error msg => simp [Verdict.toBool] at h
            | ok =>
              simp only [Verdict.toBool, Bool.not_true, Bool.false_eq_true, if_false] at h
              have hfacts := check_ok_facts env ts u true hc
              have hstep := process_undo_step env ts u u' true hc hp (hs _ _ hu)
              have hs' : ∀ k w, (users.set ts.hashRegTx u') k = some w → 0 ≤ w.spentCredits := by
                intro k w hk
                by_cases hkk : k = ts.hashRegTx
                · simp [UserMap.set, hkk] at hk
                  subst hk
                  have h0 := hs _ _ hu
                  by_cases a1 : ts.action = 1
                  · rw [process_update env ts _ a1] at hp
                    simp only [Prod.mk.injEq, and_true] at hp
                    subst hp
                    simp [CEvoUser.AddSpend, CEvoUser.SetLastTransition]
                    omega
                  by_cases a2 : ts.action = 2
                  · rw [process_reset env ts _ a2] at hp
                    simp only [Prod.mk.injEq, and_true] at hp
                    subst hp
                    simp [CEvoUser.AddSpend, CEvoUser.PushPubKey]
                    omega
                  by_cases a3 : ts.action = 3
                  · rw [process_close env ts _ a3] at hp
                    simp only [Prod.mk.injEq, and_true] at hp
                    subst hp
                    simp [CEvoUser.AddSpend, CEvoUser.SetClosed]
                    omega
                  rw [process_other env ts _ a1 a2 a3] at hp
                  simp at hp
                · simp [UserMap.set, hkk] at hk
                  exact hs _ _ hk
              have hrest := ih _ hs' h
              rw [List.reverse_cons, undoLoop_append env _ _ _ _ hrest]
              simp only [undoLoop]
              rw [UserMap.index_some _ _ _ (UserMap.set_apply _ _ _), hstep]
              simp [Verdict.toBool, UserMap.set_set, UserMap.set_same _ _ _ hu]

/-- C1: if `ProcessTransitionsInBlockForUsers` accepts a block on a users map in which every
user has non-negative spent credits, then undoing the transitions of the block in reverse
order on the resulting map succeeds and gives back exactly the original map. -/
theorem apply_undo_round_trip (env : TsEnv) (block : CBlock) (users users' : UserMap)
    (hs : ∀ k u, users k = some u → 0 ≤ u.spentCredits)
    (h : ProcessTransitionsInBlockForUsers env block users = .ok (users', .ok)) :
    UndoTransitionsInBlockForUsers env block users' = (users, .ok) := by
  unfold ProcessTransitionsInBlockForUsers at h
  split_ifs at h with hd
  · simp at h
  · exact processLoop_undoLoop env block.vts users users' hs h

theorem apply_undo_round_trip_witness :
    ProcessTransitionsInBlockForUsers exampleEnv exampleBlock exampleUsers
        = .ok (exampleUsersAfter, .ok)
      ∧ UndoTransitionsInBlockForUsers exampleEnv exampleBlock exampleUsersAfter
        = (exampleUsers, .ok) :=
  ⟨by rfl,
   apply_undo_round_trip exampleEnv exampleBlock exampleUsers exampleUsersAfter
    (by
      intro k u h
      unfold exampleUsers at h
      split_ifs at h
      cases h; decide)
    (by rfl)⟩

/-- The check, once the serialized size is known. -/
theorem check_of_size (env : TsEnv) (ts : CTransition) (user : CEvoUser) (checkSigs : Bool)
    (sz : Nat) (hsz : GetSerializeSize ts = .ok sz) :
    CheckTransitionForUser env ts user checkSigs = .ok
      (if 1500 < sz then .DoS 100 .REJECT_INVALID "bad-ts-size"
       else if user.closed = true then .DoS 100 .REJECT_INVALID "bad-ts-accountclosed"
       else if ts.nFee < 1000 ∨ 10000 < ts.nFee then .DoS 100 .REJECT_INVALID "bad-ts-fee"
       else if user.creditBalance < ts.nFee then .DoS 100 .REJECT_INVALID "bad-ts-nocredits"
       else if ts.hashPrevTransition ≠ user.lastTransition then
         .DoS 100 .REJECT_INVALID "bad-ts-ancestor"
       else if checkSigs = true ∧ user.VerifySig env (env.MakeSignMessage ts) ts.vchUserSig = false
         then .DoS 100 .REJECT_INVALID "bad-ts-usersig"
       else .ok) := by
  unfold CheckTransitionForUser
  simp only [hsz, EVO_TS_MAX_SIZE, EVO_TS_MIN_FEE, EVO_TS_MAX_FEE, CEvoUser.IsClosed,
    CEvoUser.GetCreditBalance, CEvoUser.GetLastTransition, CheckTransitionSignatures]
  by_cases h1 : 1500 < sz
  · simp [h1]
  by_cases h2 : user.closed = true
  · simp [h1, h2]
  by_cases h3 : ts.nFee < 1000 ∨ 10000 < ts.nFee
  · simp [h1, h2, h3]
  by_cases h4 : user.creditBalance < ts.nFee
  · simp [h1, h2, h3, h4]
  by_cases h5 : ts.hashPrevTransition ≠ user.lastTransition
  · simp [h1, h2, h3, h4, h5]
  cases checkSigs <;>
    cases hv : user.VerifySig env (env.MakeSignMessage ts) ts.vchUserSig <;>
    simp [h1, h2, h3, h4, h5, hv, Verdict.toBool]

theorem undo_update (env : TsEnv) (ts : CTransition) (u : CEvoUser) (h : ts.action = 1) :
    UndoTransitionForUser env ts u =
      if u.lastTransition ≠ env.GetHash ts then (u, .Error "unexpected last subtx for user")
      else if (u.spentCredits + -ts.nFee) < 0 then
        ((u.SetLastTransition ts.hashPrevTransition).AddSpend (-ts.nFee),
          .Error "UndoTransition() -- Unexpected negative spent credits")
      else ((u.SetLastTransition ts.hashPrevTransition).AddSpend (-ts.nFee), .ok) := by
  by_cases hl : u.lastTransition = env.GetHash ts <;>
    simp [UndoTransitionForUser, Transition_UpdateData, h, Undo_UpdateData, Verdict.toBool,
      CEvoUser.GetLastTransition, CEvoUser.GetSpentCredits, CEvoUser.AddSpend,
      CEvoUser.SetLastTransition, hl]

theorem undo_reset (env : TsEnv) (ts : CTransition) (u : CEvoUser) (h : ts.action = 2) :
    UndoTransitionForUser env ts u =
      if u.pubKeys.getLast? ≠ some ts.newPubKeyID then
        (u.PopPubKey.2, .Error "unexpected key popped from user")
      else if (u.spentCredits + -ts.nFee) < 0 then
        (u.PopPubKey.2.AddSpend (-ts.nFee),
          .Error "UndoTransition() -- Unexpected negative spent credits")
      else (u.PopPubKey.2.AddSpend (-ts.nFee), .ok) := by
  by_cases hl : u.pubKeys.getLast? = some ts.newPubKeyID <;>
    simp [UndoTransitionForUser, Transition_UpdateData, Transition_ResetKey, h, Undo_ResetKey,
      Verdict.toBool, CEvoUser.PopPubKey, CEvoUser.GetSpentCredits, CEvoUser.AddSpend, hl]

theorem undo_close (env : TsEnv) (ts : CTransition) (u : CEvoUser) (h : ts.action = 3) :
    UndoTransitionForUser env ts u =
      if u.closed = false then (u, .Error "expected user to be closed")
      else if (u.spentCredits + -ts.nFee) < 0 then
        ((u.SetClosed false).AddSpend (-ts.nFee),
          .Error "UndoTransition() -- Unexpected negative spent credits")
      else ((u.SetClosed false).AddSpend (-ts.nFee), .ok) := by
  by_cases hl : u.closed = false <;>
    simp [UndoTransitionForUser, Transition_UpdateData, Transition_ResetKey,
      Transition_CloseAccount, h, Undo_CloseAccount, Verdict.toBool, CEvoUser.IsClosed,
      CEvoUser.GetSpentCredits, CEvoUser.AddSpend, CEvoUser.SetClosed, hl]

theorem undo_other (env : TsEnv) (ts : CTransition) (u : CEvoUser)
    (h1 : ts.action ≠ 1) (h2 : ts.action ≠ 2) (h3 : ts.action ≠ 3) :
    UndoTransitionForUser env ts u
      = (u, .Error "UndoTransition() -- unexpected transition action") := by
  simp [UndoTransitionForUser, Transition_UpdateData, Transition_ResetKey,
    Transition_CloseAccount, h1, h2, h3]

/-- C4: a successful `ProcessTransitionForUser` takes exactly `ts.nFee` from the credit
balance and adds exactly `ts.nFee` to the spent credits; a successful
`UndoTransitionForUser` does the reverse; both leave the sum of the two unchanged. -/
theorem credit_conservation (env : TsEnv) (ts : CTransition) (user : CEvoUser) :
    ((ProcessTransitionForUser env ts user).2 = .ok →
      (ProcessTransitionForUser env ts user).1.creditBalance = user.creditBalance - ts.nFee
      ∧ (ProcessTransitionForUser env ts user).1.spentCredits = user.spentCredits + ts.nFee
      ∧ (ProcessTransitionForUser env ts user).1.creditBalance
          + (ProcessTransitionForUser env ts user).1.spentCredits
          = user.creditBalance + user.spentCredits)
    ∧ ((UndoTransitionForUser env ts user).2 = .ok →
      (UndoTransitionForUser env ts user).1.creditBalance = user.creditBalance + ts.nFee
      ∧ (UndoTransitionForUser env ts user).1.spentCredits = user.spentCredits - ts.nFee
      ∧ (UndoTransitionForUser env ts user).1.creditBalance
          + (UndoTransitionForUser env ts user).1.spentCredits
          = user.creditBalance + user.spentCredits) := by
  by_cases a1 : ts.action = 1
  · rw [process_update env ts user a1, undo_update env ts user a1]
    refine ⟨fun _ => ?_, fun h => ?_⟩
    · simp [CEvoUser.AddSpend, CEvoUser.SetLastTransition]
    · split_ifs at h ⊢
      simp_all [CEvoUser.AddSpend, CEvoUser.SetLastTransition]
      omega
  by_cases a2 : ts.action = 2
  · rw [process_reset env ts user a2, undo_reset env ts user a2]
    refine ⟨fun _ => ?_, fun h => ?_⟩
    · simp [CEvoUser.AddSpend, CEvoUser.PushPubKey]
    · split_ifs at h ⊢
      simp_all [CEvoUser.AddSpend, CEvoUser.PopPubKey]
      omega
  by_cases a3 : ts.action = 3
  · rw [process_close env ts user a3, undo_close env ts user a3]
    refine ⟨fun _ => ?_, fun h => ?_⟩
    · simp [CEvoUser.AddSpend, CEvoUser.SetClosed]
    · split_ifs at h ⊢
      simp_all [CEvoUser.AddSpend, CEvoUser.SetClosed]
      omega
  rw [process_other env ts user a1 a2 a3, undo_other env ts user a1 a2 a3]
  simp

theorem credit_conservation_witness :
    (ProcessTransitionForUser exampleEnv exampleUpdate exampleUser).1.creditBalance
        = 150000 - 1000
      ∧ (UndoTransitionForUser exampleEnv exampleUpdate exampleUserMid).1.spentCredits
        = 1000 - 1000 :=
  ⟨((credit_conservation exampleEnv exampleUpdate exampleUser).1 (by rfl)).1,
   ((credit_conservation exampleEnv exampleUpdate exampleUserMid).2 (by rfl)).2.1⟩

/-- C3, at a concrete input: processing the key reset `exampleReset` on `exampleUserMid`
succeeds, and the last transition of the resulting user is still the hash of the earlier
update, not the hash of the key reset. -/
theorem process_reset_keeps_last_transition :
    ProcessTransitionForUser exampleEnv exampleReset exampleUserMid = (exampleUserAfter, .ok)
      ∧ exampleUserAfter.lastTransition = exampleEnv.GetHash exampleUpdate
      ∧ exampleUserAfter.lastTransition ≠ exampleEnv.GetHash exampleReset :=
  ⟨by rfl, by rfl, by decide⟩

/-! ## Lemmas on `CheckProviderTxRegister` -/

theorem voutAt_eq_some (tx : CTransaction) (i : Int) (c : CTxOut) :
    voutAt tx i = some c ↔
      (0 ≤ i ∧ i < (tx.vout.length : Int) ∧ tx.vout[i.toNat]? = some c) := by
  unfold voutAt
  by_cases h : i < 0 ∨ i ≥ (tx.vout.length : Int)
  · simp only [h, if_true]
    constructor
    · intro h'
      cases h'
    · rintro ⟨h0, h1, _⟩
      omega
  · simp only [h, if_false]
    constructor
    · intro h'
      exact ⟨by omega, by omega, h'⟩
    · rintro ⟨_, _, h'⟩
      exact h'

theorem voutAt_eq_none (tx : CTransaction) (i : Int) :
    voutAt tx i = none ↔ (i < 0 ∨ (tx.vout.length : Int) ≤ i) := by
  unfold voutAt
  by_cases h : i < 0 ∨ i ≥ (tx.vout.length : Int)
  · simp only [h, if_true, true_iff]
  · rw [if_neg h]
    have hlt : i.toNat < tx.vout.length := by omega
    constructor
    · intro h'
      rw [List.getElem?_eq_getElem hlt] at h'
      cases h'
    · intro h'
      exact absurd h' h

/-- The list check, by what the list contains. -/
theorem collectKeyIDs_none (ptx : CProviderTXRegisterMN) (l : List CDeterministicMN)
    (acc : List Nat) :
    collectKeyIDs ptx l acc = none ↔ ∃ dmn ∈ l, dmn.proTx.addr = ptx.addr := by
  induction l generalizing acc with
  | nil => simp [collectKeyIDs]
  | cons d rest ih =>
    unfold collectKeyIDs
    by_cases h : d.proTx.addr = ptx.addr
    · simp [h]
    · simp [h, ih]

theorem collectKeyIDs_some (ptx : CProviderTXRegisterMN) (l : List CDeterministicMN)
    (acc keyIDs : List Nat) (h : collectKeyIDs ptx l acc = some keyIDs) (k : Nat) :
    k ∈ keyIDs ↔
      (k ∈ acc ∨ ∃ dmn ∈ l, dmn.proTx.keyIDOperator = k ∨ dmn.proTx.keyIDOwner = k) := by
  induction l generalizing acc with
  | nil =>
    simp [collectKeyIDs] at h
    simp [h]
  | cons d rest ih =>
    unfold collectKeyIDs at h
    by_cases ha : d.proTx.addr = ptx.addr
    · simp [ha] at h
    · simp only [ha, if_false] at h
      rw [ih _ h]
      simp only [List.mem_cons, exists_eq_or_imp, bex_def]
      constructor
      · rintro (h1 | h1)
        · rcases h1 with h1 | h1 | h1
          · exact Or.inr (Or.inl (Or.inr h1.symm))
          · exact Or.inr (Or.inl (Or.inl h1.symm))
          · exact Or.inl h1
        · exact Or.inr (Or.inr h1)
      · rintro (h1 | h1 | h1)
        · exact Or.inl (Or.inr (Or.inr h1))
        · rcases h1 with h1 | h1
          · exact Or.inl (Or.inr (Or.inl h1.symm))
          · exact Or.inl (Or.inl h1.symm)
        · exact Or.inr h1

/-- When rules 1 to 7 hold, the verdict is the one of the list check and the signature. -/
theorem check_of_rules (env : ProviderEnv) (tx : CTransaction) (pindex : Option CBlockIndex)
    (ptx : CProviderTXRegisterMN) (c : CTxOut) (hp : env.GetTxPayload tx = some ptx)
    (hr : AdmissionRules1to7 env tx ptx c) :
    CheckProviderTxRegister env tx pindex = checkListAndSig env ptx pindex := by
  obtain ⟨h1, ⟨h2a, h2b⟩, ⟨h3a, h3b, h3c, h3d⟩, ⟨h4a, h4b⟩, ⟨h5a, h5b⟩, ⟨h6a, h6b⟩, h7⟩ := hr
  have hv : voutAt tx ptx.nCollateralIndex = some c :=
    (voutAt_eq_some tx _ c).mpr ⟨h3a, h3b, h3c⟩
  have h2 : ¬ (ptx.nProtocolVersion < env.MIN_EVO_PROTO_VERSION
      ∨ ptx.nProtocolVersion > env.PROTOCOL_VERSION) := by omega
  have h4 : (!env.isRegtest && !env.IsRoutable ptx.addr) = false := by
    cases hreg : env.isRegtest
    · simp [h4b hreg]
    · simp
  have h6c : env.IsPayToPublicKeyHash c.scriptPubKey = true := h6b ▸ h6a
  unfold CheckProviderTxRegister
  simp [hp, h1, h2, hv, h3d, h4a, h4, CKeyID_IsNull, h5a, h5b, h6c, h6b, h7]

/-- When one of rules 1 to 7 fails, the verdict is a rejection as invalid. -/
theorem check_of_not_rules (env : ProviderEnv) (tx : CTransaction) (pindex : Option CBlockIndex)
    (ptx : CProviderTXRegisterMN) (hp : env.GetTxPayload tx = some ptx)
    (hr : ¬ ∃ c, AdmissionRules1to7 env tx ptx c) :
    ∃ level reason, CheckProviderTxRegister env tx pindex
      = .DoS level .REJECT_INVALID reason := by
  unfold CheckProviderTxRegister
  simp only [hp]
  by_cases h1 : ptx.nVersion ≠ env.CURRENT_VERSION
  · exact ⟨_, _, if_pos h1⟩
  rw [if_neg h1]
  by_cases h2 : ptx.nProtocolVersion < env.MIN_EVO_PROTO_VERSION
      ∨ ptx.nProtocolVersion > env.PROTOCOL_VERSION
  · exact ⟨_, _, if_pos h2⟩
  rw [if_neg h2]
  cases hv : voutAt tx ptx.nCollateralIndex with
  | none => exact ⟨_, _, rfl⟩
  | some c =>
    simp only
    by_cases h3 : c.nValue ≠ 1000 * env.COIN
    · exact ⟨_, _, if_pos h3⟩
    rw [if_neg h3]
    by_cases h4 : (!env.IsValid ptx.addr || (!env.isRegtest && !env.IsRoutable ptx.addr)) = true
    · exact ⟨_, _, if_pos h4⟩
    rw [if_neg h4]
    by_cases h4' : (!env.isRegtest && !env.IsRoutable ptx.addr) = true
    · exact ⟨_, _, if_pos h4'⟩
    rw [if_neg h4']
    by_cases h5 : CKeyID_IsNull ptx.keyIDOperator = true
    · exact ⟨_, _, if_pos h5⟩
    rw [if_neg h5]
    by_cases h5' : CKeyID_IsNull ptx.keyIDOwner = true
    · exact ⟨_, _, if_pos h5'⟩
    rw [if_neg h5']
    by_cases h6 : (!env.IsPayToPublicKeyHash ptx.scriptPayout) = true
    · exact ⟨_, _, if_pos h6⟩
    rw [if_neg h6]
    by_cases h6' : c.scriptPubKey ≠ ptx.scriptPayout
    · exact ⟨_, _, if_pos h6'⟩
    rw [if_neg h6']
    by_cases h7 : env.CalcTxInputsHash tx ≠ ptx.inputsHash
    · exact ⟨_, _, if_pos h7⟩
    exfalso
    apply hr
    refine ⟨c, ?_⟩
    obtain ⟨v1, v2, v3⟩ := (voutAt_eq_some tx _ c).mp hv
    simp only [CKeyID_IsNull, decide_eq_true_eq, Bool.not_eq_true', Bool.or_eq_true,
      Bool.and_eq_true, not_or, not_and, Bool.not_eq_false, ne_eq, not_not, not_lt,
      Bool.not_eq_true] at h1 h2 h3 h4 h5 h5' h6 h6' h7
    refine ⟨h1, ⟨by omega, by omega⟩, ⟨v1, v2, v3, h3⟩, ⟨h4.1, ?_⟩, ⟨h5, h5'⟩, ⟨h6, h6'.symm⟩, h7⟩
    intro hreg
    have := h4.2 hreg
    simpa using this

/-- The list check: the verdict by the content of the list. -/
theorem checkAgainstList_cases (env : ProviderEnv) (ptx : CProviderTXRegisterMN)
    (pidx : CBlockIndex) :
    ((∃ dmn ∈ env.GetListAtHeight pidx.nHeight, dmn.proTx.addr = ptx.addr) →
        checkAgainstList env ptx pidx = .DoS 10 .REJECT_DUPLICATE "bad-provider-dup-addr")
    ∧ ((∀ dmn ∈ env.GetListAtHeight pidx.nHeight, dmn.proTx.addr ≠ ptx.addr) →
        (∃ dmn ∈ env.GetListAtHeight pidx.nHeight,
          dmn.proTx.keyIDOperator = ptx.keyIDOperator ∨ dmn.proTx.keyIDOwner = ptx.keyIDOperator
          ∨ dmn.proTx.keyIDOperator = ptx.keyIDOwner ∨ dmn.proTx.keyIDOwner = ptx.keyIDOwner) →
        checkAgainstList env ptx pidx = .DoS 10 .REJECT_DUPLICATE "bad-provider-dup-key")
    ∧ (AdmissionRule8 (env.GetListAtHeight pidx.nHeight) ptx →
        checkAgainstList env ptx pidx =
          if ptx.keyIDOperator ≠ ptx.keyIDOwner
              ∧ env.IsDeterministicMNsSporkActive pidx.nHeight = false then
            .DoS 10 .REJECT_INVALID "bad-provider-owner-key-not-same"
          else .ok) := by
  refine ⟨?_, ?_, ?_⟩
  · intro h
    unfold checkAgainstList
    simp only [(collectKeyIDs_none ptx _ []).mpr h]
  · intro hno hk
    unfold checkAgainstList
    cases hc : collectKeyIDs ptx (env.GetListAtHeight pidx.nHeight) [] with
    | none =>
      obtain ⟨d, hd, hda⟩ := (collectKeyIDs_none ptx _ []).mp hc
      exact absurd hda (hno d hd)
    | some keyIDs =>
      have hmem := collectKeyIDs_some ptx _ [] keyIDs hc
      have : ptx.keyIDOperator ∈ keyIDs ∨ ptx.keyIDOwner ∈ keyIDs := by
        obtain ⟨d, hd, hk⟩ := hk
        rcases hk with hk | hk | hk | hk
        · exact Or.inl ((hmem _).mpr (Or.inr ⟨d, hd, Or.inl hk⟩))
        · exact Or.inl ((hmem _).mpr (Or.inr ⟨d, hd, Or.inr hk⟩))
        · exact Or.inr ((hmem _).mpr (Or.inr ⟨d, hd, Or.inl hk⟩))
        · exact Or.inr ((hmem _).mpr (Or.inr ⟨d, hd, Or.inr hk⟩))
      simp only [hc, this, if_true]
  · intro h8
    unfold checkAgainstList
    cases hc : collectKeyIDs ptx (env.GetListAtHeight pidx.nHeight) [] with
    | none =>
      obtain ⟨d, hd, hda⟩ := (collectKeyIDs_none ptx _ []).mp hc
      exact absurd hda (h8 d hd).1
    | some keyIDs =>
      have hmem := collectKeyIDs_some ptx _ [] keyIDs hc
      have : ¬ (ptx.keyIDOperator ∈ keyIDs ∨ ptx.keyIDOwner ∈ keyIDs) := by
        rintro (hk | hk)
        · rcases (hmem _).mp hk with hk | ⟨d, hd, hk | hk⟩
          · cases hk
          · exact (h8 d hd).2.1 hk
          · exact (h8 d hd).2.2.1 hk
        · rcases (hmem _).mp hk with hk | ⟨d, hd, hk | hk⟩
          · cases hk
          · exact (h8 d hd).2.2.2.1 hk
          · exact (h8 d hd).2.2.2.2 hk
      simp only [hc, this, if_false]

/-- An accepted list check gives rule 8 and rule 9. -/
theorem checkAgainstList_ok (env : ProviderEnv) (ptx : CProviderTXRegisterMN)
    (pidx : CBlockIndex) (h : checkAgainstList env ptx pidx = .ok) :
    AdmissionRule8 (env.GetListAtHeight pidx.nHeight) ptx
      ∧ (env.IsDeterministicMNsSporkActive pidx.nHeight = false →
          ptx.keyIDOperator = ptx.keyIDOwner) := by
  obtain ⟨ha, hb, hc⟩ := checkAgainstList_cases env ptx pidx
  have h8 : AdmissionRule8 (env.GetListAtHeight pidx.nHeight) ptx := by
    by_cases hadd : ∃ dmn ∈ env.GetListAtHeight pidx.nHeight, dmn.proTx.addr = ptx.addr
    · rw [ha hadd] at h
      cases h
    · have hno : ∀ dmn ∈ env.GetListAtHeight pidx.nHeight, dmn.proTx.addr ≠ ptx.addr := by
        intro d hd hda
        exact hadd ⟨d, hd, hda⟩
      intro d hd
      refine ⟨hno d hd, ?_, ?_, ?_, ?_⟩
      · intro hk
        rw [hb hno ⟨d, hd, Or.inl hk⟩] at h
        cases h
      · intro hk
        rw [hb hno ⟨d, hd, Or.inr (Or.inl hk)⟩] at h
        cases h
      · intro hk
        rw [hb hno ⟨d, hd, Or.inr (Or.inr (Or.inl hk))⟩] at h
        cases h
      · intro hk
        rw [hb hno ⟨d, hd, Or.inr (Or.inr (Or.inr hk))⟩] at h
        cases h
  refine ⟨h8, ?_⟩
  intro hs
  by_contra hne
  rw [hc h8, if_pos ⟨hne, hs⟩] at h
  cases h

/-- C5: for a non-null block index, `CheckProviderTxRegister` returns true exactly when the
payload decodes and the ten admission rules hold: version; protocol version range;
collateral index in range with a collateral of 1000 coins; address valid, and routable off
regtest; operator and owner keys non-null; payout script P2PKH and equal to the collateral
script; inputs hash; no list entry with the same address or holding one of the keys;
operator equal to owner while the spork is inactive; signature valid under the owner key
over the hash of the payload with the signature cleared. -/
theorem CheckProviderTxRegister_accepts_iff (env : ProviderEnv) (tx : CTransaction)
    (pidx : CBlockIndex) :
    CheckProviderTxRegister env tx (some pidx) = .ok ↔
      ∃ ptx c, env.GetTxPayload tx = some ptx
        ∧ AdmissionRules1to7 env tx ptx c
        ∧ AdmissionRule8 (env.GetListAtHeight pidx.nHeight) ptx
        ∧ (env.IsDeterministicMNsSporkActive pidx.nHeight = false →
            ptx.keyIDOperator = ptx.keyIDOwner)
        ∧ env.VerifyHash (env.SerializeHash { ptx with vchSig := [] }) ptx.keyIDOwner
            ptx.vchSig = true := by
  constructor
  · intro h
    cases hp : env.GetTxPayload tx with
    | none => simp [CheckProviderTxRegister, hp] at h
    | some ptx =>
      by_cases hr : ∃ c, AdmissionRules1to7 env tx ptx c
      · obtain ⟨c, hr⟩ := hr
        rw [check_of_rules env tx _ ptx c hp hr] at h
        unfold checkListAndSig at h
        simp only at h
        cases hl : checkAgainstList env ptx pidx with
        | DoS level code reason => simp [hl, Verdict.toBool] at h
        | Error msg => simp [hl, Verdict.toBool] at h
        | ok =>
          simp only [hl, Verdict.toBool, Bool.not_true, Bool.false_eq_true, if_false] at h
          obtain ⟨h8, h9⟩ := checkAgainstList_ok env ptx pidx hl
          refine ⟨ptx, c, rfl, hr, h8, h9, ?_⟩
          unfold checkProviderSig at h
          simp only at h
          cases hv : env.VerifyHash (env.SerializeHash { ptx with vchSig := [] })
            ptx.keyIDOwner ptx.vchSig
          · simp [hv] at h
          · rfl
      · obtain ⟨level, reason, hd⟩ := check_of_not_rules env tx (some pidx) ptx hp hr
        rw [hd] at h
        cases h
  · rintro ⟨ptx, c, hp, hr, h8, h9, h10⟩
    rw [check_of_rules env tx _ ptx c hp hr]
    have hl : checkAgainstList env ptx pidx = .ok := by
      rw [(checkAgainstList_cases env ptx pidx).2.2 h8]
      apply if_neg
      rintro ⟨hne, hs⟩
      exact hne (h9 hs)
    simp [checkListAndSig, hl, Verdict.toBool, checkProviderSig, h10]

theorem CheckProviderTxRegister_accepts_iff_witness :
    CheckProviderTxRegister exampleProviderEnv (exampleProTx [byteOf 11, byteOf 30, byteOf 30])
      (some { nHeight := 12 }) = .ok :=
  (CheckProviderTxRegister_accepts_iff exampleProviderEnv
      (exampleProTx [byteOf 11, byteOf 30, byteOf 30]) { nHeight := 12 }).mpr
    ⟨_, { nValue := 100000000000, scriptPubKey := [byteOf 118] }, rfl,
      by unfold AdmissionRules1to7; decide, by unfold AdmissionRule8; decide, by decide,
      by decide⟩

/-- An accepted transaction satisfies rule 8 against the list of the block index. -/
theorem accepted_rule8 (env : ProviderEnv) (tx : CTransaction) (pidx : CBlockIndex)
    (ptx : CProviderTXRegisterMN) (hp : env.GetTxPayload tx = some ptx)
    (hacc : CheckProviderTxRegister env tx (some pidx) = .ok) :
    AdmissionRule8 (env.GetListAtHeight pidx.nHeight) ptx := by
  by_cases hr : ∃ c, AdmissionRules1to7 env tx ptx c
  · obtain ⟨c, hr⟩ := hr
    rw [check_of_rules env tx _ ptx c hp hr] at hacc
    unfold checkListAndSig at hacc
    simp only at hacc
    cases hl : checkAgainstList env ptx pidx with
    | DoS level code reason => simp [hl, Verdict.toBool] at hacc
    | Error msg => simp [hl, Verdict.toBool] at hacc
    | ok => exact (checkAgainstList_ok env ptx pidx hl).1
  · obtain ⟨level, reason, hd⟩ := check_of_not_rules env tx (some pidx) ptx hp hr
    rw [hd] at hacc
    cases hacc

/-- C6: if the list at the height of `pindex` satisfies the uniqueness invariant and
`CheckProviderTxRegister` accepts a transaction against it, then the list extended with the
entry of the accepted payload satisfies the invariant as well. -/
theorem admission_preserves_uniqueness (env : ProviderEnv) (tx : CTransaction)
    (pidx : CBlockIndex) (ptx : CProviderTXRegisterMN) (entry : CDeterministicMN)
    (hu : ListUnique (env.GetListAtHeight pidx.nHeight))
    (hp : env.GetTxPayload tx = some ptx)
    (he : entry.proTx = ptx)
    (hacc : CheckProviderTxRegister env tx (some pidx) = .ok) :
    ListUnique (env.GetListAtHeight pidx.nHeight ++ [entry]) := by
  have h8 := accepted_rule8 env tx pidx ptx hp hacc
  unfold ListUnique at hu ⊢
  rw [List.pairwise_append]
  refine ⟨hu, List.pairwise_singleton _ _, ?_⟩
  intro a ha b hb
  rw [List.mem_singleton] at hb
  subst hb
  rw [he]
  obtain ⟨k1, k2, k3, k4, k5⟩ := h8 a ha
  exact ⟨k1, k2, k4, k3, k5⟩

theorem admission_preserves_uniqueness_witness :
    ListUnique (exampleProviderEnv.GetListAtHeight 12
      ++ [{ proTxHash := 1001,
            proTx := { nVersion := 1, nProtocolVersion := 70208, nCollateralIndex := 0,
                       addr := { ip := 11, port := 9999 }, keyIDOperator := 30,
                       keyIDOwner := 30, scriptPayout := [byteOf 118], inputsHash := 1,
                       vchSig := writeLE 4 41 } }]) :=
  admission_preserves_uniqueness exampleProviderEnv
    (exampleProTx [byteOf 11, byteOf 30, byteOf 30]) { nHeight := 12 } _ _
    (by unfold ListUnique; decide) (by rfl) (by rfl) (by decide)

/-- C10: a ProRegTx that passes rules 1 to 7 and is checked with a block index is rejected
with `bad-provider-dup-addr`, score 10, when an entry of the list has its address; when no
entry has its address but an entry has its operator or owner key as operator or owner key,
it is rejected with `bad-provider-dup-key`, score 10. -/
theorem duplicate_service_node_rejected (env : ProviderEnv) (tx : CTransaction)
    (pidx : CBlockIndex) (ptx : CProviderTXRegisterMN) (c : CTxOut)
    (hp : env.GetTxPayload tx = some ptx) (hr : AdmissionRules1to7 env tx ptx c) :
    ((∃ dmn ∈ env.GetListAtHeight pidx.nHeight, dmn.proTx.addr = ptx.addr) →
        CheckProviderTxRegister env tx (some pidx)
          = .DoS 10 .REJECT_DUPLICATE "bad-provider-dup-addr")
    ∧ ((∀ dmn ∈ env.GetListAtHeight pidx.nHeight, dmn.proTx.addr ≠ ptx.addr) →
        (∃ dmn ∈ env.GetListAtHeight pidx.nHeight,
          dmn.proTx.keyIDOperator = ptx.keyIDOperator ∨ dmn.proTx.keyIDOwner = ptx.keyIDOperator
          ∨ dmn.proTx.keyIDOperator = ptx.keyIDOwner ∨ dmn.proTx.keyIDOwner = ptx.keyIDOwner) →
        CheckProviderTxRegister env tx (some pidx)
          = .DoS 10 .REJECT_DUPLICATE "bad-provider-dup-key") := by
  rw [check_of_rules env tx _ ptx c hp hr]
  obtain ⟨ha, hb, _⟩ := checkAgainstList_cases env ptx pidx
  constructor
  · intro h
    simp [checkListAndSig, ha h, Verdict.toBool]
  · intro h1 h2
    simp [checkListAndSig, hb h1 h2, Verdict.toBool]

theorem duplicate_service_node_rejected_witness :
    CheckProviderTxRegister exampleProviderEnv (exampleProTx [byteOf 10, byteOf 30, byteOf 31])
        (some { nHeight := 12 }) = .DoS 10 .REJECT_DUPLICATE "bad-provider-dup-addr"
      ∧ CheckProviderTxRegister exampleProviderEnv
          (exampleProTx [byteOf 11, byteOf 20, byteOf 31])
          (some { nHeight := 12 }) = .DoS 10 .REJECT_DUPLICATE "bad-provider-dup-key" :=
  ⟨(duplicate_service_node_rejected exampleProviderEnv
      (exampleProTx [byteOf 10, byteOf 30, byteOf 31]) { nHeight := 12 } _
      { nValue := 100000000000, scriptPubKey := [byteOf 118] } (by rfl)
      (by unfold AdmissionRules1to7; decide)).1 (by decide),
   (duplicate_service_node_rejected exampleProviderEnv
      (exampleProTx [byteOf 11, byteOf 20, byteOf 31]) { nHeight := 12 } _
      { nValue := 100000000000, scriptPubKey := [byteOf 118] } (by rfl)
      (by unfold AdmissionRules1to7; decide)).2 (by decide) (by decide)⟩

/-! ## Lemmas on the stream primitives -/

theorem writeLE_length (n x : Nat) : (writeLE n x).length = n := by
  induction n generalizing x with
  | zero => rfl
  | succ n ih => simp [writeLE, ih]

theorem fromLE_writeLE (n x : Nat) : fromLE (writeLE n x) = x % 256 ^ n := by
  induction n generalizing x with
  | zero => simp [writeLE, fromLE, Nat.mod_one]
  | succ n ih =>
    simp only [writeLE, fromLE, ih, byteOf]
    rw [pow_succ, Nat.mul_comm (256 ^ n) 256, Nat.mod_mul]

theorem readBytes_append (n : Nat) (a rest : List Byte) (h : a.length = n) :
    readBytes n (a ++ rest) = .ok (a, rest) := by
  unfold readBytes
  have : ¬ (a ++ rest).length < n := by
    rw [List.length_append]
    omega
  rw [if_neg this]
  subst h
  simp

theorem readBlob_writeBlob (n x : Nat) (rest : List Byte) (h : x < 256 ^ n) :
    readBlob n (writeBlob n x ++ rest) = .ok (x, rest) := by
  unfold readBlob writeBlob
  rw [readBytes_append n _ rest (writeLE_length n x)]
  simp only [fromLE_writeLE, Nat.mod_eq_of_lt h]

theorem toSigned_toUnsigned (bits : Nat) (x : Int) (hb : 0 < bits)
    (h1 : -(2 : Int) ^ (bits - 1) ≤ x) (h2 : x < (2 : Int) ^ (bits - 1)) :
    toSigned bits (toUnsigned bits x) = x := by
  unfold toSigned toUnsigned
  have hpow : (2 : Int) ^ bits = 2 * 2 ^ (bits - 1) := by
    obtain ⟨k, rfl⟩ : ∃ k, bits = k + 1 := ⟨bits - 1, by omega⟩
    simp [pow_succ, mul_comm]
  have hpos : (0 : Int) < 2 ^ (bits - 1) := by positivity
  have hnn : 0 ≤ x % (2 : Int) ^ bits := Int.emod_nonneg _ (by positivity)
  have hcast : (((x % (2 : Int) ^ bits).toNat : Nat) : Int) = x % (2 : Int) ^ bits :=
    Int.toNat_of_nonneg hnn
  have hlt : ((x % (2 : Int) ^ bits).toNat < 2 ^ (bits - 1)) ↔ x % (2 : Int) ^ bits < 2 ^ (bits - 1) := by
    constructor
    · intro h
      have : (((x % (2 : Int) ^ bits).toNat : Nat) : Int) < ((2 ^ (bits - 1) : Nat) : Int) := by
        exact_mod_cast h
      rw [hcast] at this
      exact_mod_cast this
    · intro h
      have : (((x % (2 : Int) ^ bits).toNat : Nat) : Int) < ((2 ^ (bits - 1) : Nat) : Int) := by
        rw [hcast]
        exact_mod_cast h
      exact_mod_cast this
  by_cases hx : 0 ≤ x
  · have hm : x % (2 : Int) ^ bits = x := Int.emod_eq_of_lt hx (by omega)
    rw [if_pos (hlt.mpr (by omega)), hcast, hm]
  · have hm : x % (2 : Int) ^ bits = x + 2 ^ bits := by
      rw [← Int.add_mul_emod_self (a := x) (b := 1) (c := (2 : Int) ^ bits), one_mul]
      exact Int.emod_eq_of_lt (by omega) (by omega)
    rw [if_neg (fun h => by have := hlt.mp h; omega), hcast, hm]
    omega

theorem readInt_writeInt (n : Nat) (x : Int) (rest : List Byte) (hn : 0 < n)
    (h1 : -(2 : Int) ^ (8 * n - 1) ≤ x) (h2 : x < (2 : Int) ^ (8 * n - 1)) :
    readInt n (writeInt n x ++ rest) = .ok (x, rest) := by
  unfold readInt writeInt
  rw [readBytes_append n _ rest (writeLE_length n _)]
  simp only [fromLE_writeLE]
  have hlt : toUnsigned (8 * n) x < 256 ^ n := by
    unfold toUnsigned
    have h256 : (256 : Nat) ^ n = 2 ^ (8 * n) := by
      rw [pow_mul]
      norm_num
    rw [h256]
    have hnn : 0 ≤ x % (2 : Int) ^ (8 * n) := Int.emod_nonneg _ (by positivity)
    have hl : x % (2 : Int) ^ (8 * n) < 2 ^ (8 * n) := Int.emod_lt_of_pos _ (by positivity)
    have : (((x % (2 : Int) ^ (8 * n)).toNat : Nat) : Int) < ((2 ^ (8 * n) : Nat) : Int) := by
      rw [Int.toNat_of_nonneg hnn]
      exact_mod_cast hl
    exact_mod_cast this
  rw [Nat.mod_eq_of_lt hlt, toSigned_toUnsigned (8 * n) x (by omega) h1 h2]

theorem readBytes_cons (b : Byte) (rest : List Byte) :
    readBytes 1 (b :: rest) = .ok ([b], rest) := by
  simp [readBytes]

theorem ReadCompactSize_WriteCompactSize (n : Nat) (rest : List Byte) (h : n ≤ MAX_SIZE) :
    ReadCompactSize (WriteCompactSize n ++ rest) = .ok (n, rest) := by
  unfold MAX_SIZE at h
  unfold WriteCompactSize
  by_cases h1 : n < 253
  · rw [if_pos h1]
    unfold ReadCompactSize
    have hb : fromLE [byteOf n] = n := by
      simp only [fromLE, byteOf]
      omega
    simp only [List.singleton_append, readBytes_cons, hb, if_pos h1, MAX_SIZE]
    rw [if_neg (show ¬ n > 33554432 by omega)]
  · rw [if_neg h1]
    by_cases h2 : n ≤ 0xFFFF
    · rw [if_pos h2]
      unfold ReadCompactSize
      have hb : fromLE [byteOf 253] = 253 := by decide
      have hrd := readBytes_append 2 (writeLE 2 n) rest (writeLE_length 2 n)
      have hv : fromLE (writeLE 2 n) = n := by
        rw [fromLE_writeLE]
        exact Nat.mod_eq_of_lt (by norm_num; omega)
      simp only [List.cons_append, readBytes_cons, hb, MAX_SIZE]
      simp only [show ¬ (253 < 253) by decide, if_false, if_true, hrd, hv]
      rw [if_neg (show ¬ n < 253 from h1)]
      simp only
      rw [if_neg (show ¬ n > 33554432 by omega)]
    · rw [if_neg h2, if_pos (by omega)]
      unfold ReadCompactSize
      have hb : fromLE [byteOf 254] = 254 := by decide
      have hrd := readBytes_append 4 (writeLE 4 n) rest (writeLE_length 4 n)
      have hv : fromLE (writeLE 4 n) = n := by
        rw [fromLE_writeLE]
        exact Nat.mod_eq_of_lt (by norm_num; omega)
      simp only [List.cons_append, readBytes_cons, hb, MAX_SIZE]
      simp only [show ¬ (254 < 253) by decide, show ¬ (254 = 253) by decide, if_false, if_true,
        hrd, hv]
      rw [if_neg (show ¬ n < 65536 by omega)]
      simp only
      rw [if_neg (show ¬ n > 33554432 by omega)]

theorem readVarBytes_writeVarBytes (v rest : List Byte) (h : v.length ≤ MAX_SIZE) :
    readVarBytes (writeVarBytes v ++ rest) = .ok (v, rest) := by
  unfold readVarBytes writeVarBytes
  rw [List.append_assoc, ReadCompactSize_WriteCompactSize _ _ h]
  exact readBytes_append _ v rest rfl

theorem readVarBytesList_writeVarBytesList (vv : List (List Byte)) (rest : List Byte)
    (h : ∀ v ∈ vv, v.length ≤ MAX_SIZE) :
    readVarBytesList vv.length (writeVarBytesList vv ++ rest) = .ok (vv, rest) := by
  induction vv with
  | nil => rfl
  | cons v vs ih =>
    simp only [List.length_cons, readVarBytesList, writeVarBytesList, List.append_assoc]
    rw [readVarBytes_writeVarBytes v _ (h v (List.mem_cons_self _ _))]
    simp only
    rw [ih (fun w hw => h w (List.mem_cons_of_mem _ hw))]

theorem readVarVec_writeVarVec (vv : List (List Byte)) (rest : List Byte)
    (hl : vv.length ≤ MAX_SIZE) (h : ∀ v ∈ vv, v.length ≤ MAX_SIZE) :
    readVarVec (writeVarVec vv ++ rest) = .ok (vv, rest) := by
  unfold readVarVec writeVarVec
  rw [List.append_assoc, ReadCompactSize_WriteCompactSize _ _ hl]
  exact readVarBytesList_writeVarBytesList vv rest h

theorem toInt8_small (a : Int) (h1 : -128 ≤ a) (h2 : a ≤ 127) : toInt8 a = a := by
  unfold toInt8
  exact toSigned_toUnsigned 8 a (by decide) (by norm_num; omega) (by norm_num; omega)

/-- The common part of the read, up to the action payload. -/
theorem unserialize_head (obj : CTransition) (ts : CTransition) (tail : List Byte)
    (hr : ts.WithinLimits) (ha : -128 ≤ ts.action ∧ ts.action ≤ 127) :
    CTransition.Unserialize obj
      (writeInt 4 ts.nVersion ++ (writeInt 1 ts.action ++ (writeInt 8 ts.nFee
        ++ (writeBlob 32 ts.hashRegTx ++ (writeBlob 32 ts.hashPrevTransition ++ tail)))))
    =
    (let obj1 : CTransition :=
      { obj with nVersion := ts.nVersion, action := ts.action, nFee := ts.nFee,
                 hashRegTx := ts.hashRegTx, hashPrevTransition := ts.hashPrevTransition }
     let payload : Except Exn (CTransition × List Byte) :=
      if ts.action = Transition_UpdateData then
        match readBlob 32 tail with
        | .error e => .error e
        | .ok (h, s6) => .ok ({ obj1 with hashSTPacket := h }, s6)
      else if ts.action = Transition_ResetKey then
        match readBlob 20 tail with
        | .error e => .error e
        | .ok (k, s6) => .ok ({ obj1 with newPubKeyID := k }, s6)
      else if ts.action = Transition_CloseAccount then .ok (obj1, tail)
      else .error (.ios_base_failure "invalid transition action")
     match payload with
     | .error e => .error e
     | .ok (obj2, s6) =>
     match readVarBytes s6 with
     | .error e => .error e
     | .ok (vchUserSig, s7) =>
     match readVarVec s7 with
     | .error e => .error e
     | .ok (vvchQuorumSigs, s8) =>
       .ok ({ obj2 with vchUserSig := vchUserSig, vvchQuorumSigs := vvchQuorumSigs }, s8)) := by
  obtain ⟨⟨v1, v2⟩, ⟨f1, f2⟩, r1, r2, _⟩ := hr
  unfold CTransition.Unserialize
  rw [readInt_writeInt 4 ts.nVersion _ (by decide) (by norm_num; omega) (by norm_num; omega)]
  simp only
  rw [readInt_writeInt 1 ts.action _ (by decide) (by norm_num; omega) (by norm_num; omega)]
  simp only
  rw [readInt_writeInt 8 ts.nFee _ (by decide) (by norm_num; omega) (by norm_num; omega)]
  simp only
  rw [readBlob_writeBlob 32 ts.hashRegTx _ r1]
  simp only
  rw [readBlob_writeBlob 32 ts.hashPrevTransition _ r2]

/-- C7, as amended: for a transition within the limits whose action is UpdateData, ResetKey
or CloseAccount, serialization succeeds and reading the octets back into any object `obj`
succeeds, consumes all octets and gives the transition, except that a payload member that
does not belong to the action is not transmitted and keeps the value it has in `obj`. -/
theorem serialize_unserialize_round_trip (ts obj : CTransition) (hr : ts.WithinLimits)
    (ha : ts.action = Transition_UpdateData ∨ ts.action = Transition_ResetKey
      ∨ ts.action = Transition_CloseAccount) :
    ∃ bytes, ts.Serialize = .ok bytes
      ∧ CTransition.Unserialize obj bytes = .ok
          ({ ts with
              hashSTPacket :=
                if ts.action = Transition_UpdateData then ts.hashSTPacket else obj.hashSTPacket
              newPubKeyID :=
                if ts.action = Transition_ResetKey then ts.newPubKeyID else obj.newPubKeyID },
            []) := by
  have hrange : -128 ≤ ts.action ∧ ts.action ≤ 127 := by
    simp only [Transition_UpdateData, Transition_ResetKey, Transition_CloseAccount] at ha
    omega
  have h8 : toInt8 ts.action = ts.action := toInt8_small _ hrange.1 hrange.2
  have hhead := fun tail => unserialize_head obj ts tail hr hrange
  obtain ⟨_, _, _, _, r3, r4, hs, hq, hqs⟩ := hr
  have htail : ∀ (a : Int) (b : Int) (c : Int) (d e f g : Nat),
      (match readVarBytes (writeVarBytes ts.vchUserSig ++ writeVarVec ts.vvchQuorumSigs) with
        | .error e => (.error e : Except Exn (CTransition × List Byte))
        | .ok (vchUserSig, s7) =>
          match readVarVec s7 with
          | .error e => .error e
          | .ok (vvchQuorumSigs, s8) =>
            .ok ({ nVersion := a, action := b, nFee := c, hashRegTx := d,
                   hashPrevTransition := e, hashSTPacket := f, newPubKeyID := g,
                   vchUserSig := vchUserSig, vvchQuorumSigs := vvchQuorumSigs }, s8))
      = .ok ({ nVersion := a, action := b, nFee := c, hashRegTx := d,
               hashPrevTransition := e, hashSTPacket := f, newPubKeyID := g,
               vchUserSig := ts.vchUserSig, vvchQuorumSigs := ts.vvchQuorumSigs }, []) := by
    intro a b c d e f g
    rw [readVarBytes_writeVarBytes _ _ hs]
    simp only
    have := readVarVec_writeVarVec ts.vvchQuorumSigs [] hq hqs
    rw [List.append_nil] at this
    rw [this]
  cases ts with
  | mk nVersion action nFee hashRegTx hashPrevTransition hashSTPacket newPubKeyID vchUserSig
      vvchQuorumSigs =>
  simp only at ha h8 hhead htail r3 r4 ⊢
  rcases ha with ha | ha | ha
  · subst ha
    refine ⟨writeInt 4 nVersion ++ (writeInt 1 Transition_UpdateData ++ (writeInt 8 nFee
      ++ (writeBlob 32 hashRegTx ++ (writeBlob 32 hashPrevTransition
      ++ (writeBlob 32 hashSTPacket ++ (writeVarBytes vchUserSig
      ++ writeVarVec vvchQuorumSigs)))))), ?_, ?_⟩
    · simp only [CTransition.Serialize, h8, if_true, List.append_assoc]
    · rw [hhead]
      simp only [if_true]
      rw [readBlob_writeBlob 32 hashSTPacket _ r3]
      simp only
      rw [htail]
      simp [Transition_UpdateData, Transition_ResetKey]
  · subst ha
    refine ⟨writeInt 4 nVersion ++ (writeInt 1 Transition_ResetKey ++ (writeInt 8 nFee
      ++ (writeBlob 32 hashRegTx ++ (writeBlob 32 hashPrevTransition
      ++ (writeBlob 20 newPubKeyID ++ (writeVarBytes vchUserSig
      ++ writeVarVec vvchQuorumSigs)))))), ?_, ?_⟩
    · simp only [CTransition.Serialize, h8, if_true, List.append_assoc,
        show ¬ (Transition_ResetKey = Transition_UpdateData) by decide, if_false]
    · rw [hhead]
      simp only [show ¬ (Transition_ResetKey = Transition_UpdateData) by decide, if_false,
        if_true]
      rw [readBlob_writeBlob 20 newPubKeyID _ r4]
      simp only
      rw [htail]
  · subst ha
    refine ⟨writeInt 4 nVersion ++ (writeInt 1 Transition_CloseAccount ++ (writeInt 8 nFee
      ++ (writeBlob 32 hashRegTx ++ (writeBlob 32 hashPrevTransition
      ++ (writeVarBytes vchUserSig ++ writeVarVec vvchQuorumSigs))))), ?_, ?_⟩
    · simp only [CTransition.Serialize, h8, if_true, List.append_assoc,
        show ¬ (Transition_CloseAccount = Transition_UpdateData) by decide,
        show ¬ (Transition_CloseAccount = Transition_ResetKey) by decide, if_false]
    · rw [hhead]
      simp only [show ¬ (Transition_CloseAccount = Transition_UpdateData) by decide,
        show ¬ (Transition_CloseAccount = Transition_ResetKey) by decide, if_false, if_true]
      rw [htail]

theorem serialize_unserialize_round_trip_witness :
    ∃ bytes, exampleReset.Serialize = .ok bytes
      ∧ CTransition.Unserialize CTransition.fresh bytes = .ok (exampleReset, []) :=
  serialize_unserialize_round_trip exampleReset CTransition.fresh
    (by
      unfold CTransition.WithinLimits
      refine ⟨by decide, by decide, by decide, by decide, by decide, by decide, by decide,
        by decide, ?_⟩
      intro v hv
      cases hv)
    (by decide)

/-- C7, as stated, fails: the close-account transition `exampleClose` carries a data hash;
it is serialized (79 octets) and read back into a fresh object completely, but the result
has a null data hash and so differs from the transition that was serialized. -/
theorem round_trip_drops_unused_payload :
    ∃ bytes, exampleClose.Serialize = .ok bytes ∧ bytes.length = 79
      ∧ CTransition.Unserialize CTransition.fresh bytes
          = .ok ({ exampleClose with hashSTPacket := 0 }, [])
      ∧ ({ exampleClose with hashSTPacket := 0 } : CTransition) ≠ exampleClose :=
  ⟨_, rfl, by rfl, by rfl, by decide⟩

theorem error_is_ios_failure {α : Type} (e : Exn) :
    ∃ what, (Except.error e : Except Exn α) = .error (.ios_base_failure what) := by
  cases e with
  | ios_base_failure what => exact ⟨what, rfl⟩

/-- C8: reading a transition from octets whose fifth octet, as a signed 8-bit value, is not
1, 2 or 3 ends in the exception `std::ios_base::failure`, whatever the other octets are
and whatever object is read into. -/
theorem unserialize_rejects_unknown_action (obj : CTransition) (s : List Byte) (b : Byte)
    (hb : s[4]? = some b)
    (hne : toSigned 8 b.val ≠ Transition_UpdateData ∧ toSigned 8 b.val ≠ Transition_ResetKey
      ∧ toSigned 8 b.val ≠ Transition_CloseAccount) :
    ∃ what, CTransition.Unserialize obj s = .error (.ios_base_failure what) := by
  have hlen : 4 < s.length := by
    by_contra hc
    rw [List.getElem?_eq_none (by omega)] at hb
    cases hb
  have hget : s[4] = b := by
    rw [List.getElem?_eq_getElem hlen] at hb
    exact Option.some.inj hb
  have hdrop : s.drop 4 = b :: s.drop 5 := by
    rw [← hget]
    exact List.drop_eq_getElem_cons hlen
  have h4 : readInt 4 s = .ok (toSigned 32 (fromLE (s.take 4)), b :: s.drop 5) := by
    unfold readInt readBytes
    rw [if_neg (by omega)]
    simp only [hdrop]
  have h1 : readInt 1 (b :: s.drop 5) = .ok (toSigned 8 b.val, s.drop 5) := by
    unfold readInt
    rw [readBytes_cons]
    simp [fromLE]
  unfold CTransition.Unserialize
  rw [h4]
  simp only
  rw [h1]
  simp only
  cases readInt 8 (s.drop 5) with
  | error e => exact error_is_ios_failure e
  | ok r8 =>
    simp only
    cases readBlob 32 r8.2 with
    | error e => exact error_is_ios_failure e
    | ok r32 =>
      simp only
      cases readBlob 32 r32.2 with
      | error e => exact error_is_ios_failure e
      | ok r33 =>
        simp only [if_neg hne.1, if_neg hne.2.1, if_neg hne.2.2]
        exact ⟨_, rfl⟩

theorem unserialize_rejects_unknown_action_witness :
    ∃ what, CTransition.Unserialize CTransition.fresh
        (writeLE 4 0 ++ [byteOf 0] ++ writeLE 100 0) = .error (.ios_base_failure what) :=
  unserialize_rejects_unknown_action CTransition.fresh
    (writeLE 4 0 ++ [byteOf 0] ++ writeLE 100 0) (byteOf 0) (by rfl) (by decide)

theorem serialize_ok_of_action (ts : CTransition)
    (ha : ts.action = Transition_UpdateData ∨ ts.action = Transition_ResetKey
      ∨ ts.action = Transition_CloseAccount) :
    ∃ bytes, ts.Serialize = .ok bytes := by
  unfold CTransition.Serialize
  rcases ha with ha | ha | ha
  · rw [ha]
    exact ⟨_, rfl⟩
  · rw [ha]
    exact ⟨_, rfl⟩
  · rw [ha]
    exact ⟨_, rfl⟩

theorem serialize_throws_of_action (ts : CTransition)
    (h1 : -128 ≤ ts.action) (h2 : ts.action ≤ 127)
    (ha : ts.action ≠ Transition_UpdateData ∧ ts.action ≠ Transition_ResetKey
      ∧ ts.action ≠ Transition_CloseAccount) :
    ts.Serialize = .error (.ios_base_failure "invalid transition action") := by
  unfold CTransition.Serialize
  simp only [toInt8_small _ h1 h2, if_neg ha.1, if_neg ha.2.1, if_neg ha.2.2]

/-- C9, as amended: for a transition whose action is UpdateData, ResetKey or CloseAccount,
`CheckTransitionForUser` returns without an exception, either true or false with score
100, code `REJECT_INVALID` and a reason, and `ProcessTransitionForUser` returns true; for a
transition whose action is any other value of the 8-bit range (such as
`Transition_Invalid`), `ProcessTransitionForUser` returns false with `bad-ts-action`, score
100, and leaves the user as it is, while `CheckTransitionForUser` does not return: it
lets the exception of the serialization through. -/
theorem validation_verdict_or_exception (env : TsEnv) (ts : CTransition) (user : CEvoUser)
    (checkSigs : Bool) :
    ((ts.action = Transition_UpdateData ∨ ts.action = Transition_ResetKey
        ∨ ts.action = Transition_CloseAccount) →
      (∃ v, CheckTransitionForUser env ts user checkSigs = .ok v
        ∧ (v = .ok ∨ ∃ reason, v = .DoS 100 .REJECT_INVALID reason))
      ∧ (ProcessTransitionForUser env ts user).2 = .ok)
    ∧ ((-128 ≤ ts.action ∧ ts.action ≤ 127 ∧ ts.action ≠ Transition_UpdateData
        ∧ ts.action ≠ Transition_ResetKey ∧ ts.action ≠ Transition_CloseAccount) →
      CheckTransitionForUser env ts user checkSigs
          = .error (.ios_base_failure "invalid transition action")
      ∧ ProcessTransitionForUser env ts user
          = (user, .DoS 100 .REJECT_INVALID "bad-ts-action")) := by
  constructor
  · intro ha
    constructor
    · obtain ⟨bytes, hs⟩ := serialize_ok_of_action ts ha
      have hsz : GetSerializeSize ts = .ok bytes.length := by
        simp [GetSerializeSize, hs]
      rw [check_of_size env ts user checkSigs _ hsz]
      refine ⟨_, rfl, ?_⟩
      split_ifs
      all_goals first
        | exact Or.inl rfl
        | exact Or.inr ⟨_, rfl⟩
    · simp only [Transition_UpdateData, Transition_ResetKey, Transition_CloseAccount] at ha
      rcases ha with ha | ha | ha
      · rw [process_update env ts user ha]
      · rw [process_reset env ts user ha]
      · rw [process_close env ts user ha]
  · rintro ⟨h1, h2, ha⟩
    constructor
    · simp [CheckTransitionForUser, GetSerializeSize, serialize_throws_of_action ts h1 h2 ha]
    · simp only [Transition_UpdateData, Transition_ResetKey, Transition_CloseAccount] at ha
      exact process_other env ts user ha.1 ha.2.1 ha.2.2

theorem validation_verdict_or_exception_witness :
    ((∃ v, CheckTransitionForUser exampleEnv exampleUpdate exampleUser true = .ok v
        ∧ (v = .ok ∨ ∃ reason, v = .DoS 100 .REJECT_INVALID reason))
      ∧ (ProcessTransitionForUser exampleEnv exampleUpdate exampleUser).2 = .ok)
    ∧ (CheckTransitionForUser exampleEnv exampleInvalid exampleUser true
          = .error (.ios_base_failure "invalid transition action")
      ∧ ProcessTransitionForUser exampleEnv exampleInvalid exampleUser
          = (exampleUser, .DoS 100 .REJECT_INVALID "bad-ts-action")) :=
  ⟨(validation_verdict_or_exception exampleEnv exampleUpdate exampleUser true).1 (by decide),
   (validation_verdict_or_exception exampleEnv exampleInvalid exampleUser true).2 (by decide)⟩

/-- C9, as stated, fails: checking the transition `exampleInvalid`, whose action is
`Transition_Invalid`, against a user does not return a verdict but ends in the exception
thrown while the serialized size is computed. -/
theorem check_raises_on_invalid_action :
    CheckTransitionForUser exampleEnv exampleInvalid exampleUser true
      = .error (.ios_base_failure "invalid transition action") := by
  rfl

/-- C2, as amended: `CheckTransitionForUser` returns true exactly when the transition has a
serialized size of at most 1500, the user is open, the fee is between 1000 and 10000, the
balance covers the fee, the predecessor is the last transition of the user and, with
`checkSigs`, the user signature verifies.  A transition whose action is UpdateData, ResetKey
or CloseAccount has a serialized size, and such a transition is otherwise rejected with
score 100 and the reason of the first condition that fails, in the order size, closed, fee,
credits, ancestor, signature.  For a transition with any other action of the 8-bit range
the call neither accepts nor rejects: it ends in the exception of the serializer, whatever
the other conditions are. -/
theorem CheckTransitionForUser_conditions (env : TsEnv) (ts : CTransition) (user : CEvoUser)
    (checkSigs : Bool) :
    (CheckTransitionForUser env ts user checkSigs = .ok .ok ↔
      ((∃ sz, GetSerializeSize ts = .ok sz ∧ sz ≤ 1500) ∧ user.closed = false
        ∧ 1000 ≤ ts.nFee ∧ ts.nFee ≤ 10000 ∧ ts.nFee ≤ user.creditBalance
        ∧ ts.hashPrevTransition = user.lastTransition
        ∧ (checkSigs = true →
            user.VerifySig env (env.MakeSignMessage ts) ts.vchUserSig = true)))
    ∧ (∀ sz, GetSerializeSize ts = .ok sz →
        (1500 < sz → CheckTransitionForUser env ts user checkSigs
            = .ok (.DoS 100 .REJECT_INVALID "bad-ts-size"))
        ∧ (sz ≤ 1500 → user.closed = true → CheckTransitionForUser env ts user checkSigs
            = .ok (.DoS 100 .REJECT_INVALID "bad-ts-accountclosed"))
        ∧ (sz ≤ 1500 → user.closed = false → (ts.nFee < 1000 ∨ 10000 < ts.nFee) →
            CheckTransitionForUser env ts user checkSigs
              = .ok (.DoS 100 .REJECT_INVALID "bad-ts-fee"))
        ∧ (sz ≤ 1500 → user.closed = false → 1000 ≤ ts.nFee → ts.nFee ≤ 10000 →
            user.creditBalance < ts.nFee →
            CheckTransitionForUser env ts user checkSigs
              = .ok (.DoS 100 .REJECT_INVALID "bad-ts-nocredits"))
        ∧ (sz ≤ 1500 → user.closed = false → 1000 ≤ ts.nFee → ts.nFee ≤ 10000 →
            ts.nFee ≤ user.creditBalance → ts.hashPrevTransition ≠ user.lastTransition →
            CheckTransitionForUser env ts user checkSigs
              = .ok (.DoS 100 .REJECT_INVALID "bad-ts-ancestor"))
        ∧ (sz ≤ 1500 → user.closed = false → 1000 ≤ ts.nFee → ts.nFee ≤ 10000 →
            ts.nFee ≤ user.creditBalance → ts.hashPrevTransition = user.lastTransition →
            checkSigs = true →
            user.VerifySig env (env.MakeSignMessage ts) ts.vchUserSig = false →
            CheckTransitionForUser env ts user checkSigs
              = .ok (.DoS 100 .REJECT_INVALID "bad-ts-usersig")))
    ∧ ((ts.action = Transition_UpdateData ∨ ts.action = Transition_ResetKey
        ∨ ts.action = Transition_CloseAccount) →
      ∃ sz, GetSerializeSize ts = .ok sz)
    ∧ ((-128 ≤ ts.action ∧ ts.action ≤ 127 ∧ ts.action ≠ Transition_UpdateData
        ∧ ts.action ≠ Transition_ResetKey ∧ ts.action ≠ Transition_CloseAccount) →
      CheckTransitionForUser env ts user checkSigs
        = .error (.ios_base_failure "invalid transition action")) := by
  refine ⟨?_, ?_, ?_, ?_⟩
  rotate_left 2
  · intro ha
    obtain ⟨bytes, hs⟩ := serialize_ok_of_action ts ha
    exact ⟨bytes.length, by simp [GetSerializeSize, hs]⟩
  · rintro ⟨h1, h2, ha⟩
    have hs := serialize_throws_of_action ts h1 h2 ha
    simp [CheckTransitionForUser, GetSerializeSize, hs]
  · constructor
    · intro h
      cases hsz : GetSerializeSize ts with
      | error e => simp [CheckTransitionForUser, hsz] at h
      | ok sz =>
        rw [check_of_size env ts user checkSigs sz hsz] at h
        simp only [Except.ok.injEq] at h
        split_ifs at h with h1 h2 h3 h4 h5 h6
        refine ⟨⟨sz, rfl, by omega⟩, by simpa using h2, by omega, by omega, by omega,
          by simpa using h5, ?_⟩
        intro hcs
        cases hv : user.VerifySig env (env.MakeSignMessage ts) ts.vchUserSig
        · exact absurd ⟨hcs, hv⟩ h6
        · rfl
    · rintro ⟨⟨sz, hsz, hle⟩, hcl, hf1, hf2, hb, hp, hsig⟩
      rw [check_of_size env ts user checkSigs sz hsz]
      have h3 : ¬ (ts.nFee < 1000 ∨ 10000 < ts.nFee) := by omega
      have h6 : ¬ (checkSigs = true
          ∧ user.VerifySig env (env.MakeSignMessage ts) ts.vchUserSig = false) := by
        rintro ⟨a, b⟩
        rw [hsig a] at b
        cases b
      simp [Nat.not_lt.mpr hle, hcl, h3, not_lt.mpr hb, hp, h6]
  · intro sz hsz
    rw [check_of_size env ts user checkSigs sz hsz]
    refine ⟨?_, ?_, ?_, ?_, ?_, ?_⟩
    · intro h1
      simp [h1]
    · intro h1 h2
      simp [Nat.not_lt.mpr h1, h2]
    · intro h1 h2 h3
      simp [Nat.not_lt.mpr h1, h2, h3]
    · intro h1 h2 h3 h3' h4
      have : ¬ (ts.nFee < 1000 ∨ 10000 < ts.nFee) := by omega
      simp [Nat.not_lt.mpr h1, h2, this, h4]
    · intro h1 h2 h3 h3' h4 h5
      have : ¬ (ts.nFee < 1000 ∨ 10000 < ts.nFee) := by omega
      simp [Nat.not_lt.mpr h1, h2, this, not_lt.mpr h4, h5]
    · intro h1 h2 h3 h3' h4 h5 h6 h7
      have : ¬ (ts.nFee < 1000 ∨ 10000 < ts.nFee) := by omega
      simp [Nat.not_lt.mpr h1, h2, this, not_lt.mpr h4, h5, h6, h7]

theorem CheckTransitionForUser_conditions_witness :
    CheckTransitionForUser exampleEnv exampleUpdate examplePoorUser true
      = .ok (.DoS 100 .REJECT_INVALID "bad-ts-nocredits") :=
  ((CheckTransitionForUser_conditions exampleEnv exampleUpdate examplePoorUser true).2.1
      131 (by rfl)).2.2.2.1 (by decide) (by rfl) (by decide) (by decide) (by decide)

/-- C2, as stated, fails: the transition `exampleInvalid` has the action of a
default-constructed transition and a fee of 1000, which the balance of 500 of
`examplePoorUser` does not cover.  The check does not return true, and the condition that
fails first in the order of the claim is the balance, yet the call does not reject with
`bad-ts-nocredits` and score 100, nor with any other score and reason: it ends in the
exception thrown while the serialized size is computed. -/
theorem check_raises_instead_of_rejecting :
    exampleInvalid.nFee = 1000 ∧ examplePoorUser.creditBalance = 500
    ∧ examplePoorUser.closed = false
    ∧ CheckTransitionForUser exampleEnv exampleInvalid examplePoorUser true ≠ .ok .ok
    ∧ CheckTransitionForUser exampleEnv exampleInvalid examplePoorUser true
        ≠ .ok (.DoS 100 .REJECT_INVALID "bad-ts-nocredits")
    ∧ (∀ level code reason,
        CheckTransitionForUser exampleEnv exampleInvalid examplePoorUser true
          ≠ .ok (.DoS level code reason))
    ∧ CheckTransitionForUser exampleEnv exampleInvalid examplePoorUser true
        = .error (.ios_base_failure "invalid transition action") := by
  have h : CheckTransitionForUser exampleEnv exampleInvalid examplePoorUser true
      = .error (.ios_base_failure "invalid transition action") := by rfl
  refine ⟨by rfl, by rfl, by rfl, ?_, ?_, ?_, h⟩
  · rw [h]
    intro hc
    cases hc
  · rw [h]
    intro hc
    cases hc
  · intro level code reason
    rw [h]
    intro hc
    cases hc

/-- The verdict when rules 1 to 6 hold and the inputs hash differs. -/
theorem check_of_rules_hash (env : ProviderEnv) (tx : CTransaction)
    (pindex : Option CBlockIndex) (ptx : CProviderTXRegisterMN) (c : CTxOut)
    (hp : env.GetTxPayload tx = some ptx) (hr : AdmissionRules1to6 env tx ptx c)
    (hh : env.CalcTxInputsHash tx ≠ ptx.inputsHash) :
    CheckProviderTxRegister env tx pindex
      = .DoS 100 .REJECT_INVALID "bad-provider-inputs-hash" := by
  obtain ⟨h1, ⟨h2a, h2b⟩, ⟨h3a, h3b, h3c, h3d⟩, ⟨h4a, h4b⟩, ⟨h5a, h5b⟩, ⟨h6a, h6b⟩⟩ := hr
  have hv : voutAt tx ptx.nCollateralIndex = some c :=
    (voutAt_eq_some tx _ c).mpr ⟨h3a, h3b, h3c⟩
  have h2 : ¬ (ptx.nProtocolVersion < env.MIN_EVO_PROTO_VERSION
      ∨ ptx.nProtocolVersion > env.PROTOCOL_VERSION) := by omega
  have h4 : (!env.isRegtest && !env.IsRoutable ptx.addr) = false := by
    cases hreg : env.isRegtest
    · simp [h4b hreg]
    · simp
  have h6c : env.IsPayToPublicKeyHash c.scriptPubKey = true := h6b ▸ h6a
  unfold CheckProviderTxRegister
  simp [hp, h1, h2, hv, h3d, h4a, h4, CKeyID_IsNull, h5a, h5b, h6c, h6b, hh]

theorem ScoreClassified.ite (c : Prop) [Decidable c] (a b : Verdict)
    (ha : ScoreClassified a) (hb : ScoreClassified b) :
    ScoreClassified (if c then a else b) := by
  split
  · exact ha
  · exact hb

theorem ScoreClassified.serious (code : RejectCode) (reason : String)
    (h : reason ∈ seriousReasons) : ScoreClassified (.DoS 100 code reason) :=
  Or.inr (Or.inl ⟨code, reason, rfl, h⟩)

theorem ScoreClassified.minor (code : RejectCode) (reason : String)
    (h : reason ∈ minorReasons) : ScoreClassified (.DoS 10 code reason) :=
  Or.inr (Or.inr ⟨code, reason, rfl, h⟩)

theorem checkListAndSig_classes (env : ProviderEnv) (ptx : CProviderTXRegisterMN)
    (pindex : Option CBlockIndex) : ScoreClassified (checkListAndSig env ptx pindex) := by
  have hsig : ScoreClassified (checkProviderSig env ptx) := by
    unfold checkProviderSig
    exact ScoreClassified.ite _ _ _ (ScoreClassified.serious _ _ (by decide)) (Or.inl rfl)
  have hlist : ∀ pidx, ScoreClassified (checkAgainstList env ptx pidx) := by
    intro pidx
    unfold checkAgainstList
    dsimp only
    cases collectKeyIDs ptx (env.GetListAtHeight pidx.nHeight) [] with
    | none =>
      dsimp only
      exact ScoreClassified.minor _ _ (by decide)
    | some keyIDs =>
      dsimp only
      refine ScoreClassified.ite _ _ _ (ScoreClassified.minor _ _ (by decide)) ?_
      refine ScoreClassified.ite _ _ _ (ScoreClassified.minor _ _ (by decide)) ?_
      exact Or.inl rfl
  unfold checkListAndSig
  cases pindex with
  | none => exact ScoreClassified.ite _ _ _ (Or.inl rfl) hsig
  | some pidx => exact ScoreClassified.ite _ _ _ (hlist pidx) hsig

/-- Every verdict of the provider check is an acceptance, a rejection with score 100 and one
of the serious reasons, or a rejection with score 10 and one of the minor reasons. -/
theorem check_verdict_classes (env : ProviderEnv) (tx : CTransaction)
    (pindex : Option CBlockIndex) :
    ScoreClassified (CheckProviderTxRegister env tx pindex) := by
  unfold CheckProviderTxRegister
  cases env.GetTxPayload tx with
  | none => exact ScoreClassified.serious _ _ (by decide)
  | some ptx =>
    refine ScoreClassified.ite _ _ _ (ScoreClassified.serious _ _ (by decide)) ?_
    refine ScoreClassified.ite _ _ _ (ScoreClassified.minor _ _ (by decide)) ?_
    cases voutAt tx ptx.nCollateralIndex with
    | none => exact ScoreClassified.minor _ _ (by decide)
    | some c =>
      refine ScoreClassified.ite _ _ _ (ScoreClassified.minor _ _ (by decide)) ?_
      refine ScoreClassified.ite _ _ _ (ScoreClassified.minor _ _ (by decide)) ?_
      refine ScoreClassified.ite _ _ _ (ScoreClassified.minor _ _ (by decide)) ?_
      refine ScoreClassified.ite _ _ _ (ScoreClassified.minor _ _ (by decide)) ?_
      refine ScoreClassified.ite _ _ _ (ScoreClassified.minor _ _ (by decide)) ?_
      refine ScoreClassified.ite _ _ _ (ScoreClassified.minor _ _ (by decide)) ?_
      refine ScoreClassified.ite _ _ _ (ScoreClassified.minor _ _ (by decide)) ?_
      refine ScoreClassified.ite _ _ _ (ScoreClassified.serious _ _ (by decide)) ?_
      exact checkListAndSig_classes env ptx pindex

/-- The verdict of the list block when rules 8 and 9 hold, or when there is no block index. -/
theorem checkListAndSig_of_rules (env : ProviderEnv) (ptx : CProviderTXRegisterMN)
    (pindex : Option CBlockIndex)
    (hl : ∀ pidx, pindex = some pidx →
      AdmissionRule8 (env.GetListAtHeight pidx.nHeight) ptx
        ∧ (env.IsDeterministicMNsSporkActive pidx.nHeight = false →
            ptx.keyIDOperator = ptx.keyIDOwner)) :
    checkListAndSig env ptx pindex = checkProviderSig env ptx := by
  unfold checkListAndSig
  cases pindex with
  | none => simp [Verdict.toBool]
  | some pidx =>
    obtain ⟨h8, h9⟩ := hl pidx rfl
    have hok : checkAgainstList env ptx pidx = .ok := by
      rw [(checkAgainstList_cases env ptx pidx).2.2 h8]
      apply if_neg
      rintro ⟨hne, hs⟩
      exact hne (h9 hs)
    simp [hok, Verdict.toBool]

/-- The tests up to the inputs hash give rules 1 to 7. -/
theorem rules1to7_of_tests (env : ProviderEnv) (tx : CTransaction)
    (ptx : CProviderTXRegisterMN) (pindex : Option CBlockIndex)
    (h : ∀ t : AdmissionTest, t.position < 10 → AdmissionTest.Holds env tx ptx pindex t) :
    ∃ c, AdmissionRules1to7 env tx ptx c := by
  have h1 : ptx.nVersion = env.CURRENT_VERSION := h .version (by decide)
  have h2 : env.MIN_EVO_PROTO_VERSION ≤ ptx.nProtocolVersion
      ∧ ptx.nProtocolVersion ≤ env.PROTOCOL_VERSION := h .protoVersion (by decide)
  have h3 : 0 ≤ ptx.nCollateralIndex ∧ ptx.nCollateralIndex < (tx.vout.length : Int) :=
    h .collateralIndex (by decide)
  have h4 : ∃ c, tx.vout[ptx.nCollateralIndex.toNat]? = some c ∧ c.nValue = 1000 * env.COIN :=
    h .collateralValue (by decide)
  have h5 : env.IsValid ptx.addr = true ∧ (env.isRegtest = false → env.IsRoutable ptx.addr = true) :=
    h .addr (by decide)
  have h6 : ptx.keyIDOperator ≠ 0 := h .keyOperator (by decide)
  have h7 : ptx.keyIDOwner ≠ 0 := h .keyOwner (by decide)
  have h8 : env.IsPayToPublicKeyHash ptx.scriptPayout = true := h .payee (by decide)
  have h9 : ∃ c, tx.vout[ptx.nCollateralIndex.toNat]? = some c
      ∧ ptx.scriptPayout = c.scriptPubKey := h .payeeCollateral (by decide)
  have h10 : env.CalcTxInputsHash tx = ptx.inputsHash := h .inputsHash (by decide)
  obtain ⟨c, hc, hval⟩ := h4
  obtain ⟨c', hc', hscr⟩ := h9
  rw [hc] at hc'
  cases hc'
  exact ⟨c, h1, h2, ⟨h3.1, h3.2, hc, hval⟩, h5, ⟨h6, h7⟩, ⟨h8, hscr⟩, h10⟩

/-- The check from the address test on, once the collateral output is known to hold 1000
coins. -/
theorem check_after_collateral (env : ProviderEnv) (tx : CTransaction)
    (pindex : Option CBlockIndex) (ptx : CProviderTXRegisterMN) (c : CTxOut)
    (hp : env.GetTxPayload tx = some ptx)
    (h1 : ptx.nVersion = env.CURRENT_VERSION)
    (h2 : env.MIN_EVO_PROTO_VERSION ≤ ptx.nProtocolVersion
      ∧ ptx.nProtocolVersion ≤ env.PROTOCOL_VERSION)
    (hv : voutAt tx ptx.nCollateralIndex = some c) (hval : c.nValue = 1000 * env.COIN) :
    CheckProviderTxRegister env tx pindex =
      if (!env.IsValid ptx.addr || (!env.isRegtest && !env.IsRoutable ptx.addr)) = true then
        .DoS 10 .REJECT_INVALID "bad-provider-addr"
      else if (!env.isRegtest && !env.IsRoutable ptx.addr) = true then
        .DoS 10 .REJECT_INVALID "bad-provider-addr"
      else if CKeyID_IsNull ptx.keyIDOperator = true then
        .DoS 10 .REJECT_INVALID "bad-provider-key-operator"
      else if CKeyID_IsNull ptx.keyIDOwner = true then
        .DoS 10 .REJECT_INVALID "bad-provider-key-owner"
      else if (!env.IsPayToPublicKeyHash ptx.scriptPayout) = true then
        .DoS 10 .REJECT_INVALID "bad-provider-payee"
      else if c.scriptPubKey ≠ ptx.scriptPayout then
        .DoS 10 .REJECT_INVALID "bad-provider-payee-collateral"
      else if env.CalcTxInputsHash tx ≠ ptx.inputsHash then
        .DoS 100 .REJECT_INVALID "bad-provider-inputs-hash"
      else checkListAndSig env ptx pindex := by
  have h2' : ¬ (ptx.nProtocolVersion < env.MIN_EVO_PROTO_VERSION
      ∨ ptx.nProtocolVersion > env.PROTOCOL_VERSION) := by omega
  unfold CheckProviderTxRegister
  simp only [hp, h1, ne_eq, not_true_eq_false, if_false, if_neg h2', hv, hval]

/-- The collateral output, from the tests of rule 3. -/
theorem collateral_of_tests (env : ProviderEnv) (tx : CTransaction)
    (ptx : CProviderTXRegisterMN) (pindex : Option CBlockIndex)
    (h3 : AdmissionTest.Holds env tx ptx pindex .collateralIndex)
    (h4 : AdmissionTest.Holds env tx ptx pindex .collateralValue) :
    ∃ c, voutAt tx ptx.nCollateralIndex = some c ∧ c.nValue = 1000 * env.COIN
      ∧ tx.vout[ptx.nCollateralIndex.toNat]? = some c := by
  obtain ⟨c, hc, hval⟩ := h4
  exact ⟨c, (voutAt_eq_some tx _ _).mpr ⟨h3.1, h3.2, hc⟩, hval, hc⟩

/-- The verdict by the first test that fails: a rejection with the score the specification
gives to the rule of the test, the reject code of the test and its reason. -/
theorem check_of_first_failed_test (env : ProviderEnv) (tx : CTransaction)
    (pindex : Option CBlockIndex) (ptx : CProviderTXRegisterMN)
    (hp : env.GetTxPayload tx = some ptx) (t : AdmissionTest)
    (hprev : ∀ t' : AdmissionTest, t'.position < t.position →
      AdmissionTest.Holds env tx ptx pindex t')
    (hfail : ¬ AdmissionTest.Holds env tx ptx pindex t) :
    CheckProviderTxRegister env tx pindex = .DoS (specScore t.rule) t.code t.reason := by
  cases t with
  | version =>
    have hf : ptx.nVersion ≠ env.CURRENT_VERSION := hfail
    show _ = Verdict.DoS 100 .REJECT_INVALID "bad-provider-version"
    unfold CheckProviderTxRegister
    simp [hp, hf]
  | protoVersion =>
    have h1 : ptx.nVersion = env.CURRENT_VERSION := hprev .version (by decide)
    have hf : ¬ (env.MIN_EVO_PROTO_VERSION ≤ ptx.nProtocolVersion
      ∧ ptx.nProtocolVersion ≤ env.PROTOCOL_VERSION) := hfail
    have hf' : ptx.nProtocolVersion < env.MIN_EVO_PROTO_VERSION
        ∨ ptx.nProtocolVersion > env.PROTOCOL_VERSION := by omega
    show _ = Verdict.DoS 10 .REJECT_INVALID "bad-provider-proto-version"
    unfold CheckProviderTxRegister
    simp only [hp, h1, ne_eq, not_true_eq_false, if_false, if_pos hf']
  | collateralIndex =>
    have h1 : ptx.nVersion = env.CURRENT_VERSION := hprev .version (by decide)
    have h2 : env.MIN_EVO_PROTO_VERSION ≤ ptx.nProtocolVersion
      ∧ ptx.nProtocolVersion ≤ env.PROTOCOL_VERSION := hprev .protoVersion (by decide)
    have h2' : ¬ (ptx.nProtocolVersion < env.MIN_EVO_PROTO_VERSION
        ∨ ptx.nProtocolVersion > env.PROTOCOL_VERSION) := by omega
    have hf : ¬ (0 ≤ ptx.nCollateralIndex ∧ ptx.nCollateralIndex < (tx.vout.length : Int)) :=
      hfail
    have hv : voutAt tx ptx.nCollateralIndex = none :=
      (voutAt_eq_none tx _).mpr (by omega)
    show _ = Verdict.DoS 10 .REJECT_INVALID "bad-provider-collateral-index"
    unfold CheckProviderTxRegister
    simp only [hp, h1, ne_eq, not_true_eq_false, if_false, if_neg h2', hv]
  | collateralValue =>
    have h1 : ptx.nVersion = env.CURRENT_VERSION := hprev .version (by decide)
    have h2 : env.MIN_EVO_PROTO_VERSION ≤ ptx.nProtocolVersion
      ∧ ptx.nProtocolVersion ≤ env.PROTOCOL_VERSION := hprev .protoVersion (by decide)
    have h2' : ¬ (ptx.nProtocolVersion < env.MIN_EVO_PROTO_VERSION
        ∨ ptx.nProtocolVersion > env.PROTOCOL_VERSION) := by omega
    have h3 : 0 ≤ ptx.nCollateralIndex ∧ ptx.nCollateralIndex < (tx.vout.length : Int) :=
      hprev .collateralIndex (by decide)
    have hf : ¬ ∃ c, tx.vout[ptx.nCollateralIndex.toNat]? = some c
        ∧ c.nValue = 1000 * env.COIN := hfail
    have hlt : ptx.nCollateralIndex.toNat < tx.vout.length := by omega
    have hget : tx.vout[ptx.nCollateralIndex.toNat]?
        = some (tx.vout.get ⟨ptx.nCollateralIndex.toNat, hlt⟩) := by
      simp [List.getElem?_eq_getElem hlt]
    have hv : voutAt tx ptx.nCollateralIndex
        = some (tx.vout.get ⟨ptx.nCollateralIndex.toNat, hlt⟩) :=
      (voutAt_eq_some tx _ _).mpr ⟨h3.1, h3.2, hget⟩
    have hval : (tx.vout.get ⟨ptx.nCollateralIndex.toNat, hlt⟩).nValue ≠ 1000 * env.COIN :=
      fun hc => hf ⟨_, hget, hc⟩
    show _ = Verdict.DoS 10 .REJECT_INVALID "bad-provider-collateral"
    unfold CheckProviderTxRegister
    simp only [hp, h1, ne_eq, not_true_eq_false, if_false, if_neg h2', hv]
    exact if_pos hval
  | addr =>
    obtain ⟨c, hv, hval, _⟩ := collateral_of_tests env tx ptx pindex
      (hprev .collateralIndex (by decide)) (hprev .collateralValue (by decide))
    rw [check_after_collateral env tx pindex ptx c hp (hprev .version (by decide))
      (hprev .protoVersion (by decide)) hv hval]
    have hf : ¬ (env.IsValid ptx.addr = true
      ∧ (env.isRegtest = false → env.IsRoutable ptx.addr = true)) := hfail
    show _ = Verdict.DoS 10 .REJECT_INVALID "bad-provider-addr"
    apply if_pos
    cases hval : env.IsValid ptx.addr <;> cases hreg : env.isRegtest <;>
      cases hrout : env.IsRoutable ptx.addr <;> simp [hval, hreg, hrout] at hf ⊢
  | keyOperator =>
    obtain ⟨c, hv, hval, _⟩ := collateral_of_tests env tx ptx pindex
      (hprev .collateralIndex (by decide)) (hprev .collateralValue (by decide))
    rw [check_after_collateral env tx pindex ptx c hp (hprev .version (by decide))
      (hprev .protoVersion (by decide)) hv hval]
    have h5 : env.IsValid ptx.addr = true
      ∧ (env.isRegtest = false → env.IsRoutable ptx.addr = true) := hprev .addr (by decide)
    have h5' : (!env.isRegtest && !env.IsRoutable ptx.addr) = false := by
      cases hreg : env.isRegtest
      · simp [h5.2 hreg]
      · simp
    have hf : ¬ (ptx.keyIDOperator ≠ 0) := hfail
    show _ = Verdict.DoS 10 .REJECT_INVALID "bad-provider-key-operator"
    simp [h5.1, h5', CKeyID_IsNull, not_not.mp hf]
  | keyOwner =>
    obtain ⟨c, hv, hval, _⟩ := collateral_of_tests env tx ptx pindex
      (hprev .collateralIndex (by decide)) (hprev .collateralValue (by decide))
    rw [check_after_collateral env tx pindex ptx c hp (hprev .version (by decide))
      (hprev .protoVersion (by decide)) hv hval]
    have h5 : env.IsValid ptx.addr = true
      ∧ (env.isRegtest = false → env.IsRoutable ptx.addr = true) := hprev .addr (by decide)
    have h5' : (!env.isRegtest && !env.IsRoutable ptx.addr) = false := by
      cases hreg : env.isRegtest
      · simp [h5.2 hreg]
      · simp
    have h6 : ptx.keyIDOperator ≠ 0 := hprev .keyOperator (by decide)
    have hf : ¬ (ptx.keyIDOwner ≠ 0) := hfail
    show _ = Verdict.DoS 10 .REJECT_INVALID "bad-provider-key-owner"
    simp [h5.1, h5', CKeyID_IsNull, h6, not_not.mp hf]
  | payee =>
    obtain ⟨c, hv, hval, _⟩ := collateral_of_tests env tx ptx pindex
      (hprev .collateralIndex (by decide)) (hprev .collateralValue (by decide))
    rw [check_after_collateral env tx pindex ptx c hp (hprev .version (by decide))
      (hprev .protoVersion (by decide)) hv hval]
    have h5 : env.IsValid ptx.addr = true
      ∧ (env.isRegtest = false → env.IsRoutable ptx.addr = true) := hprev .addr (by decide)
    have h5' : (!env.isRegtest && !env.IsRoutable ptx.addr) = false := by
      cases hreg : env.isRegtest
      · simp [h5.2 hreg]
      · simp
    have h6 : ptx.keyIDOperator ≠ 0 := hprev .keyOperator (by decide)
    have h7 : ptx.keyIDOwner ≠ 0 := hprev .keyOwner (by decide)
    have hf : ¬ (env.IsPayToPublicKeyHash ptx.scriptPayout = true) := hfail
    show _ = Verdict.DoS 10 .REJECT_INVALID "bad-provider-payee"
    simp [h5.1, h5', CKeyID_IsNull, h6, h7, hf]
  | payeeCollateral =>
    obtain ⟨c, hv, hval, hget⟩ := collateral_of_tests env tx ptx pindex
      (hprev .collateralIndex (by decide)) (hprev .collateralValue (by decide))
    rw [check_after_collateral env tx pindex ptx c hp (hprev .version (by decide))
      (hprev .protoVersion (by decide)) hv hval]
    have h5 : env.IsValid ptx.addr = true
      ∧ (env.isRegtest = false → env.IsRoutable ptx.addr = true) := hprev .addr (by decide)
    have h5' : (!env.isRegtest && !env.IsRoutable ptx.addr) = false := by
      cases hreg : env.isRegtest
      · simp [h5.2 hreg]
      · simp
    have h6 : ptx.keyIDOperator ≠ 0 := hprev .keyOperator (by decide)
    have h7 : ptx.keyIDOwner ≠ 0 := hprev .keyOwner (by decide)
    have h8 : env.IsPayToPublicKeyHash ptx.scriptPayout = true := hprev .payee (by decide)
    have hf : ¬ ∃ c, tx.vout[ptx.nCollateralIndex.toNat]? = some c
        ∧ ptx.scriptPayout = c.scriptPubKey := hfail
    have hne : ¬ (c.scriptPubKey = ptx.scriptPayout) := fun hc => hf ⟨c, hget, hc.symm⟩
    show _ = Verdict.DoS 10 .REJECT_INVALID "bad-provider-payee-collateral"
    simp [h5.1, h5', CKeyID_IsNull, h6, h7, h8, hne]
  | inputsHash =>
    obtain ⟨c, hv, hval, hget⟩ := collateral_of_tests env tx ptx pindex
      (hprev .collateralIndex (by decide)) (hprev .collateralValue (by decide))
    rw [check_after_collateral env tx pindex ptx c hp (hprev .version (by decide))
      (hprev .protoVersion (by decide)) hv hval]
    have h5 : env.IsValid ptx.addr = true
      ∧ (env.isRegtest = false → env.IsRoutable ptx.addr = true) := hprev .addr (by decide)
    have h5' : (!env.isRegtest && !env.IsRoutable ptx.addr) = false := by
      cases hreg : env.isRegtest
      · simp [h5.2 hreg]
      · simp
    have h6 : ptx.keyIDOperator ≠ 0 := hprev .keyOperator (by decide)
    have h7 : ptx.keyIDOwner ≠ 0 := hprev .keyOwner (by decide)
    have h8 : env.IsPayToPublicKeyHash ptx.scriptPayout = true := hprev .payee (by decide)
    have h9 : ∃ c, tx.vout[ptx.nCollateralIndex.toNat]? = some c
        ∧ ptx.scriptPayout = c.scriptPubKey := hprev .payeeCollateral (by decide)
    have hscr : c.scriptPubKey = ptx.scriptPayout := by
      obtain ⟨c', hc', hs⟩ := h9
      rw [hget] at hc'
      cases hc'
      exact hs.symm
    have hf : ¬ (env.CalcTxInputsHash tx = ptx.inputsHash) := hfail
    show _ = Verdict.DoS 100 .REJECT_INVALID "bad-provider-inputs-hash"
    simp [h5.1, h5', CKeyID_IsNull, h6, h7, h8, hscr, hf]
  | dupAddr =>
    obtain ⟨c, hr⟩ := rules1to7_of_tests env tx ptx pindex
      (fun t' ht => hprev t' (by simpa [AdmissionTest.position] using ht))
    rw [check_of_rules env tx pindex ptx c hp hr]
    have hf : ¬ ∀ pidx, pindex = some pidx →
      ∀ dmn ∈ env.GetListAtHeight pidx.nHeight, dmn.proTx.addr ≠ ptx.addr := hfail
    push_neg at hf
    obtain ⟨pidx, hpi, dmn, hmem, heq⟩ := hf
    have := (checkAgainstList_cases env ptx pidx).1 ⟨dmn, hmem, heq⟩
    show _ = Verdict.DoS 10 .REJECT_DUPLICATE "bad-provider-dup-addr"
    simp [checkListAndSig, hpi, this, Verdict.toBool]
  | dupKey =>
    obtain ⟨c, hr⟩ := rules1to7_of_tests env tx ptx pindex
      (fun t' ht => hprev t' (by
        have : AdmissionTest.position .dupKey = 11 := rfl
        omega))
    rw [check_of_rules env tx pindex ptx c hp hr]
    have h11 : ∀ pidx, pindex = some pidx →
      ∀ dmn ∈ env.GetListAtHeight pidx.nHeight, dmn.proTx.addr ≠ ptx.addr :=
      hprev .dupAddr (by decide)
    have hf : ¬ ∀ pidx, pindex = some pidx →
      ∀ dmn ∈ env.GetListAtHeight pidx.nHeight,
        dmn.proTx.keyIDOperator ≠ ptx.keyIDOperator ∧ dmn.proTx.keyIDOwner ≠ ptx.keyIDOperator
        ∧ dmn.proTx.keyIDOperator ≠ ptx.keyIDOwner ∧ dmn.proTx.keyIDOwner ≠ ptx.keyIDOwner :=
      hfail
    push_neg at hf
    obtain ⟨pidx, hpi, dmn, hmem, hk⟩ := hf
    have hex : dmn.proTx.keyIDOperator = ptx.keyIDOperator
        ∨ dmn.proTx.keyIDOwner = ptx.keyIDOperator
        ∨ dmn.proTx.keyIDOperator = ptx.keyIDOwner ∨ dmn.proTx.keyIDOwner = ptx.keyIDOwner := by
      by_contra hc
      push_neg at hc
      exact hc.2.2.2 (hk hc.1 hc.2.1 hc.2.2.1)
    have := (checkAgainstList_cases env ptx pidx).2.1 (h11 pidx hpi) ⟨dmn, hmem, hex⟩
    show _ = Verdict.DoS 10 .REJECT_DUPLICATE "bad-provider-dup-key"
    simp [checkListAndSig, hpi, this, Verdict.toBool]
  | ownerOperator =>
    obtain ⟨c, hr⟩ := rules1to7_of_tests env tx ptx pindex
      (fun t' ht => hprev t' (by
        have : AdmissionTest.position .ownerOperator = 12 := rfl
        omega))
    rw [check_of_rules env tx pindex ptx c hp hr]
    have h11 : ∀ pidx, pindex = some pidx →
      ∀ dmn ∈ env.GetListAtHeight pidx.nHeight, dmn.proTx.addr ≠ ptx.addr :=
      hprev .dupAddr (by decide)
    have h12 : ∀ pidx, pindex = some pidx →
      ∀ dmn ∈ env.GetListAtHeight pidx.nHeight,
        dmn.proTx.keyIDOperator ≠ ptx.keyIDOperator ∧ dmn.proTx.keyIDOwner ≠ ptx.keyIDOperator
        ∧ dmn.proTx.keyIDOperator ≠ ptx.keyIDOwner ∧ dmn.proTx.keyIDOwner ≠ ptx.keyIDOwner :=
      hprev .dupKey (by decide)
    have hf : ¬ ∀ pidx, pindex = some pidx →
      env.IsDeterministicMNsSporkActive pidx.nHeight = false →
      ptx.keyIDOperator = ptx.keyIDOwner := hfail
    push_neg at hf
    obtain ⟨pidx, hpi, hs, hne⟩ := hf
    have h8 : AdmissionRule8 (env.GetListAtHeight pidx.nHeight) ptx :=
      fun dmn hmem => ⟨h11 pidx hpi dmn hmem, h12 pidx hpi dmn hmem⟩
    have : checkAgainstList env ptx pidx
        = .DoS 10 .REJECT_INVALID "bad-provider-owner-key-not-same" := by
      rw [(checkAgainstList_cases env ptx pidx).2.2 h8]
      exact if_pos ⟨hne, hs⟩
    show _ = Verdict.DoS 10 .REJECT_INVALID "bad-provider-owner-key-not-same"
    simp [checkListAndSig, hpi, this, Verdict.toBool]
  | signature =>
    obtain ⟨c, hr⟩ := rules1to7_of_tests env tx ptx pindex
      (fun t' ht => hprev t' (by
        have : AdmissionTest.position .signature = 13 := rfl
        omega))
    rw [check_of_rules env tx pindex ptx c hp hr]
    have h11 : ∀ pidx, pindex = some pidx →
      ∀ dmn ∈ env.GetListAtHeight pidx.nHeight, dmn.proTx.addr ≠ ptx.addr :=
      hprev .dupAddr (by decide)
    have h12 : ∀ pidx, pindex = some pidx →
      ∀ dmn ∈ env.GetListAtHeight pidx.nHeight,
        dmn.proTx.keyIDOperator ≠ ptx.keyIDOperator ∧ dmn.proTx.keyIDOwner ≠ ptx.keyIDOperator
        ∧ dmn.proTx.keyIDOperator ≠ ptx.keyIDOwner ∧ dmn.proTx.keyIDOwner ≠ ptx.keyIDOwner :=
      hprev .dupKey (by decide)
    have h13 : ∀ pidx, pindex = some pidx →
      env.IsDeterministicMNsSporkActive pidx.nHeight = false →
      ptx.keyIDOperator = ptx.keyIDOwner := hprev .ownerOperator (by decide)
    have hf : ¬ (env.VerifyHash (env.SerializeHash { ptx with vchSig := [] }) ptx.keyIDOwner
      ptx.vchSig = true) := hfail
    rw [checkListAndSig_of_rules env ptx pindex (fun pidx hpi =>
      ⟨fun dmn hmem => ⟨h11 pidx hpi dmn hmem, h12 pidx hpi dmn hmem⟩, h13 pidx hpi⟩)]
    show _ = Verdict.DoS 100 .REJECT_INVALID "bad-provider-sig"
    simp [checkProviderSig, hf]

/-- C11: when the payload decodes, the rejection caused by an admission rule, that is, the
verdict when a test of that rule is the first to fail in the order of the rules, carries
the score the specification gives to the rule: 100 for the payload version (rule 1), the
inputs hash (rule 7) and the signature (rule 10), and 10 for every other rule (protocol
version, collateral index and value, address, null keys, payout script, duplicate address
and key, owner and operator key), together with the reason of the test.  Moreover every
verdict is an acceptance, a rejection with score 100 whose reason is the payload, the
payload version, the inputs hash or the signature, or a rejection with score 10 whose
reason is one of the other rules. -/
theorem misbehaviour_scores (env : ProviderEnv) (tx : CTransaction)
    (pindex : Option CBlockIndex) :
    ScoreClassified (CheckProviderTxRegister env tx pindex)
    ∧ (∀ ptx, env.GetTxPayload tx = some ptx → ptx.nVersion ≠ env.CURRENT_VERSION →
        CheckProviderTxRegister env tx pindex
          = .DoS 100 .REJECT_INVALID "bad-provider-version")
    ∧ (∀ ptx c, env.GetTxPayload tx = some ptx → AdmissionRules1to6 env tx ptx c →
        env.CalcTxInputsHash tx ≠ ptx.inputsHash →
        CheckProviderTxRegister env tx pindex
          = .DoS 100 .REJECT_INVALID "bad-provider-inputs-hash")
    ∧ (∀ ptx c, env.GetTxPayload tx = some ptx → AdmissionRules1to7 env tx ptx c →
        (∀ pidx, pindex = some pidx →
          AdmissionRule8 (env.GetListAtHeight pidx.nHeight) ptx
            ∧ (env.IsDeterministicMNsSporkActive pidx.nHeight = false →
                ptx.keyIDOperator = ptx.keyIDOwner)) →
        env.VerifyHash (env.SerializeHash { ptx with vchSig := [] }) ptx.keyIDOwner
          ptx.vchSig = false →
        CheckProviderTxRegister env tx pindex
          = .DoS 100 .REJECT_INVALID "bad-provider-sig")
    ∧ (∀ ptx (t : AdmissionTest), env.GetTxPayload tx = some ptx →
        (∀ t' : AdmissionTest, t'.position < t.position →
          AdmissionTest.Holds env tx ptx pindex t') →
        ¬ AdmissionTest.Holds env tx ptx pindex t →
        CheckProviderTxRegister env tx pindex = .DoS (specScore t.rule) t.code t.reason
        ∧ (specScore t.rule = 100 ↔ (t.rule = 1 ∨ t.rule = 7 ∨ t.rule = 10))
        ∧ (specScore t.rule = 10 ↔ ¬ (t.rule = 1 ∨ t.rule = 7 ∨ t.rule = 10))) := by
  refine ⟨check_verdict_classes env tx pindex, ?_, ?_, ?_, ?_⟩
  rotate_left 3
  · intro ptx t hp hprev hfail
    refine ⟨check_of_first_failed_test env tx pindex ptx hp t hprev hfail, ?_, ?_⟩
    · unfold specScore
      split_ifs with h
      · simp [h]
      · simp [h]
    · unfold specScore
      split_ifs with h
      · simp [h]
      · simp [h]
  · intro ptx hp hv
    unfold CheckProviderTxRegister
    simp only [hp]
    exact if_pos hv
  · intro ptx c hp hr hh
    exact check_of_rules_hash env tx pindex ptx c hp hr hh
  · intro ptx c hp hr hl hsig
    rw [check_of_rules env tx pindex ptx c hp hr, checkListAndSig_of_rules env ptx pindex hl]
    simp [checkProviderSig, hsig]

theorem misbehaviour_scores_witness :
    CheckProviderTxRegister { exampleProviderEnv with VerifyHash := fun _ _ _ => false }
        (exampleProTx [byteOf 11, byteOf 30, byteOf 30]) (some { nHeight := 12 })
      = .DoS 100 .REJECT_INVALID "bad-provider-sig"
    ∧ CheckProviderTxRegister { exampleProviderEnv with PROTOCOL_VERSION := 70207 }
        (exampleProTx [byteOf 11, byteOf 30, byteOf 30]) (some { nHeight := 12 })
      = .DoS 10 .REJECT_INVALID "bad-provider-proto-version" :=
  ⟨(misbehaviour_scores { exampleProviderEnv with VerifyHash := fun _ _ _ => false }
      (exampleProTx [byteOf 11, byteOf 30, byteOf 30]) (some { nHeight := 12 })).2.2.2.1
    _ { nValue := 100000000000, scriptPubKey := [byteOf 118] } (by rfl)
    (by unfold AdmissionRules1to7; decide)
    (by
      intro pidx h
      cases h
      exact ⟨by unfold AdmissionRule8; decide, by decide⟩)
    (by rfl),
   ((misbehaviour_scores { exampleProviderEnv with PROTOCOL_VERSION := 70207 }
      (exampleProTx [byteOf 11, byteOf 30, byteOf 30]) (some { nHeight := 12 })).2.2.2.2
    _ .protoVersion (by rfl)
    (by
      intro t' ht
      cases t' <;> first
        | exact absurd ht (by decide)
        | rfl)
    (by
      show ¬ ((70208 : Int) ≤ 70208 ∧ (70208 : Int) ≤ 70207)
      decide)).1⟩

/-- C12, as amended: a ProRegTx that passes rules 1 to 8 and has different operator and owner
keys is rejected with `bad-provider-owner-key-not-same`, score 10, at a height where the
spork is inactive; at a height where the spork is active, and at every height when the two
keys are equal, the verdict is the one of the signature check alone: equal keys are
accepted before and after activation. -/
theorem owner_operator_rule (env : ProviderEnv) (tx : CTransaction) (pidx : CBlockIndex)
    (ptx : CProviderTXRegisterMN) (c : CTxOut)
    (hp : env.GetTxPayload tx = some ptx) (hr : AdmissionRules1to7 env tx ptx c)
    (h8 : AdmissionRule8 (env.GetListAtHeight pidx.nHeight) ptx) :
    (ptx.keyIDOperator ≠ ptx.keyIDOwner →
      env.IsDeterministicMNsSporkActive pidx.nHeight = false →
      CheckProviderTxRegister env tx (some pidx)
        = .DoS 10 .REJECT_INVALID "bad-provider-owner-key-not-same")
    ∧ (env.IsDeterministicMNsSporkActive pidx.nHeight = true →
      CheckProviderTxRegister env tx (some pidx) = checkProviderSig env ptx)
    ∧ (ptx.keyIDOperator = ptx.keyIDOwner →
      CheckProviderTxRegister env tx (some pidx) = checkProviderSig env ptx) := by
  rw [check_of_rules env tx _ ptx c hp hr]
  refine ⟨?_, ?_, ?_⟩
  · intro hne hs
    have : checkAgainstList env ptx pidx
        = .DoS 10 .REJECT_INVALID "bad-provider-owner-key-not-same" := by
      rw [(checkAgainstList_cases env ptx pidx).2.2 h8]
      exact if_pos ⟨hne, hs⟩
    simp [checkListAndSig, this, Verdict.toBool]
  · intro hs
    apply checkListAndSig_of_rules
    intro p hpe
    cases hpe
    refine ⟨h8, ?_⟩
    intro hf
    rw [hs] at hf
    cases hf
  · intro he
    apply checkListAndSig_of_rules
    intro p hpe
    cases hpe
    exact ⟨h8, fun _ => he⟩

theorem owner_operator_rule_witness :
    CheckProviderTxRegister exampleProviderEnv (exampleProTx [byteOf 11, byteOf 30, byteOf 31])
        (some { nHeight := 12 })
      = .DoS 10 .REJECT_INVALID "bad-provider-owner-key-not-same" :=
  (owner_operator_rule exampleProviderEnv (exampleProTx [byteOf 11, byteOf 30, byteOf 31])
      { nHeight := 12 } _ { nValue := 100000000000, scriptPubKey := [byteOf 118] } (by rfl)
      (by unfold AdmissionRules1to7; decide) (by unfold AdmissionRule8; decide)).1
    (by decide) (by decide)

/-- C12, as stated, fails: at height 25 the spork of `exampleProviderEnv` is active, the
payload has the same operator and owner key (30), and the transaction is accepted. -/
theorem equal_keys_accepted_after_activation :
    exampleProviderEnv.IsDeterministicMNsSporkActive 25 = true
      ∧ (exampleProviderEnv.GetTxPayload
            (exampleProTx [byteOf 11, byteOf 30, byteOf 30])).map
          (fun p => decide (p.keyIDOperator = p.keyIDOwner)) = some true
      ∧ CheckProviderTxRegister exampleProviderEnv
          (exampleProTx [byteOf 11, byteOf 30, byteOf 30]) (some { nHeight := 25 }) = .ok := by
  refine ⟨by decide, by decide, by decide⟩

/-! ## Invariants of the user under check and process -/

/-- What processing does to the key history and to the credits, by action. -/
theorem process_fields (env : TsEnv) (ts : CTransition) (u : CEvoUser) :
    (ts.action = 1 →
      (ProcessTransitionForUser env ts u).1.pubKeys = u.pubKeys
      ∧ (ProcessTransitionForUser env ts u).1.spentCredits = u.spentCredits + ts.nFee
      ∧ (ProcessTransitionForUser env ts u).1.creditBalance = u.creditBalance - ts.nFee)
    ∧ (ts.action = 2 →
      (ProcessTransitionForUser env ts u).1.pubKeys = u.pubKeys ++ [ts.newPubKeyID]
      ∧ (ProcessTransitionForUser env ts u).1.spentCredits = u.spentCredits + ts.nFee
      ∧ (ProcessTransitionForUser env ts u).1.creditBalance = u.creditBalance - ts.nFee)
    ∧ (ts.action = 3 →
      (ProcessTransitionForUser env ts u).1.pubKeys = u.pubKeys
      ∧ (ProcessTransitionForUser env ts u).1.spentCredits = u.spentCredits + ts.nFee
      ∧ (ProcessTransitionForUser env ts u).1.creditBalance = u.creditBalance - ts.nFee)
    ∧ (ts.action ≠ 1 → ts.action ≠ 2 → ts.action ≠ 3 →
      (ProcessTransitionForUser env ts u).1 = u) := by
  refine ⟨?_, ?_, ?_, ?_⟩
  · intro h
    rw [process_update env ts u h]
    simp [CEvoUser.AddSpend, CEvoUser.SetLastTransition]
  · intro h
    rw [process_reset env ts u h]
    simp [CEvoUser.AddSpend, CEvoUser.PushPubKey]
  · intro h
    rw [process_close env ts u h]
    simp [CEvoUser.AddSpend, CEvoUser.SetClosed]
  · intro h1 h2 h3
    rw [process_other env ts u h1 h2 h3]

/-- C13: for a user with non-negative credit balance, non-negative spent credits and a
non-empty key history, and a transition accepted by `CheckTransitionForUser`, the user left
by `ProcessTransitionForUser` again has a non-negative balance, spent credits that are
non-negative and not smaller than before, and a non-empty key history. -/
theorem user_invariants_preserved (env : TsEnv) (ts : CTransition) (u : CEvoUser)
    (checkSigs : Bool)
    (hb : 0 ≤ u.creditBalance) (hs : 0 ≤ u.spentCredits) (hk : u.pubKeys ≠ [])
    (hc : CheckTransitionForUser env ts u checkSigs = .ok .ok) :
    0 ≤ (ProcessTransitionForUser env ts u).1.creditBalance
      ∧ 0 ≤ (ProcessTransitionForUser env ts u).1.spentCredits
      ∧ u.spentCredits ≤ (ProcessTransitionForUser env ts u).1.spentCredits
      ∧ (ProcessTransitionForUser env ts u).1.pubKeys ≠ [] := by
  obtain ⟨_, hf1, _, hbal, _⟩ := check_ok_facts env ts u checkSigs hc
  obtain ⟨p1, p2, p3, p4⟩ := process_fields env ts u
  by_cases a1 : ts.action = 1
  · obtain ⟨k, s, c⟩ := p1 a1
    rw [k, s, c]
    exact ⟨by omega, by omega, by omega, hk⟩
  by_cases a2 : ts.action = 2
  · obtain ⟨k, s, c⟩ := p2 a2
    rw [k, s, c]
    exact ⟨by omega, by omega, by omega, by simp⟩
  by_cases a3 : ts.action = 3
  · obtain ⟨k, s, c⟩ := p3 a3
    rw [k, s, c]
    exact ⟨by omega, by omega, by omega, hk⟩
  rw [p4 a1 a2 a3]
  exact ⟨hb, hs, le_refl _, hk⟩

theorem user_invariants_preserved_witness :
    0 ≤ (ProcessTransitionForUser exampleEnv exampleUpdate exampleUser).1.creditBalance
      ∧ 0 ≤ (ProcessTransitionForUser exampleEnv exampleUpdate exampleUser).1.spentCredits
      ∧ exampleUser.spentCredits
          ≤ (ProcessTransitionForUser exampleEnv exampleUpdate exampleUser).1.spentCredits
      ∧ (ProcessTransitionForUser exampleEnv exampleUpdate exampleUser).1.pubKeys ≠ [] :=
  user_invariants_preserved exampleEnv exampleUpdate exampleUser true
    (by decide) (by decide) (by decide) (by rfl)

theorem applyTransitions_keys (env : TsEnv) (l : List CTransition) (u : CEvoUser) :
    (applyTransitions env l u).pubKeys.length
      = u.pubKeys.length + (l.filter (fun ts => decide (ts.action = Transition_ResetKey))).length := by
  unfold applyTransitions
  induction l generalizing u with
  | nil => simp
  | cons ts rest ih =>
    rw [List.foldl_cons, ih]
    obtain ⟨p1, p2, p3, p4⟩ := process_fields env ts u
    by_cases a2 : ts.action = 2
    · rw [(p2 a2).1]
      simp [Transition_ResetKey, a2]
      omega
    · have hf : (List.filter (fun ts => decide (ts.action = Transition_ResetKey)) (ts :: rest))
          = List.filter (fun ts => decide (ts.action = Transition_ResetKey)) rest := by
        simp [Transition_ResetKey, a2]
      rw [hf]
      by_cases a1 : ts.action = 1
      · rw [(p1 a1).1]
      by_cases a3 : ts.action = 3
      · rw [(p3 a3).1]
      rw [p4 a1 a2 a3]

/-- C14: `ProcessTransitionForUser` with a ResetKey transition puts `ts.newPubKeyID` on top
of the key history, which grows by exactly one entry; with an UpdateData or CloseAccount
transition it leaves the key history as it is; hence after any sequence of transitions
applied to a user with a single key the history has one entry more than the number of
ResetKey transitions in the sequence. -/
theorem key_history_is_a_stack (env : TsEnv) :
    (∀ ts u, ts.action = Transition_ResetKey →
      (ProcessTransitionForUser env ts u).2 = .ok
      ∧ (ProcessTransitionForUser env ts u).1.pubKeys = u.pubKeys ++ [ts.newPubKeyID]
      ∧ (ProcessTransitionForUser env ts u).1.GetCurPubKeyID = some ts.newPubKeyID
      ∧ (ProcessTransitionForUser env ts u).1.pubKeys.length = u.pubKeys.length + 1)
    ∧ (∀ ts u, ts.action = Transition_UpdateData ∨ ts.action = Transition_CloseAccount →
      (ProcessTransitionForUser env ts u).2 = .ok
      ∧ (ProcessTransitionForUser env ts u).1.pubKeys = u.pubKeys)
    ∧ (∀ l u K, u.pubKeys = [K] →
      (applyTransitions env l u).pubKeys.length
        = 1 + (l.filter (fun ts => decide (ts.action = Transition_ResetKey))).length) := by
  refine ⟨?_, ?_, ?_⟩
  · intro ts u h
    simp only [Transition_ResetKey] at h
    have hk := ((process_fields env ts u).2.1 h).1
    refine ⟨by rw [process_reset env ts u h], hk, ?_, ?_⟩
    · simp [CEvoUser.GetCurPubKeyID, hk]
    · simp [hk]
  · intro ts u h
    simp only [Transition_UpdateData, Transition_CloseAccount] at h
    rcases h with h | h
    · exact ⟨by rw [process_update env ts u h], ((process_fields env ts u).1 h).1⟩
    · exact ⟨by rw [process_close env ts u h], ((process_fields env ts u).2.2.1 h).1⟩
  · intro l u K hK
    rw [applyTransitions_keys, hK]
    simp

theorem key_history_is_a_stack_witness :
    (applyTransitions exampleEnv [exampleUpdate, exampleReset] exampleUser).pubKeys.length
      = 1 + ([exampleUpdate, exampleReset].filter
          (fun ts => decide (ts.action = Transition_ResetKey))).length :=
  (key_history_is_a_stack exampleEnv).2.2 [exampleUpdate, exampleReset] exampleUser 5 (by rfl)

/-! ## Closed accounts, bounds, undo and signatures -/

theorem UserMap.set_other (users : UserMap) (k k' : Nat) (u : CEvoUser) (h : k' ≠ k) :
    (users.set k u) k' = users k' := by
  simp [UserMap.set, h]

/-- The parts of an accepted run of the second loop: the first transition passed the check
on the stored user and the rest ran on the map with the processed user. -/
theorem processLoop_cons_ok (env : TsEnv) (ts : CTransition) (rest : List CTransition)
    (users users' : UserMap) (h : processLoop env (ts :: rest) users = .ok (users', .ok)) :
    ∃ u, users ts.hashRegTx = some u
      ∧ CheckTransitionForUser env ts u true = .ok .ok
      ∧ (ProcessTransitionForUser env ts u).2 = .ok
      ∧ processLoop env rest (users.set ts.hashRegTx (ProcessTransitionForUser env ts u).1)
          = .ok (users', .ok) := by
  simp only [processLoop] at h
  cases hc : CheckTransitionForUser env ts (users.index ts.hashRegTx).1 true with
  | error e => simp [hc] at h
  | ok v =>
    simp only [hc] at h
    cases v with
    | DoS level code reason => simp [Verdict.toBool] at h
    | Error msg => simp [Verdict.toBool] at h
    | ok =>
      cases hu : users ts.hashRegTx with
      | none =>
        rw [UserMap.index_none _ _ hu] at hc
        exact absurd hc (check_fresh_fails env ts true)
      | some u =>
        rw [UserMap.index_some _ _ _ hu] at hc h
        simp only [Verdict.toBool, Bool.not_true, Bool.false_eq_true, if_false] at h
        cases hp : (ProcessTransitionForUser env ts u).2 with
        | DoS level code reason => simp [hp, Verdict.toBool] at h
        | Error msg => simp [hp, Verdict.toBool] at h
        | ok =>
          simp only [hp, Verdict.toBool, Bool.not_true, Bool.false_eq_true, if_false] at h
          exact ⟨u, rfl, hc, hp, h⟩

/-- An accepted run of the second loop has no transition of a user who is closed in the
map it starts from. -/
theorem processLoop_closed_user (env : TsEnv) (l : List CTransition) (users users' : UserMap)
    (k : Nat) (u : CEvoUser) (hu : users k = some u) (hcl : u.closed = true)
    (h : processLoop env l users = .ok (users', .ok)) :
    ∀ t ∈ l, t.hashRegTx ≠ k := by
  induction l generalizing users with
  | nil => simp
  | cons ts rest ih =>
    obtain ⟨w, hw, hc, _, hrest⟩ := processLoop_cons_ok env ts rest users users' h
    have hne : ts.hashRegTx ≠ k := by
      intro he
      rw [he, hu] at hw
      cases hw
      have := (check_ok_facts env ts u true hc).1
      rw [hcl] at this
      cases this
    intro t ht
    rcases List.mem_cons.mp ht with ht | ht
    · rw [ht]
      exact hne
    · exact ih _ (by rw [UserMap.set_other _ _ _ _ (Ne.symm hne)]; exact hu) hrest t ht

/-- C15, as amended: for a closed user `CheckTransitionForUser` never returns true, whatever
the transition and whether or not signatures are checked.  For a transition whose action is
UpdateData, ResetKey or CloseAccount (any fee, predecessor and signature) it returns false
with score 100 and the reason `bad-ts-size` or `bad-ts-accountclosed`; for a transition with
any other action of the 8-bit range it does not return false: it ends in the exception of
the serializer, before the closed flag is looked at.  The user left by a CloseAccount
transition is closed, so no transition is accepted for it afterwards, and a block that is
accepted has no transition of the same user after a CloseAccount transition. -/
theorem closed_accounts_accept_nothing (env : TsEnv) :
    (∀ ts u checkSigs, u.closed = true →
      CheckTransitionForUser env ts u checkSigs ≠ .ok .ok
      ∧ ∀ sz, GetSerializeSize ts = .ok sz →
          CheckTransitionForUser env ts u checkSigs
            = .ok (.DoS 100 .REJECT_INVALID
                (if 1500 < sz then "bad-ts-size" else "bad-ts-accountclosed")))
    ∧ (∀ tsClose u ts checkSigs, tsClose.action = Transition_CloseAccount →
      (ProcessTransitionForUser env tsClose u).2 = .ok
      ∧ (ProcessTransitionForUser env tsClose u).1.closed = true
      ∧ CheckTransitionForUser env ts (ProcessTransitionForUser env tsClose u).1 checkSigs
          ≠ .ok .ok)
    ∧ (∀ tsClose rest users users', tsClose.action = Transition_CloseAccount →
      processLoop env (tsClose :: rest) users = .ok (users', .ok) →
      ∀ t ∈ rest, t.hashRegTx ≠ tsClose.hashRegTx)
    ∧ (∀ ts u checkSigs, u.closed = true →
      (ts.action = Transition_UpdateData ∨ ts.action = Transition_ResetKey
        ∨ ts.action = Transition_CloseAccount) →
      ∃ reason, CheckTransitionForUser env ts u checkSigs
          = .ok (.DoS 100 .REJECT_INVALID reason)
        ∧ (reason = "bad-ts-size" ∨ reason = "bad-ts-accountclosed"))
    ∧ (∀ ts u checkSigs, u.closed = true →
      (-128 ≤ ts.action ∧ ts.action ≤ 127 ∧ ts.action ≠ Transition_UpdateData
        ∧ ts.action ≠ Transition_ResetKey ∧ ts.action ≠ Transition_CloseAccount) →
      CheckTransitionForUser env ts u checkSigs
        = .error (.ios_base_failure "invalid transition action")) := by
  have hclosed : ∀ ts u checkSigs, u.closed = true →
      CheckTransitionForUser env ts u checkSigs ≠ .ok .ok := by
    intro ts u checkSigs hcl h
    have := (check_ok_facts env ts u checkSigs h).1
    rw [hcl] at this
    cases this
  have hproc : ∀ tsClose u, tsClose.action = Transition_CloseAccount →
      (ProcessTransitionForUser env tsClose u).2 = .ok
        ∧ (ProcessTransitionForUser env tsClose u).1.closed = true := by
    intro tsClose u ha
    simp only [Transition_CloseAccount] at ha
    rw [process_close env tsClose u ha]
    simp [CEvoUser.AddSpend, CEvoUser.SetClosed]
  refine ⟨?_, ?_, ?_, ?_, ?_⟩
  rotate_left 3
  · intro ts u checkSigs hcl ha
    obtain ⟨bytes, hs⟩ := serialize_ok_of_action ts ha
    have hsz : GetSerializeSize ts = .ok bytes.length := by
      simp [GetSerializeSize, hs]
    rw [check_of_size env ts u checkSigs _ hsz]
    by_cases h1 : 1500 < bytes.length
    · exact ⟨"bad-ts-size", by simp [h1], Or.inl rfl⟩
    · exact ⟨"bad-ts-accountclosed", by simp [h1, hcl], Or.inr rfl⟩
  · rintro ts u checkSigs _ ⟨h1, h2, ha⟩
    have hs := serialize_throws_of_action ts h1 h2 ha
    simp [CheckTransitionForUser, GetSerializeSize, hs]
  · intro ts u checkSigs hcl
    refine ⟨hclosed ts u checkSigs hcl, ?_⟩
    intro sz hsz
    rw [check_of_size env ts u checkSigs sz hsz]
    by_cases h1 : 1500 < sz
    · simp [h1]
    · simp [h1, hcl]
  · intro tsClose u ts checkSigs ha
    obtain ⟨h1, h2⟩ := hproc tsClose u ha
    exact ⟨h1, h2, hclosed ts _ checkSigs h2⟩
  · intro tsClose rest users users' ha h
    obtain ⟨u, _, _, _, hrest⟩ := processLoop_cons_ok env tsClose rest users users' h
    exact processLoop_closed_user env rest _ users' tsClose.hashRegTx _
      (UserMap.set_apply _ _ _) (hproc tsClose u ha).2 hrest

theorem closed_accounts_accept_nothing_witness :
    CheckTransitionForUser exampleEnv exampleUpdate { exampleUser with closed := true } true
      = .ok (.DoS 100 .REJECT_INVALID "bad-ts-accountclosed") :=
  ((closed_accounts_accept_nothing exampleEnv).1 exampleUpdate
      { exampleUser with closed := true } true (by rfl)).2 131 (by rfl)

/-- C15, as stated, fails: for the closed user and the transition `exampleInvalid`, whose
action is that of a default-constructed transition, `CheckTransitionForUser` does not
return false (nor true): with and without signature checking it ends in the exception
thrown while the serialized size is computed, before the closed flag is tested. -/
theorem closed_user_check_does_not_return :
    ({ exampleUser with closed := true } : CEvoUser).closed = true
    ∧ (∀ checkSigs v,
        CheckTransitionForUser exampleEnv exampleInvalid { exampleUser with closed := true }
          checkSigs ≠ .ok v)
    ∧ (∀ checkSigs,
        CheckTransitionForUser exampleEnv exampleInvalid { exampleUser with closed := true }
          checkSigs = .error (.ios_base_failure "invalid transition action")) := by
  have h : ∀ checkSigs,
      CheckTransitionForUser exampleEnv exampleInvalid { exampleUser with closed := true }
        checkSigs = .error (.ios_base_failure "invalid transition action") := by
    intro checkSigs
    cases checkSigs <;> rfl
  refine ⟨rfl, ?_, h⟩
  intro checkSigs v
  rw [h checkSigs]
  intro hc
  cases hc

/-- C16: for an open user whose last transition is the predecessor of `ts`, without
signature check and with a serialized size of at most 1500, a fee of 1000 and a fee of
10000 are accepted when the balance covers them, a fee of 999 and a fee of 10001 are
rejected with `bad-ts-fee`; a transition of exactly 1500 octets with a valid, covered fee
is accepted and one of 1501 octets is rejected with `bad-ts-size`. -/
theorem fee_and_size_bounds_inclusive (env : TsEnv) (ts : CTransition) (u : CEvoUser)
    (sz : Nat) (hsz : GetSerializeSize ts = .ok sz) (hopen : u.closed = false)
    (hprev : ts.hashPrevTransition = u.lastTransition) :
    (sz ≤ 1500 → ts.nFee = 1000 → 1000 ≤ u.creditBalance →
      CheckTransitionForUser env ts u false = .ok .ok)
    ∧ (sz ≤ 1500 → ts.nFee = 10000 → 10000 ≤ u.creditBalance →
      CheckTransitionForUser env ts u false = .ok .ok)
    ∧ (sz ≤ 1500 → ts.nFee = 999 →
      CheckTransitionForUser env ts u false = .ok (.DoS 100 .REJECT_INVALID "bad-ts-fee"))
    ∧ (sz ≤ 1500 → ts.nFee = 10001 →
      CheckTransitionForUser env ts u false = .ok (.DoS 100 .REJECT_INVALID "bad-ts-fee"))
    ∧ (sz = 1500 → 1000 ≤ ts.nFee → ts.nFee ≤ 10000 → ts.nFee ≤ u.creditBalance →
      CheckTransitionForUser env ts u false = .ok .ok)
    ∧ (sz = 1501 →
      CheckTransitionForUser env ts u false = .ok (.DoS 100 .REJECT_INVALID "bad-ts-size")) := by
  rw [check_of_size env ts u false sz hsz]
  refine ⟨?_, ?_, ?_, ?_, ?_, ?_⟩
  · intro h1 hf hb
    have h3 : ¬ (ts.nFee < 1000 ∨ 10000 < ts.nFee) := by omega
    have h4 : ¬ (u.creditBalance < ts.nFee) := by omega
    simp [Nat.not_lt.mpr h1, hopen, h3, h4, hprev]
  · intro h1 hf hb
    have h3 : ¬ (ts.nFee < 1000 ∨ 10000 < ts.nFee) := by omega
    have h4 : ¬ (u.creditBalance < ts.nFee) := by omega
    simp [Nat.not_lt.mpr h1, hopen, h3, h4, hprev]
  · intro h1 hf
    have h3 : ts.nFee < 1000 ∨ 10000 < ts.nFee := by omega
    simp [Nat.not_lt.mpr h1, hopen, h3]
  · intro h1 hf
    have h3 : ts.nFee < 1000 ∨ 10000 < ts.nFee := by omega
    simp [Nat.not_lt.mpr h1, hopen, h3]
  · intro h1 hf1 hf2 hb
    have h0 : ¬ (1500 < sz) := by omega
    have h3 : ¬ (ts.nFee < 1000 ∨ 10000 < ts.nFee) := by omega
    have h4 : ¬ (u.creditBalance < ts.nFee) := by omega
    simp [h0, hopen, h3, h4, hprev]
  · intro h1
    have h0 : 1500 < sz := by omega
    simp [h0]

theorem fee_and_size_bounds_inclusive_witness :
    CheckTransitionForUser exampleEnv (exampleSized 1419) exampleUser false = .ok .ok
      ∧ CheckTransitionForUser exampleEnv (exampleSized 1420) exampleUser false
          = .ok (.DoS 100 .REJECT_INVALID "bad-ts-size") :=
  ⟨(fee_and_size_bounds_inclusive exampleEnv (exampleSized 1419) exampleUser 1500
      (by rfl) (by rfl) (by rfl)).2.2.2.2.1 rfl (by decide) (by decide) (by decide),
   (fee_and_size_bounds_inclusive exampleEnv (exampleSized 1420) exampleUser 1501
      (by rfl) (by rfl) (by rfl)).2.2.2.2.2 rfl⟩

/-- C19: `UndoTransitionForUser` succeeds exactly when the precondition of the action holds
(UpdateData: the last transition of the user is the hash of `ts`; ResetKey: the top key is
`ts.newPubKeyID`; CloseAccount: the user is closed) and the spent credits stay non-negative
after the refund; on success the last transition is restored to `ts.hashPrevTransition`,
respectively the top key is popped, respectively the closed flag is cleared, and the fee is
refunded; every failure, also for an unknown action, is a plain error without score. -/
theorem undo_succeeds_iff (env : TsEnv) (ts : CTransition) (u : CEvoUser) :
    ((UndoTransitionForUser env ts u).2 = .ok ↔
      ((ts.action = Transition_UpdateData ∧ u.lastTransition = env.GetHash ts)
        ∨ (ts.action = Transition_ResetKey ∧ u.pubKeys.getLast? = some ts.newPubKeyID)
        ∨ (ts.action = Transition_CloseAccount ∧ u.closed = true))
      ∧ 0 ≤ u.spentCredits - ts.nFee)
    ∧ (ts.action = Transition_UpdateData → (UndoTransitionForUser env ts u).2 = .ok →
        (UndoTransitionForUser env ts u).1
          = { u with lastTransition := ts.hashPrevTransition,
                     creditBalance := u.creditBalance + ts.nFee,
                     spentCredits := u.spentCredits - ts.nFee })
    ∧ (ts.action = Transition_ResetKey → (UndoTransitionForUser env ts u).2 = .ok →
        (UndoTransitionForUser env ts u).1
          = { u with pubKeys := u.pubKeys.dropLast,
                     creditBalance := u.creditBalance + ts.nFee,
                     spentCredits := u.spentCredits - ts.nFee })
    ∧ (ts.action = Transition_CloseAccount → (UndoTransitionForUser env ts u).2 = .ok →
        (UndoTransitionForUser env ts u).1
          = { u with closed := false,
                     creditBalance := u.creditBalance + ts.nFee,
                     spentCredits := u.spentCredits - ts.nFee })
    ∧ ((UndoTransitionForUser env ts u).2 = .ok
        ∨ ∃ msg, (UndoTransitionForUser env ts u).2 = .Error msg) := by
  simp only [Transition_UpdateData, Transition_ResetKey, Transition_CloseAccount]
  have hneg : u.spentCredits + -ts.nFee = u.spentCredits - ts.nFee := by omega
  have hadd : u.creditBalance - -ts.nFee = u.creditBalance + ts.nFee := by omega
  by_cases a1 : ts.action = 1
  · rw [undo_update env ts u a1]
    have n2 : ts.action ≠ 2 := by omega
    have n3 : ts.action ≠ 3 := by omega
    by_cases hl : u.lastTransition = env.GetHash ts
    · by_cases hs : u.spentCredits + -ts.nFee < 0
      · have hs' : u.spentCredits < ts.nFee := by omega
        simp [hs', a1, hl, hs]
      · have hs' : ¬ u.spentCredits < ts.nFee := by omega
        simp [a1, n2, n3, hl, hs, hs', CEvoUser.AddSpend, CEvoUser.SetLastTransition, hneg, hadd]
        omega
    · simp [a1, n2, n3, hl]
  by_cases a2 : ts.action = 2
  · rw [undo_reset env ts u a2]
    have n3 : ts.action ≠ 3 := by omega
    by_cases hl : u.pubKeys.getLast? = some ts.newPubKeyID
    · by_cases hs : u.spentCredits + -ts.nFee < 0
      · have hs' : u.spentCredits < ts.nFee := by omega
        simp [hs', a2, hl, hs]
      · have hs' : ¬ u.spentCredits < ts.nFee := by omega
        simp [a1, a2, n3, hl, hs, hs', CEvoUser.AddSpend, CEvoUser.PopPubKey, hneg, hadd]
        omega
    · simp [a1, a2, n3, hl]
  by_cases a3 : ts.action = 3
  · rw [undo_close env ts u a3]
    by_cases hl : u.closed = true
    · by_cases hs : u.spentCredits + -ts.nFee < 0
      · have hs' : u.spentCredits < ts.nFee := by omega
        simp [hs', a3, hl, hs]
      · have hs' : ¬ u.spentCredits < ts.nFee := by omega
        simp [a1, a2, a3, hl, hs, hs', CEvoUser.AddSpend, CEvoUser.SetClosed, hneg, hadd]
        omega
    · simp [a1, a2, a3, hl]
  · rw [undo_other env ts u a1 a2 a3]
    simp [a1, a2, a3]

theorem undo_succeeds_iff_witness :
    (UndoTransitionForUser exampleEnv exampleReset exampleUserAfter).1
      = { exampleUserAfter with pubKeys := [5], creditBalance := 149000,
                                spentCredits := 1000 } :=
  (undo_succeeds_iff exampleEnv exampleReset exampleUserAfter).2.2.1 (by rfl) (by rfl)

/-- C20: let a ResetKey transition to the key `K2` be processed on a user whose current key
is `K1` (under which its signatures were verified so far), and let `ts` be otherwise valid
for the resulting user (size, open account, fee, credits, predecessor).  With signature
check, `ts` is rejected with `bad-ts-usersig` when its user signature verifies under `K1`
but not under `K2`, and it is accepted when its user signature verifies under `K2`. -/
theorem signature_under_current_key (env : TsEnv) (tsReset ts : CTransition) (u : CEvoUser)
    (K1 K2 : Nat) (sz : Nat)
    (hcur : u.GetCurPubKeyID = some K1)
    (ha : tsReset.action = Transition_ResetKey) (hk : tsReset.newPubKeyID = K2)
    (hsz : GetSerializeSize ts = .ok sz) (hle : sz ≤ 1500)
    (hopen : (ProcessTransitionForUser env tsReset u).1.closed = false)
    (hf1 : 1000 ≤ ts.nFee) (hf2 : ts.nFee ≤ 10000)
    (hbal : ts.nFee ≤ (ProcessTransitionForUser env tsReset u).1.creditBalance)
    (hprev : ts.hashPrevTransition = (ProcessTransitionForUser env tsReset u).1.lastTransition) :
    (∀ msg sig, u.VerifySig env msg sig = env.VerifyMessage K1 msg sig)
    ∧ (ProcessTransitionForUser env tsReset u).2 = .ok
    ∧ (env.VerifyMessage K1 (env.MakeSignMessage ts) ts.vchUserSig = true →
        env.VerifyMessage K2 (env.MakeSignMessage ts) ts.vchUserSig = false →
        CheckTransitionForUser env ts (ProcessTransitionForUser env tsReset u).1 true
          = .ok (.DoS 100 .REJECT_INVALID "bad-ts-usersig"))
    ∧ (env.VerifyMessage K2 (env.MakeSignMessage ts) ts.vchUserSig = true →
        CheckTransitionForUser env ts (ProcessTransitionForUser env tsReset u).1 true
          = .ok .ok) := by
  simp only [Transition_ResetKey] at ha
  have hkeys : (ProcessTransitionForUser env tsReset u).1.pubKeys = u.pubKeys ++ [K2] := by
    rw [((process_fields env tsReset u).2.1 ha).1, hk]
  have hver : ∀ msg sig, (ProcessTransitionForUser env tsReset u).1.VerifySig env msg sig
      = env.VerifyMessage K2 msg sig := by
    intro msg sig
    simp [CEvoUser.VerifySig, CEvoUser.GetCurPubKeyID, hkeys]
  have h3 : ¬ (ts.nFee < 1000 ∨ 10000 < ts.nFee) := by omega
  have h4 : ¬ ((ProcessTransitionForUser env tsReset u).1.creditBalance < ts.nFee) := by omega
  refine ⟨by intro msg sig; simp [CEvoUser.VerifySig, hcur],
    by rw [process_reset env tsReset u ha], ?_, ?_⟩
  · intro _ h2
    rw [check_of_size env ts _ true sz hsz]
    simp [Nat.not_lt.mpr hle, hopen, h3, h4, hprev, hver, h2]
  · intro h2
    rw [check_of_size env ts _ true sz hsz]
    simp [Nat.not_lt.mpr hle, hopen, h3, h4, hprev, hver, h2]

theorem signature_under_current_key_witness :
    CheckTransitionForUser exampleEnv exampleUpdate
        (ProcessTransitionForUser exampleEnv exampleReset exampleUser).1 true
      = .ok (.DoS 100 .REJECT_INVALID "bad-ts-usersig") :=
  (signature_under_current_key exampleEnv exampleReset exampleUpdate exampleUser 5 6 131
      (by rfl) (by rfl) (by rfl) (by rfl) (by decide) (by rfl) (by decide) (by decide)
      (by decide) (by rfl)).2.2.1 (by decide) (by decide)

/-! ## The block entry point -/

theorem GetUsers_spec (db : CEvoUserDb) (ids : List Nat) (users : UserMap) (anyError : Bool) :
    (∀ k, (GetUsers db ids users anyError).1 k
        = match users k with
          | some u => some u
          | none => if k ∈ ids then db.users k else none)
    ∧ ((GetUsers db ids users anyError).2 = true ↔
        (anyError = true ∨ ∃ id ∈ ids, users id = none ∧ db.users id = none)) := by
  induction ids generalizing users anyError with
  | nil =>
    constructor
    · intro k
      cases hk : users k <;> simp [GetUsers, hk]
    · simp [GetUsers]
  | cons id rest ih =>
    unfold GetUsers
    cases hu : users id with
    | some u =>
      simp only [Option.isSome_some, if_true]
      obtain ⟨h1, h2⟩ := ih users anyError
      constructor
      · intro k
        rw [h1 k]
        cases hk : users k with
        | some w => rfl
        | none =>
          have : k ≠ id := by
            intro he
            rw [he, hu] at hk
            cases hk
          simp [this]
      · rw [h2]
        constructor
        · rintro (h | ⟨i, hi, hi1, hi2⟩)
          · exact Or.inl h
          · exact Or.inr ⟨i, List.mem_cons_of_mem _ hi, hi1, hi2⟩
        · rintro (h | ⟨i, hi, hi1, hi2⟩)
          · exact Or.inl h
          · rcases List.mem_cons.mp hi with hi | hi
            · rw [hi, hu] at hi1
              cases hi1
            · exact Or.inr ⟨i, hi, hi1, hi2⟩
    | none =>
      simp only [Option.isSome_none, Bool.false_eq_true, if_false, CEvoUserDb.GetUser]
      cases hd : db.users id with
      | some w =>
        simp only
        obtain ⟨h1, h2⟩ := ih (users.set id w) anyError
        constructor
        · intro k
          rw [h1 k]
          by_cases hk : k = id
          · subst hk
            simp [UserMap.set, hu, hd]
          · simp [UserMap.set, hk]
        · rw [h2]
          constructor
          · rintro (h | ⟨i, hi, hi1, hi2⟩)
            · exact Or.inl h
            · have hne : i ≠ id := by
                intro he
                rw [he, hd] at hi2
                cases hi2
              rw [UserMap.set_other _ _ _ _ hne] at hi1
              exact Or.inr ⟨i, List.mem_cons_of_mem _ hi, hi1, hi2⟩
          · rintro (h | ⟨i, hi, hi1, hi2⟩)
            · exact Or.inl h
            · have hne : i ≠ id := by
                intro he
                rw [he, hd] at hi2
                cases hi2
              rcases List.mem_cons.mp hi with hi | hi
              · exact absurd hi hne
              · exact Or.inr ⟨i, hi, by rw [UserMap.set_other _ _ _ _ hne]; exact hi1, hi2⟩
      | none =>
        simp only
        obtain ⟨h1, h2⟩ := ih users true
        constructor
        · intro k
          rw [h1 k]
          cases hk : users k with
          | some w => rfl
          | none =>
            by_cases hki : k = id
            · subst hki
              simp [hd]
            · simp [hki]
        · rw [h2]
          constructor
          · intro _
            exact Or.inr ⟨id, List.mem_cons_self _ _, hu, hd⟩
          · intro _
            exact Or.inl rfl

/-- The order of the user identifiers is the one of `uint256`, octet by octet from the least
significant one: `256` comes before `1`. -/
theorem regTxIdsOf_order :
    regTxIdsOf { hash := 0, vts := [{ exampleUpdate with hashRegTx := 1 },
      { exampleUpdate with hashRegTx := 256 }, { exampleUpdate with hashRegTx := 1 }] }
      = [256, 1] := by
  decide

theorem mem_regTxIdsOf (block : CBlock) (k : Nat) :
    k ∈ regTxIdsOf block ↔ ∃ ts ∈ block.vts, ts.hashRegTx = k := by
  unfold regTxIdsOf
  rw [(List.perm_insertionSort _ _).mem_iff, List.mem_dedup, List.mem_map]

/-- What `GetUsersFromBlock` loads into an empty map: it succeeds exactly when every user of
the block is in the store, and the map holds the stored users of the block. -/
theorem GetUsersFromBlock_spec (db : CEvoUserDb) (block : CBlock) :
    ((GetUsersFromBlock db block UserMap.empty).1 = true ↔
        ∀ ts ∈ block.vts, (db.users ts.hashRegTx).isSome = true)
    ∧ (∀ ts ∈ block.vts, (GetUsersFromBlock db block UserMap.empty).2 ts.hashRegTx
        = db.users ts.hashRegTx) := by
  obtain ⟨h1, h2⟩ := GetUsers_spec db (regTxIdsOf block) UserMap.empty false
  unfold GetUsersFromBlock
  constructor
  · simp only [Bool.not_eq_true']
    rw [← Bool.not_eq_true, h2]
    constructor
    · intro h ts hts
      by_contra hc
      apply h
      refine Or.inr ⟨ts.hashRegTx, (mem_regTxIdsOf block _).mpr ⟨ts, hts, rfl⟩, rfl, ?_⟩
      cases hd : db.users ts.hashRegTx with
      | none => rfl
      | some w => simp [hd] at hc
    · intro h hc
      rcases hc with hc | ⟨id, hid, _, hnone⟩
      · cases hc
      · obtain ⟨ts, hts, rfl⟩ := (mem_regTxIdsOf block id).mp hid
        have := h ts hts
        rw [hnone] at this
        cases this
  · intro ts hts
    simp only
    rw [h1]
    simp [UserMap.empty, (mem_regTxIdsOf block _).mpr ⟨ts, hts, rfl⟩]

theorem duplicateScan_of_seen (env : TsEnv) (l : List CTransition) (seen : List Nat)
    (h : ∃ ts ∈ l, env.GetHash ts ∈ seen) : duplicateScan env l seen = true := by
  induction l generalizing seen with
  | nil =>
    obtain ⟨ts, hts, _⟩ := h
    cases hts
  | cons t rest ih =>
    unfold duplicateScan
    by_cases ht : env.GetHash t ∈ seen
    · simp [ht]
    · simp only [ht, if_false]
      obtain ⟨ts, hts, hs⟩ := h
      rcases List.mem_cons.mp hts with hts | hts
      · subst hts
        exact absurd hs ht
      · exact ih _ ⟨ts, hts, List.mem_cons_of_mem _ hs⟩

theorem duplicateScan_of_repeat (env : TsEnv) (l1 l2 l3 : List CTransition)
    (a b : CTransition) (seen : List Nat) (h : env.GetHash a = env.GetHash b) :
    duplicateScan env (l1 ++ a :: l2 ++ b :: l3) seen = true := by
  induction l1 generalizing seen with
  | nil =>
    simp only [List.nil_append, List.cons_append]
    unfold duplicateScan
    by_cases ha : env.GetHash a ∈ seen
    · simp [ha]
    · simp only [ha, if_false]
      apply duplicateScan_of_seen
      exact ⟨b, by simp, by rw [← h]; exact List.mem_cons_self _ _⟩
  | cons t rest ih =>
    simp only [List.cons_append]
    unfold duplicateScan
    by_cases ht : env.GetHash t ∈ seen
    · simp [ht]
    · simp only [ht, if_false]
      have := ih (env.GetHash t :: seen)
      simpa using this

/-- C17: when every user of the block is in the store and two transitions of the block have
the same hash, `ProcessTransitionsInBlock` returns false with `bad-ts-dup`, score 100, and
an untouched store; the rejection comes from the first loop of
`ProcessTransitionsInBlockForUsers`, which returns the users map as it received it, before
any transition is checked or processed. -/
theorem duplicate_transition_rejected (env : TsEnv) (store : StoreEnv) (db : CEvoUserDb)
    (block : CBlock) (onlyCheck : Bool) (l1 l2 l3 : List CTransition) (a b : CTransition)
    (hex : ∀ ts ∈ block.vts, (db.users ts.hashRegTx).isSome = true)
    (hsplit : block.vts = l1 ++ a :: l2 ++ b :: l3)
    (hh : env.GetHash a = env.GetHash b) :
    ProcessTransitionsInBlock env store db block onlyCheck
        = .ok { ret := false, state := .DoS 100 .REJECT_INVALID "bad-ts-dup", db := db }
    ∧ ∀ users, ProcessTransitionsInBlockForUsers env block users
        = .ok (users, .DoS 100 .REJECT_INVALID "bad-ts-dup") := by
  have hscan : duplicateScan env block.vts [] = true := by
    rw [hsplit]
    exact duplicateScan_of_repeat env l1 l2 l3 a b [] hh
  have hfor : ∀ users, ProcessTransitionsInBlockForUsers env block users
      = .ok (users, .DoS 100 .REJECT_INVALID "bad-ts-dup") := by
    intro users
    unfold ProcessTransitionsInBlockForUsers
    rw [if_pos hscan]
  refine ⟨?_, hfor⟩
  have hload := (GetUsersFromBlock_spec db block).1.mpr hex
  unfold ProcessTransitionsInBlock
  simp [hload, hfor, Verdict.toBool]

theorem duplicate_transition_rejected_witness :
    ProcessTransitionsInBlock exampleEnv exampleStore exampleDb exampleDupBlock false
        = .ok { ret := false, state := .DoS 100 .REJECT_INVALID "bad-ts-dup", db := exampleDb } :=
  (duplicate_transition_rejected exampleEnv exampleStore exampleDb exampleDupBlock false
    [] [] [] exampleUpdate exampleUpdate
    (by
      intro ts hts
      simp only [exampleDupBlock, List.mem_cons, List.mem_singleton, or_self,
        List.not_mem_nil, or_false] at hts
      subst hts
      rfl)
    (by rfl) (by rfl)).1

theorem processLoop_cons_eq (env : TsEnv) (ts : CTransition) (rest : List CTransition)
    (users : UserMap) (u : CEvoUser) (hu : users ts.hashRegTx = some u)
    (hc : CheckTransitionForUser env ts u true = .ok .ok)
    (hp : (ProcessTransitionForUser env ts u).2 = .ok) :
    processLoop env (ts :: rest) users
      = processLoop env rest (users.set ts.hashRegTx (ProcessTransitionForUser env ts u).1) := by
  simp only [processLoop]
  rw [UserMap.index_some _ _ _ hu]
  simp [hc, hp, Verdict.toBool]

/-- An accepted run of the second loop over `pre ++ rest` is an accepted run over `pre`
followed by an accepted run over `rest`. -/
theorem processLoop_append_ok (env : TsEnv) (pre rest : List CTransition)
    (users fin : UserMap) (h : processLoop env (pre ++ rest) users = .ok (fin, .ok)) :
    ∃ mid, processLoop env pre users = .ok (mid, .ok)
      ∧ processLoop env rest mid = .ok (fin, .ok) := by
  induction pre generalizing users with
  | nil => exact ⟨users, rfl, h⟩
  | cons t pre' ih =>
    rw [List.cons_append] at h
    obtain ⟨u, hu, hc, hp, hrest⟩ := processLoop_cons_ok env t (pre' ++ rest) users fin h
    obtain ⟨mid, h1, h2⟩ := ih _ hrest
    exact ⟨mid, by rw [processLoop_cons_eq env t pre' users u hu hc hp]; exact h1, h2⟩

/-- An accepted run of the second loop leaves the users without a transition as they are. -/
theorem processLoop_frame (env : TsEnv) (l : List CTransition) (users fin : UserMap)
    (h : processLoop env l users = .ok (fin, .ok)) (k : Nat)
    (hk : ∀ t ∈ l, t.hashRegTx ≠ k) : fin k = users k := by
  induction l generalizing users with
  | nil =>
    simp only [processLoop, Except.ok.injEq, Prod.mk.injEq, and_true] at h
    rw [h]
  | cons t rest ih =>
    obtain ⟨u, _, _, _, hrest⟩ := processLoop_cons_ok env t rest users fin h
    rw [ih _ hrest (fun x hx => hk x (List.mem_cons_of_mem _ hx))]
    exact UserMap.set_other _ _ _ _ (Ne.symm (hk t (List.mem_cons_self _ _)))

/-- An accepted block passed the loader and the second loop on the loaded users. -/
theorem accepted_block_loop (env : TsEnv) (store : StoreEnv) (db : CEvoUserDb)
    (block : CBlock) (onlyCheck : Bool) (out : BlockOutcome)
    (h : ProcessTransitionsInBlock env store db block onlyCheck = .ok out)
    (hacc : out.ret = true) :
    (GetUsersFromBlock db block UserMap.empty).1 = true
      ∧ ∃ fin, processLoop env block.vts (GetUsersFromBlock db block UserMap.empty).2
          = .ok (fin, .ok) := by
  unfold ProcessTransitionsInBlock at h
  simp only at h
  cases hl : (GetUsersFromBlock db block UserMap.empty).1 with
  | false =>
    simp only [hl, Bool.not_false, if_true, Except.ok.injEq] at h
    rw [← h] at hacc
    cases hacc
  | true =>
    refine ⟨rfl, ?_⟩
    simp only [hl, Bool.not_true, Bool.false_eq_true, if_false] at h
    cases hf : ProcessTransitionsInBlockForUsers env block
        (GetUsersFromBlock db block UserMap.empty).2 with
    | error e => simp [hf] at h
    | ok r =>
      obtain ⟨fin, v⟩ := r
      simp only [hf] at h
      cases v with
      | DoS level code reason =>
        simp only [Verdict.toBool, Bool.not_false, if_true, Except.ok.injEq] at h
        rw [← h] at hacc
        cases hacc
      | Error msg =>
        simp only [Verdict.toBool, Bool.not_false, if_true, Except.ok.injEq] at h
        rw [← h] at hacc
        cases hacc
      | ok =>
        unfold ProcessTransitionsInBlockForUsers at hf
        split_ifs at hf with hd
        · simp at hf
        · exact ⟨fin, hf⟩

/-- C18, as amended: in a block accepted by `ProcessTransitionsInBlock`, the predecessor of
every transition is the last transition its user has when the transition is checked, that
is, in the users map after the earlier transitions of the block have been processed; for a
transition that is the first of its user in the block this is the user record loaded from
the store at the start. -/
theorem predecessor_is_last_at_check (env : TsEnv) (store : StoreEnv) (db : CEvoUserDb)
    (block : CBlock) (onlyCheck : Bool) (out : BlockOutcome)
    (h : ProcessTransitionsInBlock env store db block onlyCheck = .ok out)
    (hacc : out.ret = true)
    (pre post : List CTransition) (ts : CTransition)
    (hsplit : block.vts = pre ++ ts :: post) :
    ∃ mid u, processLoop env pre (GetUsersFromBlock db block UserMap.empty).2 = .ok (mid, .ok)
      ∧ mid ts.hashRegTx = some u
      ∧ ts.hashPrevTransition = u.lastTransition
      ∧ ((∀ t ∈ pre, t.hashRegTx ≠ ts.hashRegTx) → db.users ts.hashRegTx = some u) := by
  obtain ⟨_, fin, hloop⟩ := accepted_block_loop env store db block onlyCheck out h hacc
  have hload := (GetUsersFromBlock_spec db block).2 ts (by rw [hsplit]; simp)
  rw [hsplit] at hloop
  obtain ⟨mid, h1, h2⟩ := processLoop_append_ok env pre (ts :: post) _ fin hloop
  obtain ⟨u, hu, hc, _, _⟩ := processLoop_cons_ok env ts post mid fin h2
  refine ⟨mid, u, h1, hu, (check_ok_facts env ts u true hc).2.2.2.2, ?_⟩
  intro hfirst
  rw [← hload, ← processLoop_frame env pre _ mid h1 ts.hashRegTx hfirst]
  exact hu

theorem predecessor_is_last_at_check_witness :
    ∃ mid u,
      processLoop exampleEnv [exampleUpdate]
          (GetUsersFromBlock exampleDb exampleBlock UserMap.empty).2 = .ok (mid, .ok)
      ∧ mid exampleReset.hashRegTx = some u
      ∧ exampleReset.hashPrevTransition = u.lastTransition
      ∧ ((∀ t ∈ [exampleUpdate], t.hashRegTx ≠ exampleReset.hashRegTx) →
          exampleDb.users exampleReset.hashRegTx = some u) :=
  predecessor_is_last_at_check exampleEnv exampleStore exampleDb exampleBlock true
    { ret := true, state := .ok, db := exampleDb } (by rfl) (by rfl)
    [exampleUpdate] [] exampleReset (by rfl)

/-- C18, as stated, fails: the block `exampleBlock` is accepted, its second transition
`exampleReset` names the first transition of the block as predecessor, and that is not the
last transition (none) of the user record in the store before the block. -/
theorem predecessor_differs_from_loaded_record :
    ProcessTransitionsInBlock exampleEnv exampleStore exampleDb exampleBlock true
        = .ok { ret := true, state := .ok, db := exampleDb }
      ∧ exampleReset ∈ exampleBlock.vts
      ∧ exampleDb.users exampleReset.hashRegTx = some exampleUser
      ∧ exampleReset.hashPrevTransition ≠ exampleUser.lastTransition := by
  refine ⟨by rfl, by decide, by rfl, by decide⟩

/-! ## The end-to-end scenario -/

/-- C21, at the scenario of the specification: a user with the single key `5`, 150000
credits, nothing spent, open and without transition; two chained updates and a chained
close, each with fee 1000, pass check and process.  The resulting user has 147000 credits,
3000 spent credits, is closed and has the single key `5`, but its last transition is the
hash of the second update, not the hash of the close transition. -/
theorem end_to_end_scenario_last_transition :
    ((checkThenProcess exampleEnv exampleUpdate exampleUser).bind
        (checkThenProcess exampleEnv exampleUpdate2)).bind
        (checkThenProcess exampleEnv exampleCloseChained)
      = some { regTxId := 7, userName := "bob", pubKeys := [5], creditBalance := 147000,
               spentCredits := 3000, lastTransition := exampleEnv.GetHash exampleUpdate2,
               closed := true }
    ∧ exampleEnv.GetHash exampleUpdate2 ≠ exampleEnv.GetHash exampleCloseChained := by
  refine ⟨by rfl, by decide⟩

/-! ## Layout, collateral lookup and the variants of the provider check -/

/-- C23: a transition whose action is UpdateData, ResetKey or CloseAccount is serialized as,
in this order and with nothing else, the version in 4 octets, the action in 1 octet, the
fee in 8 octets, `hashRegTx` in 32 octets, `hashPrevTransition` in 32 octets (integers in
two's complement, everything in little-endian order), the payload of the action (32 octets
of `hashSTPacket`, 20 octets of `newPubKeyID`, or nothing), the user signature after its
compact size, and the quorum signatures: their number as compact size, then each one after
its compact size.  A CloseAccount transition without signatures takes 79 octets. -/
theorem serialized_layout (ts : CTransition)
    (ha : ts.action = Transition_UpdateData ∨ ts.action = Transition_ResetKey
      ∨ ts.action = Transition_CloseAccount) :
    ts.Serialize = .ok
        (writeLE 4 (toUnsigned 32 ts.nVersion) ++ writeLE 1 (toUnsigned 8 ts.action)
          ++ writeLE 8 (toUnsigned 64 ts.nFee) ++ writeLE 32 ts.hashRegTx
          ++ writeLE 32 ts.hashPrevTransition
          ++ (if ts.action = Transition_UpdateData then writeLE 32 ts.hashSTPacket
              else if ts.action = Transition_ResetKey then writeLE 20 ts.newPubKeyID
              else [])
          ++ (WriteCompactSize ts.vchUserSig.length ++ ts.vchUserSig)
          ++ (WriteCompactSize ts.vvchQuorumSigs.length
              ++ writeVarBytesList ts.vvchQuorumSigs))
    ∧ (∀ bytes, ts.Serialize = .ok bytes →
        bytes.length = 4 + 1 + 8 + 32 + 32
          + (if ts.action = Transition_UpdateData then 32
             else if ts.action = Transition_ResetKey then 20 else 0)
          + ((WriteCompactSize ts.vchUserSig.length).length + ts.vchUserSig.length)
          + ((WriteCompactSize ts.vvchQuorumSigs.length).length
              + (writeVarBytesList ts.vvchQuorumSigs).length))
    ∧ (ts.action = Transition_CloseAccount → ts.vchUserSig = [] → ts.vvchQuorumSigs = [] →
        ∃ bytes, ts.Serialize = .ok bytes ∧ bytes.length = 79) := by
  have h8 : toInt8 ts.action = ts.action := by
    simp only [Transition_UpdateData, Transition_ResetKey, Transition_CloseAccount] at ha
    exact toInt8_small _ (by omega) (by omega)
  have hser : ts.Serialize = .ok
        (writeLE 4 (toUnsigned 32 ts.nVersion) ++ writeLE 1 (toUnsigned 8 ts.action)
          ++ writeLE 8 (toUnsigned 64 ts.nFee) ++ writeLE 32 ts.hashRegTx
          ++ writeLE 32 ts.hashPrevTransition
          ++ (if ts.action = Transition_UpdateData then writeLE 32 ts.hashSTPacket
              else if ts.action = Transition_ResetKey then writeLE 20 ts.newPubKeyID
              else [])
          ++ (WriteCompactSize ts.vchUserSig.length ++ ts.vchUserSig)
          ++ (WriteCompactSize ts.vvchQuorumSigs.length
              ++ writeVarBytesList ts.vvchQuorumSigs)) := by
    unfold CTransition.Serialize
    simp only [h8, writeInt, writeBlob, writeVarBytes, writeVarVec]
    rcases ha with ha | ha | ha
    · simp [ha]
    · have n1 : ¬ (Transition_ResetKey = Transition_UpdateData) := by decide
      simp [ha, n1]
    · have n1 : ¬ (Transition_CloseAccount = Transition_UpdateData) := by decide
      have n2 : ¬ (Transition_CloseAccount = Transition_ResetKey) := by decide
      simp [ha, n1, n2]
  refine ⟨hser, ?_, ?_⟩
  · intro bytes hb
    rw [hser] at hb
    cases hb
    simp only [List.length_append, writeLE_length]
    split_ifs <;> simp [writeLE_length]
  · intro hc hs hq
    refine ⟨_, hser, ?_⟩
    have n1 : ¬ (Transition_CloseAccount = Transition_UpdateData) := by decide
    have n2 : ¬ (Transition_CloseAccount = Transition_ResetKey) := by decide
    simp [hc, hs, hq, n1, n2, writeLE_length, WriteCompactSize, writeVarBytesList]

theorem serialized_layout_witness :
    ∃ bytes, exampleClose.Serialize = .ok bytes ∧ bytes.length = 79 :=
  (serialized_layout exampleClose (by decide)).2.2 (by rfl) (by rfl) (by rfl)

/-- C26: `CheckProviderTxRegister` and its variant without the second address test give the
same verdict (acceptance, or rejection with the same score, code and reason) on every
transaction and block index: the second test cannot fail once the first has passed. -/
theorem second_address_test_is_redundant (env : ProviderEnv) (tx : CTransaction)
    (pindex : Option CBlockIndex) :
    CheckProviderTxRegister env tx pindex
      = CheckProviderTxRegister_singleAddrTest env tx pindex := by
  have key : ∀ (v reg rout : Bool) (x r : Verdict),
      (if (!v || (!reg && !rout)) = true then x
        else if (!reg && !rout) = true then x else r)
      = (if (!v || (!reg && !rout)) = true then x else r) := by
    intro v reg rout x r
    cases v <;> cases reg <;> cases rout <;> rfl
  unfold CheckProviderTxRegister CheckProviderTxRegister_singleAddrTest
  simp only [key]

/-- C28: without a block index the verdict of `CheckProviderTxRegister` is the same for
every list of masternodes and every state of the spork, and a transaction whose payload
satisfies rules 1 to 7 and carries a valid signature is accepted, whatever the list holds
and whether or not operator and owner key differ. -/
theorem without_block_index (env : ProviderEnv) (tx : CTransaction) :
    (∀ (mnLists : Int → List CDeterministicMN) (spork : Int → Bool),
      CheckProviderTxRegister
          { env with GetListAtHeight := mnLists, IsDeterministicMNsSporkActive := spork }
          tx none
        = CheckProviderTxRegister env tx none)
    ∧ (∀ ptx c, env.GetTxPayload tx = some ptx → AdmissionRules1to7 env tx ptx c →
        env.VerifyHash (env.SerializeHash { ptx with vchSig := [] }) ptx.keyIDOwner
          ptx.vchSig = true →
        CheckProviderTxRegister env tx none = .ok) := by
  constructor
  · intro mnLists spork
    rfl
  · intro ptx c hp hr hsig
    rw [check_of_rules env tx none ptx c hp hr,
      checkListAndSig_of_rules env ptx none (by intro pidx h; cases h)]
    simp [checkProviderSig, hsig]

theorem without_block_index_witness :
    CheckProviderTxRegister exampleProviderEnv (exampleProTx [byteOf 10, byteOf 20, byteOf 31])
        none = .ok :=
  (without_block_index exampleProviderEnv (exampleProTx [byteOf 10, byteOf 20, byteOf 31])).2
    _ { nValue := 100000000000, scriptPubKey := [byteOf 118] } (by rfl)
    (by unfold AdmissionRules1to7; decide) (by decide)

/-! ## The store under `ProcessTransitionsInBlock` -/

theorem WriteUsers_verdict (store : StoreEnv) (users : UserMap) (keys : List Nat)
    (db : CEvoUserDb) :
    (WriteUsers store users keys db).2 = .ok
      ∨ ∃ msg, (WriteUsers store users keys db).2 = .Error msg := by
  induction keys generalizing db with
  | nil => exact Or.inl rfl
  | cons k rest ih =>
    unfold WriteUsers
    cases users k with
    | none => exact ih db
    | some user =>
      simp only
      split_ifs
      · exact Or.inr ⟨_, rfl⟩
      · exact ih _

/-- The outcome of `ProcessTransitionsInBlock` when the validation does not lead to writes. -/
theorem block_outcome_without_writes (env : TsEnv) (store : StoreEnv) (db : CEvoUserDb)
    (block : CBlock) (onlyCheck : Bool) :
    ((GetUsersFromBlock db block UserMap.empty).1 = false →
      ProcessTransitionsInBlock env store db block onlyCheck
        = .ok { ret := false, state := .DoS 100 .REJECT_INVALID "bad-ts-nouser", db := db })
    ∧ (∀ users v, (GetUsersFromBlock db block UserMap.empty).1 = true →
        ProcessTransitionsInBlockForUsers env block (GetUsersFromBlock db block UserMap.empty).2
          = .ok (users, v) →
        (v ≠ .ok → ProcessTransitionsInBlock env store db block onlyCheck
          = .ok { ret := false, state := v, db := db })
        ∧ (v = .ok → onlyCheck = true → ProcessTransitionsInBlock env store db block onlyCheck
          = .ok { ret := true, state := .ok, db := db })
        ∧ (v = .ok → onlyCheck = false →
            ∃ out, ProcessTransitionsInBlock env store db block onlyCheck = .ok out
              ∧ (out.state = .ok ∨ ∃ msg, out.state = .Error msg))) := by
  constructor
  · intro hl
    unfold ProcessTransitionsInBlock
    simp [hl]
  · intro users v hl hf
    refine ⟨?_, ?_, ?_⟩
    · intro hv
      have hb : v.toBool = false := by
        cases v with
        | ok => exact absurd rfl hv
        | DoS _ _ _ => rfl
        | Error _ => rfl
      unfold ProcessTransitionsInBlock
      simp [hl, hf, hb]
    · intro hv hc
      unfold ProcessTransitionsInBlock
      simp [hl, hf, hv, hc, Verdict.toBool]
    · intro hv hc
      unfold ProcessTransitionsInBlock
      simp only [hl, hf, hv, hc, Verdict.toBool, Bool.not_true, Bool.false_eq_true, if_false,
        Bool.not_false, if_true]
      split_ifs with hw hwu
      · exact ⟨_, rfl, Or.inl rfl⟩
      · refine ⟨_, rfl, ?_⟩
        rcases WriteUsers_verdict store users (regTxIdsOf block)
          (writeTransitions store env block.hash block.vts db).1 with hk | hk
        · rw [hk] at hwu
          simp [Verdict.toBool] at hwu
        · exact Or.inr hk
      · exact ⟨_, rfl, Or.inl rfl⟩

/-- C27: `ProcessTransitionsInBlock` hands back the store it received, with no write call
added, whenever it is run with `onlyCheck`, whenever a user of the block is missing and
whenever `ProcessTransitionsInBlockForUsers` does not return true (duplicate transition,
failed check or failed processing), that is, whenever it returns with a rejection in the
validation state; the users are only changed in the local map. -/
theorem rejected_or_check_only_leaves_store (env : TsEnv) (store : StoreEnv)
    (db : CEvoUserDb) (block : CBlock) (onlyCheck : Bool) (out : BlockOutcome)
    (h : ProcessTransitionsInBlock env store db block onlyCheck = .ok out) :
    (onlyCheck = true → out.db = db ∧ out.db.calls = db.calls)
    ∧ ((GetUsersFromBlock db block UserMap.empty).1 = false →
        out = { ret := false, state := .DoS 100 .REJECT_INVALID "bad-ts-nouser", db := db })
    ∧ (∀ users v, (GetUsersFromBlock db block UserMap.empty).1 = true →
        ProcessTransitionsInBlockForUsers env block (GetUsersFromBlock db block UserMap.empty).2
          = .ok (users, v) →
        v ≠ .ok → out = { ret := false, state := v, db := db })
    ∧ ((∃ level code reason, out.state = .DoS level code reason) →
        out.ret = false ∧ out.db = db ∧ out.db.calls = db.calls) := by
  obtain ⟨hA, hB⟩ := block_outcome_without_writes env store db block onlyCheck
  have inj : ∀ o : BlockOutcome,
      ProcessTransitionsInBlock env store db block onlyCheck = .ok o → out = o := by
    intro o ho
    rw [ho] at h
    exact (Except.ok.inj h).symm
  cases hl : (GetUsersFromBlock db block UserMap.empty).1 with
  | false =>
    have ho := inj _ (hA hl)
    subst ho
    refine ⟨fun _ => ⟨rfl, rfl⟩, fun _ => rfl, ?_, fun _ => ⟨rfl, rfl, rfl⟩⟩
    intro users v hc
    cases hc
  | true =>
    cases hf : ProcessTransitionsInBlockForUsers env block
        (GetUsersFromBlock db block UserMap.empty).2 with
    | error e =>
      exfalso
      unfold ProcessTransitionsInBlock at h
      simp [hl, hf] at h
    | ok r =>
      obtain ⟨users, v⟩ := r
      obtain ⟨h1, h2, h3⟩ := hB users v hl hf
      by_cases hv : v = .ok
      · cases hc : onlyCheck with
        | true =>
          have ho := inj _ (h2 hv hc)
          subst ho
          refine ⟨fun _ => ⟨rfl, rfl⟩, ?_, ?_, ?_⟩
          · intro hx
            cases hx
          · intro users' v' _ he hne
            simp only [Except.ok.injEq, Prod.mk.injEq] at he
            exact absurd (he.2 ▸ hv) hne
          · rintro ⟨level, code, reason, hs⟩
            cases hs
        | false =>
          obtain ⟨o, ho, hst⟩ := h3 hv hc
          have hoo := inj _ ho
          subst hoo
          refine ⟨?_, ?_, ?_, ?_⟩
          · intro hx
            cases hx
          · intro hx
            cases hx
          · intro users' v' _ he hne
            simp only [Except.ok.injEq, Prod.mk.injEq] at he
            exact absurd (he.2 ▸ hv) hne
          · rintro ⟨level, code, reason, hs⟩
            rcases hst with hst | ⟨msg, hst⟩
            · rw [hst] at hs
              cases hs
            · rw [hst] at hs
              cases hs
      · have ho := inj _ (h1 hv)
        subst ho
        refine ⟨fun _ => ⟨rfl, rfl⟩, ?_, ?_, fun _ => ⟨rfl, rfl, rfl⟩⟩
        · intro hx
          cases hx
        · intro users' v' _ he _
          simp only [Except.ok.injEq, Prod.mk.injEq] at he
          rw [he.2]

theorem rejected_or_check_only_leaves_store_witness :
    ProcessTransitionsInBlock exampleEnv exampleStore exampleDb exampleBlock true
        = .ok { ret := true, state := .ok, db := exampleDb }
      ∧ (ProcessTransitionsInBlock exampleEnv exampleStore exampleDb exampleBlock
            false).toOption.map (fun o => o.db.calls.length) = some 5
      ∧ (({ ret := true, state := .ok, db := exampleDb } : BlockOutcome).db = exampleDb
          ∧ ({ ret := true, state := .ok, db := exampleDb } : BlockOutcome).db.calls
              = exampleDb.calls) :=
  ⟨by rfl, by rfl,
   (rejected_or_check_only_leaves_store exampleEnv exampleStore exampleDb exampleBlock true
      { ret := true, state := .ok, db := exampleDb } (by rfl)).1 rfl⟩

/-! ## The RPC functions -/

theorem CTsMempool.AddWaitForRelay_mem (m : CTsMempool) (tsHash h : Nat) :
    h ∈ (m.AddWaitForRelay tsHash).waitForRelay ↔ h = tsHash ∨ h ∈ m.waitForRelay := by
  unfold CTsMempool.AddWaitForRelay
  by_cases hm : tsHash ∈ m.waitForRelay
  · simp only [hm, if_true]
    constructor
    · intro h1; exact Or.inr h1
    · rintro (h1 | h1)
      · exact h1 ▸ hm
      · exact h1
  · simp only [hm, if_false, List.mem_append, List.mem_singleton]
    tauto

theorem CTsMempool.AddWaitForRelay_transitions (m : CTsMempool) (tsHash : Nat) :
    (m.AddWaitForRelay tsHash).transitions = m.transitions := by
  unfold CTsMempool.AddWaitForRelay
  split <;> rfl

/-- What `sendrawtransition` does with a decoded transition that fails `CheckTransition`,
with and without the `relay` argument. -/
theorem sendrawtransition_rejected (env : RpcEnv) (mempool : CTsMempool)
    (hexTs : String) (relayArg : Option Bool) (ts : CTransition) (rest : List Byte)
    (hdec : CTransition.Unserialize CTransition.fresh (env.ParseHex hexTs) = .ok (ts, rest))
    (hfail : (env.CheckTransition (mempool.AddTransition env.ts ts) ts true true).1 = false) :
    let request : JSONRPCRequest :=
      { fHelp := false, params := .str hexTs :: (relayArg.map UniValue.bool).toList }
    let out := sendrawtransition env request mempool
    let code := (env.CheckTransition (mempool.AddTransition env.ts ts) ts true true).2
    let deferred := code = env.REJECT_TS_ANCESTOR ∨ code = env.REJECT_TS_NOUSER
      ∨ code = env.REJECT_INSUFFICIENTFEE
    (∃ what, out.result = .error (.runtime_error what))
    ∧ out.relayed = []
    ∧ out.mempool.transitions = (mempool.AddTransition env.ts ts).transitions
    ∧ (relayArg ≠ some false ∧ deferred →
        env.ts.GetHash ts ∈ out.mempool.waitForRelay
        ∧ ∀ h, h ∈ out.mempool.waitForRelay ↔ h = env.ts.GetHash ts ∨ h ∈ mempool.waitForRelay)
    ∧ (relayArg = some false ∨ ¬ deferred →
        out.mempool.waitForRelay = mempool.waitForRelay) := by
  intro request out code deferred
  have hwait : (mempool.AddTransition env.ts ts).waitForRelay = mempool.waitForRelay := by
    unfold CTsMempool.AddTransition
    split <;> rfl
  by_cases hd : deferred
  · have hd' : (env.CheckTransition (mempool.AddTransition env.ts ts) ts true true).2
          = env.REJECT_TS_ANCESTOR
        ∨ (env.CheckTransition (mempool.AddTransition env.ts ts) ts true true).2
          = env.REJECT_TS_NOUSER
        ∨ (env.CheckTransition (mempool.AddTransition env.ts ts) ts true true).2
          = env.REJECT_INSUFFICIENTFEE := hd
    rcases relayArg with _ | b
    · have hout : out = ⟨CTsMempool.AddWaitForRelay (mempool.AddTransition env.ts ts) (env.ts.GetHash ts), [],
            .error (.runtime_error "transition not valid")⟩ := by
        simp [out, request, sendrawtransition, JSONRPCRequest.param, UniValue.get_str, hdec,
          hfail, hd']
      rw [hout]
      refine ⟨⟨_, rfl⟩, rfl, CTsMempool.AddWaitForRelay_transitions _ _, ?_, ?_⟩
      · intro _
        refine ⟨(CTsMempool.AddWaitForRelay_mem _ _ _).2 (Or.inl rfl), fun h => ?_⟩
        rw [CTsMempool.AddWaitForRelay_mem, hwait]
      · rintro (h | h)
        · cases h
        · exact absurd hd h
    · cases b
      · have hout : out = ⟨mempool.AddTransition env.ts ts, [],
            .error (.runtime_error "transition not valid")⟩ := by
          simp [out, request, sendrawtransition, JSONRPCRequest.param, UniValue.get_str,
            UniValue.get_bool, hdec, hfail]
        rw [hout]
        refine ⟨⟨_, rfl⟩, rfl, rfl, ?_, ?_⟩
        · rintro ⟨h, _⟩
          exact absurd rfl h
        · intro _
          exact hwait
      · have hout : out = ⟨CTsMempool.AddWaitForRelay (mempool.AddTransition env.ts ts) (env.ts.GetHash ts), [],
            .error (.runtime_error "transition not valid")⟩ := by
          simp [out, request, sendrawtransition, JSONRPCRequest.param, UniValue.get_str,
            UniValue.get_bool, hdec, hfail, hd']
        rw [hout]
        refine ⟨⟨_, rfl⟩, rfl, CTsMempool.AddWaitForRelay_transitions _ _, ?_, ?_⟩
        · intro _
          refine ⟨(CTsMempool.AddWaitForRelay_mem _ _ _).2 (Or.inl rfl), fun h => ?_⟩
          rw [CTsMempool.AddWaitForRelay_mem, hwait]
        · rintro (h | h)
          · cases h
          · exact absurd hd h
  · have hd' : ¬ ((env.CheckTransition (mempool.AddTransition env.ts ts) ts true true).2
          = env.REJECT_TS_ANCESTOR
        ∨ (env.CheckTransition (mempool.AddTransition env.ts ts) ts true true).2
          = env.REJECT_TS_NOUSER
        ∨ (env.CheckTransition (mempool.AddTransition env.ts ts) ts true true).2
          = env.REJECT_INSUFFICIENTFEE) := hd
    have hout : out = ⟨mempool.AddTransition env.ts ts, [],
        .error (.runtime_error "transition not valid")⟩ := by
      rcases relayArg with _ | b
      · simp [out, request, sendrawtransition, JSONRPCRequest.param, UniValue.get_str, hdec,
          hfail, hd']
      · simp [out, request, sendrawtransition, JSONRPCRequest.param, UniValue.get_str,
          UniValue.get_bool, hdec, hfail, hd']
    rw [hout]
    refine ⟨⟨_, rfl⟩, rfl, rfl, ?_, ?_⟩
    · rintro ⟨_, h⟩
      exact absurd h hd
    · intro _
      exact hwait

/-- Every rejection of `CheckTransitionForUser` carries the reject code `REJECT_INVALID`
and score 100. -/
theorem check_rejections_invalid (env : TsEnv) (ts : CTransition) (u : CEvoUser)
    (checkSigs : Bool) (v : Verdict) (h : CheckTransitionForUser env ts u checkSigs = .ok v) :
    v = .ok ∨ ∃ reason, v = .DoS 100 .REJECT_INVALID reason := by
  cases hsz : GetSerializeSize ts with
  | error e => simp [CheckTransitionForUser, hsz] at h
  | ok sz =>
    rw [check_of_size env ts u checkSigs sz hsz] at h
    simp only [Except.ok.injEq] at h
    rw [← h]
    split_ifs
    all_goals first
      | exact Or.inl rfl
      | exact Or.inr ⟨_, rfl⟩

/-- C22, as amended: when a transition submitted through `sendrawtransition` (with or
without the `relay` argument) is decoded and then fails `CheckTransition`, the call throws
a runtime error, announces nothing, and leaves the transition in the mempool, where it was
put before the validation.  Its hash is added to `waitForRelay` exactly when the `relay`
argument is absent or true and the reject code left by `CheckTransition` is
`REJECT_TS_ANCESTOR`, `REJECT_TS_NOUSER` or `REJECT_INSUFFICIENTFEE`; with `relay` false,
or with any other reject code, `waitForRelay` is left as it was.  Which failure gets which
code is decided inside `CheckTransition`; every rejection of `CheckTransitionForUser`,
`bad-ts-ancestor` and `bad-ts-nocredits` among them, carries `REJECT_INVALID`. -/
theorem parking_of_deferred_transitions (env : RpcEnv) (mempool : CTsMempool)
    (hexTs : String) (relayArg : Option Bool) (ts : CTransition) (rest : List Byte)
    (hdec : CTransition.Unserialize CTransition.fresh (env.ParseHex hexTs) = .ok (ts, rest))
    (hfail : (env.CheckTransition (mempool.AddTransition env.ts ts) ts true true).1 = false) :
    let request : JSONRPCRequest :=
      { fHelp := false, params := .str hexTs :: (relayArg.map UniValue.bool).toList }
    let out := sendrawtransition env request mempool
    let code := (env.CheckTransition (mempool.AddTransition env.ts ts) ts true true).2
    let deferred := code = env.REJECT_TS_ANCESTOR ∨ code = env.REJECT_TS_NOUSER
      ∨ code = env.REJECT_INSUFFICIENTFEE
    (∃ what, out.result = .error (.runtime_error what))
    ∧ out.relayed = []
    ∧ out.mempool.transitions = (mempool.AddTransition env.ts ts).transitions
    ∧ (relayArg ≠ some false ∧ deferred →
        env.ts.GetHash ts ∈ out.mempool.waitForRelay
        ∧ ∀ h, h ∈ out.mempool.waitForRelay ↔ h = env.ts.GetHash ts ∨ h ∈ mempool.waitForRelay)
    ∧ (relayArg = some false ∨ ¬ deferred →
        out.mempool.waitForRelay = mempool.waitForRelay)
    ∧ (∀ u checkSigs v, CheckTransitionForUser env.ts ts u checkSigs = .ok v →
        v = .ok ∨ ∃ reason, v = .DoS 100 .REJECT_INVALID reason) := by
  intro request out code deferred
  obtain ⟨h1, h2, h3, h4, h5⟩ := sendrawtransition_rejected env mempool hexTs relayArg ts rest
    hdec hfail
  exact ⟨h1, h2, h3, h4, h5, fun u checkSigs v h => check_rejections_invalid env.ts ts u checkSigs v h⟩

theorem parking_of_deferred_transitions_witness :
    exampleHash exampleUpdate2
      ∈ (sendrawtransition exampleRpcEnv
          { fHelp := false, params := [.str "update2", .bool true] }
          exampleMempool).mempool.waitForRelay
    ∧ (sendrawtransition exampleRpcEnv
          { fHelp := false, params := [.str "update2", .bool false] }
          exampleMempool).mempool.waitForRelay = [] :=
  ⟨((parking_of_deferred_transitions exampleRpcEnv exampleMempool "update2" (some true)
      exampleUpdate2 [] (by rfl) (by rfl)).2.2.2.1 ⟨by decide, Or.inl (by rfl)⟩).1,
   (parking_of_deferred_transitions exampleRpcEnv exampleMempool "update2" (some false)
      exampleUpdate2 [] (by rfl) (by rfl)).2.2.2.2.1 (Or.inl rfl)⟩

/-- C22, the claim as written fails, in two ways.  The transition `exampleUpdate2` names a
predecessor the user does not have, and `CheckTransitionForUser` rejects it with
`bad-ts-ancestor` and the code `REJECT_INVALID`.  (1) Where `CheckTransition` reports this
failure with the code `REJECT_TS_ANCESTOR` and the transition is submitted with `relay`
false, the call reports the rejection but the hash is not put into `waitForRelay`.
(2) Where `CheckTransition` leaves the code of `CheckTransitionForUser` as it is, the hash
is not put into `waitForRelay` for any value of the `relay` argument: what is tested is the
reject code, and the failure by itself does not decide it. -/
theorem relay_false_is_not_parked :
    CheckTransitionForUser exampleEnv exampleUpdate2 exampleUser true
      = .ok (.DoS 100 .REJECT_INVALID "bad-ts-ancestor")
    ∧ (exampleRpcEnv.CheckTransition
        (exampleMempool.AddTransition exampleRpcEnv.ts exampleUpdate2) exampleUpdate2 true true)
      = (false, exampleRpcEnv.REJECT_TS_ANCESTOR)
    ∧ (sendrawtransition exampleRpcEnv
        { fHelp := false, params := [.str "update2", .bool false] } exampleMempool).result
      = .error (.runtime_error "transition not valid")
    ∧ (sendrawtransition exampleRpcEnv
        { fHelp := false, params := [.str "update2", .bool false] } exampleMempool).mempool.waitForRelay
      = []
    ∧ (∀ params ∈ [[UniValue.str "update2"], [.str "update2", .bool true],
          [.str "update2", .bool false]],
        (sendrawtransition examplePassThroughEnv
            { fHelp := false, params := params } exampleMempool).result
          = .error (.runtime_error "transition not valid")
        ∧ (sendrawtransition examplePassThroughEnv
            { fHelp := false, params := params } exampleMempool).mempool.waitForRelay = []) := by
  refine ⟨by rfl, by rfl, by rfl, by rfl, ?_⟩
  intro params hp
  simp only [List.mem_cons, List.mem_singleton, List.not_mem_nil, or_false] at hp
  rcases hp with hp | hp | hp
  · rw [hp]
    exact ⟨by rfl, by rfl⟩
  · rw [hp]
    exact ⟨by rfl, by rfl⟩
  · rw [hp]
    exact ⟨by rfl, by rfl⟩

/-- C25, where the code departs from the claim: for the user "bob", whose last transition
is `exampleUpdate`, (1) the documented call `close "bob" 0.00001` is refused by the
argument-count check, which throws the help text; (2) a close transition created with a
previous transition supplied as fourth argument has `hashPrevTransition` zero, although
the argument is read as `4` and the last transition of the user is not zero either; while
(3) an update is chained to the last transition of the looked-up user when no previous
transition is supplied and (4) to the supplied one otherwise. -/
theorem createrawtransition_close_is_not_chained :
    createrawtransition exampleRpcEnv
        { fHelp := false, params := [.str "close", .str "bob", .str "0.00001"] }
      = .error (.runtime_error createrawtransition_help)
    ∧ (createrawtransition_ts exampleRpcEnv
        { fHelp := false, params := [.str "close", .str "bob", .str "0.00001", .str "abcd"] })
      = .ok { CTransition.fresh with nVersion := 0x00010000, action := Transition_CloseAccount,
                                     nFee := 1000, hashRegTx := 7, hashPrevTransition := 0 }
    ∧ exampleRpcEnv.ParseHashStr "abcd" "hashLastTransition" = .ok 4
    ∧ (exampleRpcEnv.GetUser 7).map
        (fun u => (exampleRpcEnv.ApplyUserTransitionsFromMempool u).GetHashLastTransition)
      = some (exampleHash exampleUpdate)
    ∧ exampleHash exampleUpdate ≠ 0
    ∧ (createrawtransition_ts exampleRpcEnv
        { fHelp := false, params := [.str "update", .str "bob", .str "0.00001", .str "ab"] })
      = .ok { CTransition.fresh with nVersion := 0x00010000, action := Transition_UpdateData,
                                     nFee := 1000, hashRegTx := 7, hashSTPacket := 2,
                                     hashPrevTransition := exampleHash exampleUpdate }
    ∧ (createrawtransition_ts exampleRpcEnv
        { fHelp := false,
          params := [.str "update", .str "bob", .str "0.00001", .str "ab", .str "abcd"] })
      = .ok { CTransition.fresh with nVersion := 0x00010000, action := Transition_UpdateData,
                                     nFee := 1000, hashRegTx := 7, hashSTPacket := 2,
                                     hashPrevTransition := 4 } := by
  refine ⟨by rfl, by rfl, by rfl, by rfl, by decide, by rfl, by rfl⟩

/-! ## The deterministic masternode manager -/

theorem GetLocalAddress_manager (env : MnEnv) (self : CActiveDeterministicMasternodeManager)
    (addrRet : CService) :
    (CActiveDeterministicMasternodeManager.GetLocalAddress env self addrRet).2.2.proTx = self.proTx
    ∧ (CActiveDeterministicMasternodeManager.GetLocalAddress env self addrRet).2.2.state
        = self.state := by
  unfold CActiveDeterministicMasternodeManager.GetLocalAddress
  dsimp only
  split_ifs <;> exact ⟨rfl, rfl⟩

theorem Init_of_conditions (env : MnEnv) (w : MasternodeGlobals) (h : InitConditions env w) :
    CActiveDeterministicMasternodeManager.Init env w
      = { w with
          manager :=
            { (CActiveDeterministicMasternodeManager.GetLocalAddress env w.manager
                w.activeMasternode.service).2.2 with
              proTx := (env.GetRegisterMN w.activeMasternode.proTxHash w.manager.proTx).2
              state := .MASTERNODE_READY }
          activeMasternode :=
            { w.activeMasternode with
              service := (CActiveDeterministicMasternodeManager.GetLocalAddress env w.manager
                w.activeMasternode.service).2.1
              outpoint :=
                { hash := w.activeMasternode.proTxHash
                  n := toUnsigned 32 (env.GetRegisterMN w.activeMasternode.proTxHash
                    w.manager.proTx).2.nCollateralIndex } } } := by
  obtain ⟨h1, h2, h3, h4, h5, h6, h7, h8⟩ := h
  have hp := (GetLocalAddress_manager env w.manager w.activeMasternode.service).1
  unfold CActiveDeterministicMasternodeManager.Init
  simp only [hp] at *
  simp [h1, h2, h3, h4, h5, ← h6, h7, h8]

theorem Init_of_not_conditions (env : MnEnv) (w : MasternodeGlobals)
    (h : ¬ InitConditions env w) :
    ((CActiveDeterministicMasternodeManager.Init env w).manager.state = w.manager.state
      ∨ (CActiveDeterministicMasternodeManager.Init env w).manager.state = .MASTERNODE_ERROR
      ∨ (CActiveDeterministicMasternodeManager.Init env w).manager.state = .MASTERNODE_REMOVED)
    ∧ (CActiveDeterministicMasternodeManager.Init env w).activeMasternode.outpoint
        = w.activeMasternode.outpoint := by
  have hp := GetLocalAddress_manager env w.manager w.activeMasternode.service
  unfold InitConditions at h
  unfold CActiveDeterministicMasternodeManager.Init
  by_cases h1 : env.fMasternodeMode = true
  swap
  · simp [h1]
  by_cases h2 : env.sporkActiveAtTip = true
  swap
  · simp [h1, h2]
  by_cases h3 : (CActiveDeterministicMasternodeManager.GetLocalAddress env w.manager
      w.activeMasternode.service).1 = true
  swap
  · simp [h1, h2, h3]
  by_cases h4 : (env.GetRegisterMN w.activeMasternode.proTxHash w.manager.proTx).1 = true
  swap
  · simp [h1, h2, h3, hp.1, h4, hp.2]
  by_cases h5 : env.HasMNAtChainTip w.activeMasternode.proTxHash = true
  swap
  · simp [h1, h2, h3, hp.1, h4, h5]
  by_cases h6 : w.activeMasternode.pubKeyIDMasternode
      = env.keyIDMasternode (env.GetRegisterMN w.activeMasternode.proTxHash w.manager.proTx).2
  swap
  · simp [h1, h2, h3, hp.1, h4, h5, h6]
  by_cases h7 : (CActiveDeterministicMasternodeManager.GetLocalAddress env w.manager
      w.activeMasternode.service).2.1
      = (env.GetRegisterMN w.activeMasternode.proTxHash w.manager.proTx).2.addr
  swap
  · simp [h1, h2, h3, hp.1, h4, h5, ← h6, h7]
  by_cases h8 : (env.GetRegisterMN w.activeMasternode.proTxHash w.manager.proTx).2.nProtocolVersion
      = env.PROTOCOL_VERSION
  swap
  · simp [h1, h2, h3, hp.1, h4, h5, ← h6, h7, h8]
  exact absurd ⟨h1, h2, h3, h4, h5, h6, h7, h8⟩ h

theorem Init_example :
    CActiveDeterministicMasternodeManager.Init exampleMnEnv exampleGlobals
      = { manager := { state := .MASTERNODE_READY, strError := "", proTx := exampleEntry.proTx }
          activeMasternode :=
            { pubKeyIDMasternode := 20, proTxHash := 1000, outpoint := { hash := 1000, n := 0 },
              service := { ip := 10, port := 9999 } }
          miscWarning := "" } := by
  decide

/-- C29: `Init` sets the state to `MASTERNODE_READY` exactly when masternode mode is on, the
spork is active at the chain tip, `GetLocalAddress` found a local address, `GetRegisterMN`
found the ProTx of the configured `proTxHash`, that ProTx is in the list at the chain tip,
the local key identifier equals the `keyIDMasternode` of the ProTx, the local address found
equals the `addr` of the ProTx, and the `nProtocolVersion` of the ProTx equals
`PROTOCOL_VERSION`.  In that case the outpoint of `activeMasternode` is the configured
`proTxHash` with the collateral index of the ProTx (as 32-bit unsigned value, which is the
index itself when it is in range).  In every other case the state is left as it was or set
to `MASTERNODE_ERROR` or `MASTERNODE_REMOVED`, and the outpoint is left as it was; so a
manager that was not ready before is ready afterwards if and only if the conditions hold. -/
theorem Init_ready_iff_conditions (env : MnEnv) (w : MasternodeGlobals) :
    (InitConditions env w →
      (CActiveDeterministicMasternodeManager.Init env w).manager.state = .MASTERNODE_READY
      ∧ (CActiveDeterministicMasternodeManager.Init env w).manager.proTx
          = (env.GetRegisterMN w.activeMasternode.proTxHash w.manager.proTx).2
      ∧ (CActiveDeterministicMasternodeManager.Init env w).activeMasternode.proTxHash
          = w.activeMasternode.proTxHash
      ∧ (CActiveDeterministicMasternodeManager.Init env w).activeMasternode.outpoint
          = { hash := w.activeMasternode.proTxHash
              n := toUnsigned 32 (env.GetRegisterMN w.activeMasternode.proTxHash
                w.manager.proTx).2.nCollateralIndex }
      ∧ (0 ≤ (env.GetRegisterMN w.activeMasternode.proTxHash w.manager.proTx).2.nCollateralIndex →
          (env.GetRegisterMN w.activeMasternode.proTxHash w.manager.proTx).2.nCollateralIndex
            < 2 ^ 32 →
          (((CActiveDeterministicMasternodeManager.Init env w).activeMasternode.outpoint.n : Nat)
              : Int)
            = (env.GetRegisterMN w.activeMasternode.proTxHash w.manager.proTx).2.nCollateralIndex))
    ∧ (¬ InitConditions env w →
        ((CActiveDeterministicMasternodeManager.Init env w).manager.state = w.manager.state
          ∨ (CActiveDeterministicMasternodeManager.Init env w).manager.state = .MASTERNODE_ERROR
          ∨ (CActiveDeterministicMasternodeManager.Init env w).manager.state
              = .MASTERNODE_REMOVED)
        ∧ (CActiveDeterministicMasternodeManager.Init env w).activeMasternode.outpoint
            = w.activeMasternode.outpoint)
    ∧ (w.manager.state ≠ .MASTERNODE_READY →
        ((CActiveDeterministicMasternodeManager.Init env w).manager.state = .MASTERNODE_READY
          ↔ InitConditions env w)) := by
  refine ⟨fun h => ?_, fun h => Init_of_not_conditions env w h, fun hw => ⟨fun hr => ?_, fun h => ?_⟩⟩
  · rw [Init_of_conditions env w h]
    refine ⟨rfl, rfl, rfl, rfl, fun h0 h1 => ?_⟩
    show ((toUnsigned 32 _ : Nat) : Int) = _
    unfold toUnsigned
    rw [Int.toNat_of_nonneg (Int.emod_nonneg _ (by norm_num))]
    exact Int.emod_eq_of_lt h0 (by simpa using h1)
  · by_contra hc
    rcases (Init_of_not_conditions env w hc).1 with h | h | h
    · exact hw (h ▸ hr)
    · rw [h] at hr; cases hr
    · rw [h] at hr; cases hr
  · rw [Init_of_conditions env w h]

theorem Init_ready_iff_conditions_witness :
    InitConditions exampleMnEnv exampleGlobals
    ∧ (CActiveDeterministicMasternodeManager.Init exampleMnEnv exampleGlobals).manager.state
        = .MASTERNODE_READY
    ∧ (CActiveDeterministicMasternodeManager.Init exampleMnEnv
        exampleGlobals).activeMasternode.outpoint = { hash := 1000, n := 0 } :=
  ⟨by decide,
   ((Init_ready_iff_conditions exampleMnEnv exampleGlobals).1 (by decide)).1,
   ((Init_ready_iff_conditions exampleMnEnv exampleGlobals).1 (by decide)).2.2.2.1⟩

/-- C30: a call of `UpdatedBlockTip` in state `MASTERNODE_REMOVED` or `MASTERNODE_ERROR`
leaves the manager (so its state) and `activeMasternode` as they were.  When the call
changes the state, either the state was `MASTERNODE_WAITING_FOR_PROTX` and the call did what
`Init` does, or the state was `MASTERNODE_READY`, the ProTx is not in the list at the new
height, the new state is `MASTERNODE_REMOVED` and the outpoint has been set to null.  With
masternode mode off or the spork inactive at the new height the call changes nothing at
all; with a null `proTxHash` it leaves the manager and `activeMasternode` as they were (and
only sets the warning of the node). -/
theorem UpdatedBlockTip_absorbing (env : MnEnv) (w : MasternodeGlobals)
    (pindexNew : CBlockIndex) (pindexFork : Option CBlockIndex) (fInitialDownload : Bool) :
    ((w.manager.state = .MASTERNODE_REMOVED ∨ w.manager.state = .MASTERNODE_ERROR) →
      (CActiveDeterministicMasternodeManager.UpdatedBlockTip env w pindexNew pindexFork
        fInitialDownload).manager = w.manager
      ∧ (CActiveDeterministicMasternodeManager.UpdatedBlockTip env w pindexNew pindexFork
        fInitialDownload).activeMasternode = w.activeMasternode)
    ∧ ((CActiveDeterministicMasternodeManager.UpdatedBlockTip env w pindexNew pindexFork
        fInitialDownload).manager.state ≠ w.manager.state →
      (w.manager.state = .MASTERNODE_WAITING_FOR_PROTX
        ∧ CActiveDeterministicMasternodeManager.UpdatedBlockTip env w pindexNew pindexFork
            fInitialDownload = CActiveDeterministicMasternodeManager.Init env w)
      ∨ (w.manager.state = .MASTERNODE_READY
        ∧ env.HasMNAtHeight pindexNew.nHeight w.activeMasternode.proTxHash = false
        ∧ (CActiveDeterministicMasternodeManager.UpdatedBlockTip env w pindexNew pindexFork
            fInitialDownload).manager.state = .MASTERNODE_REMOVED
        ∧ (CActiveDeterministicMasternodeManager.UpdatedBlockTip env w pindexNew pindexFork
            fInitialDownload).activeMasternode.outpoint
            = env.SetNull w.activeMasternode.outpoint))
    ∧ ((env.fMasternodeMode = false
        ∨ env.IsDeterministicMNsSporkActive pindexNew.nHeight = false) →
      CActiveDeterministicMasternodeManager.UpdatedBlockTip env w pindexNew pindexFork
        fInitialDownload = w)
    ∧ (w.activeMasternode.proTxHash = 0 →
      (CActiveDeterministicMasternodeManager.UpdatedBlockTip env w pindexNew pindexFork
        fInitialDownload).manager = w.manager
      ∧ (CActiveDeterministicMasternodeManager.UpdatedBlockTip env w pindexNew pindexFork
        fInitialDownload).activeMasternode = w.activeMasternode)
    ∧ (env.fMasternodeMode = true → env.IsDeterministicMNsSporkActive pindexNew.nHeight = true →
      w.activeMasternode.proTxHash = 0 →
      CActiveDeterministicMasternodeManager.UpdatedBlockTip env w pindexNew pindexFork
        fInitialDownload
        = { w with miscWarning := "Deterministic masternodes activated but you did not specifiy -masternodeprotx. Your masternode will never be enabled." }) := by
  unfold CActiveDeterministicMasternodeManager.UpdatedBlockTip
  by_cases h1 : env.fMasternodeMode = true
  swap
  · simp [h1]
  by_cases h2 : env.IsDeterministicMNsSporkActive pindexNew.nHeight = true
  swap
  · simp [h1, h2]
  by_cases h3 : w.activeMasternode.proTxHash = 0
  · simp [h1, h2, h3]
  by_cases h4 : w.manager.state = .MASTERNODE_WAITING_FOR_PROTX
  · simp [h1, h2, h3, h4]
  by_cases h5 : w.manager.state = .MASTERNODE_READY
  · by_cases h6 : env.HasMNAtHeight pindexNew.nHeight w.activeMasternode.proTxHash = true
    · simp [h1, h2, h3, h5, h6]
    · simp [h1, h2, h3, h5, h6]
  · simp [h1, h2, h3, h4, h5]

theorem UpdatedBlockTip_absorbing_witness :
    (CActiveDeterministicMasternodeManager.UpdatedBlockTip exampleMnEnv
        { exampleGlobals with
          manager := { exampleGlobals.manager with state := .MASTERNODE_REMOVED } }
        { nHeight := 50 } none false).manager.state = .MASTERNODE_REMOVED
    ∧ (CActiveDeterministicMasternodeManager.UpdatedBlockTip exampleMnEnv
        (CActiveDeterministicMasternodeManager.Init exampleMnEnv exampleGlobals)
        { nHeight := 100 } none false).manager.state = .MASTERNODE_REMOVED :=
  ⟨congrArg (fun m => m.state)
      ((UpdatedBlockTip_absorbing exampleMnEnv
        { exampleGlobals with
          manager := { exampleGlobals.manager with state := .MASTERNODE_REMOVED } }
        { nHeight := 50 } none false).1 (Or.inl rfl)).1,
   by decide⟩

end Evo
